import Mathlib

/-!
# Carrier-Shipment-Emailer: a verification development

A shallow embedding of the browser extension's scripts
(`background.js`, `popup.js`, `shipmentList.js`) and theorems about them.

Conventions of the embedding:

* a JavaScript string is a Lean `String`; the string operations of the source
  (`trim`, `toLowerCase`, `toUpperCase`, `includes`, `join`) are written over
  `String.data` so that they evaluate in the kernel; `toUpperCase` is the full
  Unicode mapping;
* a JSON document is a value of `Json`; the JavaScript value `undefined` is the
  `none` of `JsVal = Option Json`;
* a JSON number is an integer (`Json.num`) of magnitude below `10^21`, which
  `String` prints as its decimal expansion; fractional and larger numbers are
  outside the model;
* the host environment (date parsing, `Intl` formatting, the network, the
  clock) is a parameter.
-/

namespace ShipmentEmailer

/-! ## JavaScript strings -/

/-- The characters matched by `\s` and removed by `String.prototype.trim`:
ECMAScript WhiteSpace and LineTerminator code points. -/
def isJsWhitespace (c : Char) : Bool :=
  let n := c.toNat
  n == 0x09 || n == 0x0A || n == 0x0B || n == 0x0C || n == 0x0D || n == 0x20 ||
  n == 0xA0 || n == 0x1680 || (0x2000 ≤ n && n ≤ 0x200A) || n == 0x2028 ||
  n == 0x2029 || n == 0x202F || n == 0x205F || n == 0x3000 || n == 0xFEFF

/-- The ECMAScript LineTerminator code points, which `.` does not match. -/
def isLineTerminator (c : Char) : Bool :=
  let n := c.toNat
  n == 0x0A || n == 0x0D || n == 0x2028 || n == 0x2029

/-- The characters matched by `.` (no `s` flag). -/
def isDotChar (c : Char) : Bool := !isLineTerminator c

/-- Lower-case mapping of one character. Only `A`..`Z` are mapped; the
strings compared against a lower-cased value in the source are ASCII words
without `k`, so no other character can lower-case into them. -/
def lowerChar (c : Char) : Char :=
  if 65 ≤ c.toNat ∧ c.toNat ≤ 90 then Char.ofNat (c.toNat + 32) else c

/-- Upper-case mapping of one character of Basic Latin. Only `a`..`z` are
mapped. -/
def upperChar (c : Char) : Char :=
  if 97 ≤ c.toNat ∧ c.toNat ≤ 122 then Char.ofNat (c.toNat - 32) else c

/-- The method `String.prototype.toLowerCase`. -/
def toLowerCase (s : String) : String := ⟨s.data.map lowerChar⟩

/-- The characters outside Basic Latin whose upper case is one other
character (Unicode 14.0, `UnicodeData.txt`), as runs
`(first, last, step, upper of first)`: the characters `first`, `first + step`,
..., `last` map to `upper of first`, `upper of first + step`, ... -/
def upperRuns : List (Nat × Nat × Nat × Nat) :=
  [(0x00B5, 0x00B5, 1, 0x039C), (0x00E0, 0x00F6, 1, 0x00C0), (0x00F8, 0x00FE, 1, 0x00D8),
   (0x00FF, 0x00FF, 1, 0x0178), (0x0101, 0x012F, 2, 0x0100), (0x0131, 0x0131, 1, 0x0049),
   (0x0133, 0x0137, 2, 0x0132), (0x013A, 0x0148, 2, 0x0139), (0x014B, 0x0177, 2, 0x014A),
   (0x017A, 0x017E, 2, 0x0179), (0x017F, 0x017F, 1, 0x0053), (0x0180, 0x0180, 1, 0x0243),
   (0x0183, 0x0185, 2, 0x0182), (0x0188, 0x0188, 1, 0x0187), (0x018C, 0x018C, 1, 0x018B),
   (0x0192, 0x0192, 1, 0x0191), (0x0195, 0x0195, 1, 0x01F6), (0x0199, 0x0199, 1, 0x0198),
   (0x019A, 0x019A, 1, 0x023D), (0x019E, 0x019E, 1, 0x0220), (0x01A1, 0x01A5, 2, 0x01A0),
   (0x01A8, 0x01A8, 1, 0x01A7), (0x01AD, 0x01AD, 1, 0x01AC), (0x01B0, 0x01B0, 1, 0x01AF),
   (0x01B4, 0x01B6, 2, 0x01B3), (0x01B9, 0x01B9, 1, 0x01B8), (0x01BD, 0x01BD, 1, 0x01BC),
   (0x01BF, 0x01BF, 1, 0x01F7), (0x01C5, 0x01C5, 1, 0x01C4), (0x01C6, 0x01C6, 1, 0x01C4),
   (0x01C8, 0x01C8, 1, 0x01C7), (0x01C9, 0x01C9, 1, 0x01C7), (0x01CB, 0x01CB, 1, 0x01CA),
   (0x01CC, 0x01CC, 1, 0x01CA), (0x01CE, 0x01DC, 2, 0x01CD), (0x01DD, 0x01DD, 1, 0x018E),
   (0x01DF, 0x01EF, 2, 0x01DE), (0x01F2, 0x01F2, 1, 0x01F1), (0x01F3, 0x01F3, 1, 0x01F1),
   (0x01F5, 0x01F5, 1, 0x01F4), (0x01F9, 0x021F, 2, 0x01F8), (0x0223, 0x0233, 2, 0x0222),
   (0x023C, 0x023C, 1, 0x023B), (0x023F, 0x0240, 1, 0x2C7E), (0x0242, 0x0242, 1, 0x0241),
   (0x0247, 0x024F, 2, 0x0246), (0x0250, 0x0250, 1, 0x2C6F), (0x0251, 0x0251, 1, 0x2C6D),
   (0x0252, 0x0252, 1, 0x2C70), (0x0253, 0x0253, 1, 0x0181), (0x0254, 0x0254, 1, 0x0186),
   (0x0256, 0x0257, 1, 0x0189), (0x0259, 0x0259, 1, 0x018F), (0x025B, 0x025B, 1, 0x0190),
   (0x025C, 0x025C, 1, 0xA7AB), (0x0260, 0x0260, 1, 0x0193), (0x0261, 0x0261, 1, 0xA7AC),
   (0x0263, 0x0263, 1, 0x0194), (0x0265, 0x0265, 1, 0xA78D), (0x0266, 0x0266, 1, 0xA7AA),
   (0x0268, 0x0268, 1, 0x0197), (0x0269, 0x0269, 1, 0x0196), (0x026A, 0x026A, 1, 0xA7AE),
   (0x026B, 0x026B, 1, 0x2C62), (0x026C, 0x026C, 1, 0xA7AD), (0x026F, 0x026F, 1, 0x019C),
   (0x0271, 0x0271, 1, 0x2C6E), (0x0272, 0x0272, 1, 0x019D), (0x0275, 0x0275, 1, 0x019F),
   (0x027D, 0x027D, 1, 0x2C64), (0x0280, 0x0280, 1, 0x01A6), (0x0282, 0x0282, 1, 0xA7C5),
   (0x0283, 0x0283, 1, 0x01A9), (0x0287, 0x0287, 1, 0xA7B1), (0x0288, 0x0288, 1, 0x01AE),
   (0x0289, 0x0289, 1, 0x0244), (0x028A, 0x028B, 1, 0x01B1), (0x028C, 0x028C, 1, 0x0245),
   (0x0292, 0x0292, 1, 0x01B7), (0x029D, 0x029D, 1, 0xA7B2), (0x029E, 0x029E, 1, 0xA7B0),
   (0x0345, 0x0345, 1, 0x0399), (0x0371, 0x0373, 2, 0x0370), (0x0377, 0x0377, 1, 0x0376),
   (0x037B, 0x037D, 1, 0x03FD), (0x03AC, 0x03AC, 1, 0x0386), (0x03AD, 0x03AF, 1, 0x0388),
   (0x03B1, 0x03C1, 1, 0x0391), (0x03C2, 0x03C2, 1, 0x03A3), (0x03C3, 0x03CB, 1, 0x03A3),
   (0x03CC, 0x03CC, 1, 0x038C), (0x03CD, 0x03CE, 1, 0x038E), (0x03D0, 0x03D0, 1, 0x0392),
   (0x03D1, 0x03D1, 1, 0x0398), (0x03D5, 0x03D5, 1, 0x03A6), (0x03D6, 0x03D6, 1, 0x03A0),
   (0x03D7, 0x03D7, 1, 0x03CF), (0x03D9, 0x03EF, 2, 0x03D8), (0x03F0, 0x03F0, 1, 0x039A),
   (0x03F1, 0x03F1, 1, 0x03A1), (0x03F2, 0x03F2, 1, 0x03F9), (0x03F3, 0x03F3, 1, 0x037F),
   (0x03F5, 0x03F5, 1, 0x0395), (0x03F8, 0x03F8, 1, 0x03F7), (0x03FB, 0x03FB, 1, 0x03FA),
   (0x0430, 0x044F, 1, 0x0410), (0x0450, 0x045F, 1, 0x0400), (0x0461, 0x0481, 2, 0x0460),
   (0x048B, 0x04BF, 2, 0x048A), (0x04C2, 0x04CE, 2, 0x04C1), (0x04CF, 0x04CF, 1, 0x04C0),
   (0x04D1, 0x052F, 2, 0x04D0), (0x0561, 0x0586, 1, 0x0531), (0x10D0, 0x10FA, 1, 0x1C90),
   (0x10FD, 0x10FF, 1, 0x1CBD), (0x13F8, 0x13FD, 1, 0x13F0), (0x1C80, 0x1C80, 1, 0x0412),
   (0x1C81, 0x1C81, 1, 0x0414), (0x1C82, 0x1C82, 1, 0x041E), (0x1C83, 0x1C84, 1, 0x0421),
   (0x1C85, 0x1C85, 1, 0x0422), (0x1C86, 0x1C86, 1, 0x042A), (0x1C87, 0x1C87, 1, 0x0462),
   (0x1C88, 0x1C88, 1, 0xA64A), (0x1D79, 0x1D79, 1, 0xA77D), (0x1D7D, 0x1D7D, 1, 0x2C63),
   (0x1D8E, 0x1D8E, 1, 0xA7C6), (0x1E01, 0x1E95, 2, 0x1E00), (0x1E9B, 0x1E9B, 1, 0x1E60),
   (0x1EA1, 0x1EFF, 2, 0x1EA0), (0x1F00, 0x1F07, 1, 0x1F08), (0x1F10, 0x1F15, 1, 0x1F18),
   (0x1F20, 0x1F27, 1, 0x1F28), (0x1F30, 0x1F37, 1, 0x1F38), (0x1F40, 0x1F45, 1, 0x1F48),
   (0x1F51, 0x1F57, 2, 0x1F59), (0x1F60, 0x1F67, 1, 0x1F68), (0x1F70, 0x1F71, 1, 0x1FBA),
   (0x1F72, 0x1F75, 1, 0x1FC8), (0x1F76, 0x1F77, 1, 0x1FDA), (0x1F78, 0x1F79, 1, 0x1FF8),
   (0x1F7A, 0x1F7B, 1, 0x1FEA), (0x1F7C, 0x1F7D, 1, 0x1FFA), (0x1FB0, 0x1FB1, 1, 0x1FB8),
   (0x1FBE, 0x1FBE, 1, 0x0399), (0x1FD0, 0x1FD1, 1, 0x1FD8), (0x1FE0, 0x1FE1, 1, 0x1FE8),
   (0x1FE5, 0x1FE5, 1, 0x1FEC), (0x214E, 0x214E, 1, 0x2132), (0x2170, 0x217F, 1, 0x2160),
   (0x2184, 0x2184, 1, 0x2183), (0x24D0, 0x24E9, 1, 0x24B6), (0x2C30, 0x2C5F, 1, 0x2C00),
   (0x2C61, 0x2C61, 1, 0x2C60), (0x2C65, 0x2C65, 1, 0x023A), (0x2C66, 0x2C66, 1, 0x023E),
   (0x2C68, 0x2C6C, 2, 0x2C67), (0x2C73, 0x2C73, 1, 0x2C72), (0x2C76, 0x2C76, 1, 0x2C75),
   (0x2C81, 0x2CE3, 2, 0x2C80), (0x2CEC, 0x2CEE, 2, 0x2CEB), (0x2CF3, 0x2CF3, 1, 0x2CF2),
   (0x2D00, 0x2D25, 1, 0x10A0), (0x2D27, 0x2D27, 1, 0x10C7), (0x2D2D, 0x2D2D, 1, 0x10CD),
   (0xA641, 0xA66D, 2, 0xA640), (0xA681, 0xA69B, 2, 0xA680), (0xA723, 0xA72F, 2, 0xA722),
   (0xA733, 0xA76F, 2, 0xA732), (0xA77A, 0xA77C, 2, 0xA779), (0xA77F, 0xA787, 2, 0xA77E),
   (0xA78C, 0xA78C, 1, 0xA78B), (0xA791, 0xA793, 2, 0xA790), (0xA794, 0xA794, 1, 0xA7C4),
   (0xA797, 0xA7A9, 2, 0xA796), (0xA7B5, 0xA7C3, 2, 0xA7B4), (0xA7C8, 0xA7CA, 2, 0xA7C7),
   (0xA7D1, 0xA7D1, 1, 0xA7D0), (0xA7D7, 0xA7D9, 2, 0xA7D6), (0xA7F6, 0xA7F6, 1, 0xA7F5),
   (0xAB53, 0xAB53, 1, 0xA7B3), (0xAB70, 0xABBF, 1, 0x13A0), (0xFF41, 0xFF5A, 1, 0xFF21),
   (0x10428, 0x1044F, 1, 0x10400), (0x104D8, 0x104FB, 1, 0x104B0), (0x10597, 0x105A1, 1, 0x10570),
   (0x105A3, 0x105B1, 1, 0x1057C), (0x105B3, 0x105B9, 1, 0x1058C), (0x105BB, 0x105BC, 1, 0x10594),
   (0x10CC0, 0x10CF2, 1, 0x10C80), (0x118C0, 0x118DF, 1, 0x118A0), (0x16E60, 0x16E7F, 1, 0x16E40),
   (0x1E922, 0x1E943, 1, 0x1E900)]

/-- The characters whose upper case is more than one character (Unicode 14.0,
`SpecialCasing.txt`, the mappings without a condition). -/
def upperSpecial : List (Nat × List Nat) :=
  [(0x00DF, [0x0053, 0x0053]), (0x0149, [0x02BC, 0x004E]),
   (0x01F0, [0x004A, 0x030C]), (0x0390, [0x0399, 0x0308, 0x0301]),
   (0x03B0, [0x03A5, 0x0308, 0x0301]), (0x0587, [0x0535, 0x0552]),
   (0x1E96, [0x0048, 0x0331]), (0x1E97, [0x0054, 0x0308]),
   (0x1E98, [0x0057, 0x030A]), (0x1E99, [0x0059, 0x030A]),
   (0x1E9A, [0x0041, 0x02BE]), (0x1F50, [0x03A5, 0x0313]),
   (0x1F52, [0x03A5, 0x0313, 0x0300]), (0x1F54, [0x03A5, 0x0313, 0x0301]),
   (0x1F56, [0x03A5, 0x0313, 0x0342]), (0x1F80, [0x1F08, 0x0399]),
   (0x1F81, [0x1F09, 0x0399]), (0x1F82, [0x1F0A, 0x0399]),
   (0x1F83, [0x1F0B, 0x0399]), (0x1F84, [0x1F0C, 0x0399]),
   (0x1F85, [0x1F0D, 0x0399]), (0x1F86, [0x1F0E, 0x0399]),
   (0x1F87, [0x1F0F, 0x0399]), (0x1F88, [0x1F08, 0x0399]),
   (0x1F89, [0x1F09, 0x0399]), (0x1F8A, [0x1F0A, 0x0399]),
   (0x1F8B, [0x1F0B, 0x0399]), (0x1F8C, [0x1F0C, 0x0399]),
   (0x1F8D, [0x1F0D, 0x0399]), (0x1F8E, [0x1F0E, 0x0399]),
   (0x1F8F, [0x1F0F, 0x0399]), (0x1F90, [0x1F28, 0x0399]),
   (0x1F91, [0x1F29, 0x0399]), (0x1F92, [0x1F2A, 0x0399]),
   (0x1F93, [0x1F2B, 0x0399]), (0x1F94, [0x1F2C, 0x0399]),
   (0x1F95, [0x1F2D, 0x0399]), (0x1F96, [0x1F2E, 0x0399]),
   (0x1F97, [0x1F2F, 0x0399]), (0x1F98, [0x1F28, 0x0399]),
   (0x1F99, [0x1F29, 0x0399]), (0x1F9A, [0x1F2A, 0x0399]),
   (0x1F9B, [0x1F2B, 0x0399]), (0x1F9C, [0x1F2C, 0x0399]),
   (0x1F9D, [0x1F2D, 0x0399]), (0x1F9E, [0x1F2E, 0x0399]),
   (0x1F9F, [0x1F2F, 0x0399]), (0x1FA0, [0x1F68, 0x0399]),
   (0x1FA1, [0x1F69, 0x0399]), (0x1FA2, [0x1F6A, 0x0399]),
   (0x1FA3, [0x1F6B, 0x0399]), (0x1FA4, [0x1F6C, 0x0399]),
   (0x1FA5, [0x1F6D, 0x0399]), (0x1FA6, [0x1F6E, 0x0399]),
   (0x1FA7, [0x1F6F, 0x0399]), (0x1FA8, [0x1F68, 0x0399]),
   (0x1FA9, [0x1F69, 0x0399]), (0x1FAA, [0x1F6A, 0x0399]),
   (0x1FAB, [0x1F6B, 0x0399]), (0x1FAC, [0x1F6C, 0x0399]),
   (0x1FAD, [0x1F6D, 0x0399]), (0x1FAE, [0x1F6E, 0x0399]),
   (0x1FAF, [0x1F6F, 0x0399]), (0x1FB2, [0x1FBA, 0x0399]),
   (0x1FB3, [0x0391, 0x0399]), (0x1FB4, [0x0386, 0x0399]),
   (0x1FB6, [0x0391, 0x0342]), (0x1FB7, [0x0391, 0x0342, 0x0399]),
   (0x1FBC, [0x0391, 0x0399]), (0x1FC2, [0x1FCA, 0x0399]),
   (0x1FC3, [0x0397, 0x0399]), (0x1FC4, [0x0389, 0x0399]),
   (0x1FC6, [0x0397, 0x0342]), (0x1FC7, [0x0397, 0x0342, 0x0399]),
   (0x1FCC, [0x0397, 0x0399]), (0x1FD2, [0x0399, 0x0308, 0x0300]),
   (0x1FD3, [0x0399, 0x0308, 0x0301]), (0x1FD6, [0x0399, 0x0342]),
   (0x1FD7, [0x0399, 0x0308, 0x0342]), (0x1FE2, [0x03A5, 0x0308, 0x0300]),
   (0x1FE3, [0x03A5, 0x0308, 0x0301]), (0x1FE4, [0x03A1, 0x0313]),
   (0x1FE6, [0x03A5, 0x0342]), (0x1FE7, [0x03A5, 0x0308, 0x0342]),
   (0x1FF2, [0x1FFA, 0x0399]), (0x1FF3, [0x03A9, 0x0399]),
   (0x1FF4, [0x038F, 0x0399]), (0x1FF6, [0x03A9, 0x0342]),
   (0x1FF7, [0x03A9, 0x0342, 0x0399]), (0x1FFC, [0x03A9, 0x0399]),
   (0xFB00, [0x0046, 0x0046]), (0xFB01, [0x0046, 0x0049]),
   (0xFB02, [0x0046, 0x004C]), (0xFB03, [0x0046, 0x0046, 0x0049]),
   (0xFB04, [0x0046, 0x0046, 0x004C]), (0xFB05, [0x0053, 0x0054]),
   (0xFB06, [0x0053, 0x0054]), (0xFB13, [0x0544, 0x0546]),
   (0xFB14, [0x0544, 0x0535]), (0xFB15, [0x0544, 0x053B]),
   (0xFB16, [0x054E, 0x0546]), (0xFB17, [0x0544, 0x053D])]

/-- The entry of a code point in `upperSpecial`. -/
def findUpperSpecial (n : Nat) : List (Nat × List Nat) → Option (List Nat)
  | [] => none
  | (c, us) :: rest => if c = n then some us else findUpperSpecial n rest

/-- The upper case of a code point by the runs of `upperRuns`. -/
def findUpperRun (n : Nat) : List (Nat × Nat × Nat × Nat) → Option Nat
  | [] => none
  | (first, last, step, up) :: rest =>
    if first ≤ n ∧ n ≤ last ∧ (n - first) % step = 0 then some (up + (n - first))
    else findUpperRun n rest

/-- The upper case of one character (the Unicode default case conversion
`toUppercase`, which has no locale and no context rule): one character or
several. -/
def upperChars (c : Char) : List Char :=
  if c.toNat < 128 then [upperChar c]
  else
    match findUpperSpecial c.toNat upperSpecial with
    | some us => us.map Char.ofNat
    | none =>
      match findUpperRun c.toNat upperRuns with
      | some u => [Char.ofNat u]
      | none => [c]

/-- Upper-case a character list, character by character. -/
def upperCaseChars : List Char → List Char
  | [] => []
  | c :: cs => upperChars c ++ upperCaseChars cs

/-- The method `String.prototype.toUpperCase`. -/
def toUpperCase (s : String) : String := ⟨upperCaseChars s.data⟩

/-- Drop the leading white space of a character list. -/
def trimStartChars : List Char → List Char
  | [] => []
  | c :: cs => if isJsWhitespace c then trimStartChars cs else c :: cs

/-- The method `String.prototype.trim`. -/
def jsTrim (s : String) : String :=
  ⟨(trimStartChars (trimStartChars s.data).reverse).reverse⟩

/-- Whether `p` is a prefix of `cs`. -/
def isPrefixChars : List Char → List Char → Bool
  | [], _ => true
  | _ :: _, [] => false
  | a :: p, b :: cs => a == b && isPrefixChars p cs

/-- Whether `p` occurs in `cs` as a contiguous run. -/
def containsChars (p : List Char) : List Char → Bool
  | [] => p.isEmpty
  | c :: cs => isPrefixChars p (c :: cs) || containsChars p cs

/-- The method `String.prototype.includes`. -/
def jsIncludes (s sub : String) : Bool := containsChars sub.data s.data

/-- The method `Array.prototype.join` on an array of strings. -/
def jsJoin (sep : String) : List String → String
  | [] => ""
  | [s] => s
  | s :: t :: rest => s ++ sep ++ jsJoin sep (t :: rest)

/-! ## Regular expression `/^Bearer\s+(.+)$/i`

A backtracking matcher for the fragment the source uses: a sequence of
literal characters and greedy `+` repetitions of a character class, anchored
at both ends, with at most one capture group. -/

/-- One atom of an anchored pattern. -/
inductive Atom where
  /-- A literal character, compared under the `i` flag. -/
  | lit (c : Char)
  /-- A greedy `cls+`; `capture` says whether it is the capture group. -/
  | plus (cls : Char → Bool) (capture : Bool)

/-- Canonicalisation of the `i` flag (no `u` flag): ASCII letters are
upper-cased; a character outside ASCII never canonicalises into ASCII. -/
def canonicalize (c : Char) : Char := upperChar c

/-- Greedy repetition with backtracking: try to take `n`, `n - 1`, ..., `1`
characters and continue with `k`; the first success wins. -/
def tryGreedy {ρ : Type} (k : List Char → List Char → Option ρ) (input : List Char) :
    Nat → Option ρ
  | 0 => none
  | n + 1 =>
    match k (input.take (n + 1)) (input.drop (n + 1)) with
    | some r => some r
    | none => tryGreedy k input n

/-- Match the atoms against the whole of `input` (the pattern is anchored by
`^` and `$`); the result is the text of the capture group. -/
def matchAtoms : List Atom → List Char → Option (List Char) → Option (Option (List Char))
  | [], input, cap => if input.isEmpty then some cap else none
  | Atom.lit c :: rest, input, cap =>
    match input with
    | [] => none
    | x :: xs => if canonicalize x = canonicalize c then matchAtoms rest xs cap else none
  | Atom.plus cls capture :: rest, input, cap =>
    tryGreedy (fun taken remaining => matchAtoms rest remaining (if capture then some taken else cap))
      input (input.takeWhile cls).length

/-- The continuation after the capture group: the end of the input. -/
def atEnd (taken remaining : List Char) : Option (Option (List Char)) :=
  if remaining.isEmpty then some (some taken) else none

/-- The pattern `^Bearer\s+(.+)$` with the `i` flag. -/
def bearerPattern : List Atom :=
  [Atom.lit 'B', Atom.lit 'e', Atom.lit 'a', Atom.lit 'r', Atom.lit 'e', Atom.lit 'r',
   Atom.plus isJsWhitespace false, Atom.plus isDotChar true]

/-- The value of `header.value.match(/^Bearer\s+(.+)$/i)`: `match[1]` when
the pattern matches, `none` for a `null` result. -/
def bearerMatch (value : String) : Option String :=
  match matchAtoms bearerPattern value.data none with
  | some (some t) => some ⟨t⟩
  | _ => none

/-! ## Token Observer (`background.js`, lines 1-17) -/

/-- One entry of `details.requestHeaders`; `value` is absent when the header
is reported through `binaryValue`. -/
structure HttpHeader where
  name : Option String
  value : Option String
deriving DecidableEq, Repr

/-- Truthiness of an optional string: present and not empty. -/
def strTruthy : Option String → Bool
  | some s => s != ""
  | none => false

/-- The token a single header captures: `some t` when the header passes the
test of line 7 and its value matches the pattern of line 8. -/
def headerCapture (h : HttpHeader) : Option String :=
  match h.name, h.value with
  | some n, some v =>
    if strTruthy (some n) && strTruthy (some v) && toLowerCase n == "authorization" then
      bearerMatch v
    else none
  | _, _ => none

/-- The body of the `for` loop of the listener for one header. -/
def observeHeader (lastBearerToken : Option String) (h : HttpHeader) : Option String :=
  match headerCapture h with
  | some t => some t
  | none => lastBearerToken

/-- The `onBeforeSendHeaders` listener: the new value of `lastBearerToken`. -/
def onBeforeSendHeaders (requestHeaders : Option (List HttpHeader))
    (lastBearerToken : Option String) : Option String :=
  match requestHeaders with
  | none => lastBearerToken
  | some hs => hs.foldl observeHeader lastBearerToken

/-- The split of a header value that the pattern performs, in closed form:
`value = scheme ++ gap ++ token` where `scheme` is `Bearer` in any letter
case, `gap` is a non-empty run of white space, `token` is non-empty and
holds no line terminator, and the gap is as long as possible (the token
starts with a character that is not white space, or is a single character). -/
def BearerSplit (value token : List Char) : Prop :=
  ∃ scheme gap : List Char,
    value = scheme ++ gap ++ token ∧
    scheme.map upperChar = ['B', 'E', 'A', 'R', 'E', 'R'] ∧
    gap ≠ [] ∧ (∀ c ∈ gap, isJsWhitespace c = true) ∧
    token ≠ [] ∧ (∀ c ∈ token, isLineTerminator c = false) ∧
    (token.length = 1 ∨ ∃ c cs, token = c :: cs ∧ isJsWhitespace c = false)

/-- The pattern as the specification words it: `Bearer` in any letter case,
one or more white space characters, then a non-empty remainder of the value. -/
def specBearerMatches (value : String) : Bool :=
  let cs := value.data
  (cs.take 6).map upperChar == ['B', 'E', 'A', 'R', 'E', 'R'] &&
  (match cs.drop 6 with
   | w :: _ :: _ => isJsWhitespace w
   | _ => false)

/-! ## JSON values -/

/-- A JSON document, as produced by `resp.json()` or `JSON.parse`. An object
is the list of its fields; the first binding of a key is its value. -/
inductive Json where
  | null
  | bool (b : Bool)
  | num (n : Int)
  | str (s : String)
  | arr (items : List Json)
  | obj (fields : List (String × Json))
deriving Repr

/-- A JavaScript value met by the scripts: a JSON value, or `undefined`
(`none`). -/
abbrev JsVal := Option Json

/-- The conversion `String(n)` of an integral number of magnitude below
`10^21`: its decimal expansion. -/
def numToString (n : Int) : String := toString n

mutual

/-- The conversion `String(v)` of a JSON value: an array is the comma-join of its items
(`null` items give the empty string), an object is `[object Object]`. -/
def Json.toJsString : Json → String
  | Json.null => "null"
  | Json.bool true => "true"
  | Json.bool false => "false"
  | Json.num n => numToString n
  | Json.str s => s
  | Json.arr items => jsJoin "," (Json.itemStrings items)
  | Json.obj _ => "[object Object]"

/-- The strings `Array.prototype.join` joins for the items of an array. -/
def Json.itemStrings : List Json → List String
  | [] => []
  | Json.null :: rest => "" :: Json.itemStrings rest
  | x :: rest => Json.toJsString x :: Json.itemStrings rest
end

/-- The conversion `String(v)`, with `undefined` included. -/
def jsString : JsVal → String
  | none => "undefined"
  | some v => v.toJsString

/-- Truthiness of a JSON value. -/
def Json.truthy : Json → Bool
  | Json.null => false
  | Json.bool b => b
  | Json.num n => n != 0
  | Json.str s => s != ""
  | Json.arr _ => true
  | Json.obj _ => true

/-- Truthiness of a JavaScript value. -/
def truthy : JsVal → Bool
  | none => false
  | some v => v.truthy

/-- The test `typeof v === 'object'` (true of `null`, arrays and objects). -/
def Json.isObjectType : Json → Bool
  | Json.null => true
  | Json.arr _ => true
  | Json.obj _ => true
  | _ => false

/-- The test `typeof v === 'object'` on a JavaScript value. -/
def isObjectType : JsVal → Bool
  | none => false
  | some v => v.isObjectType

/-- The first binding of `key` in a field list. -/
def lookupField (key : String) : List (String × Json) → JsVal
  | [] => none
  | (k, v) :: rest => if k = key then some v else lookupField key rest

/-- Property read `v.key` on a value that is neither `null` nor `undefined`,
for the data keys the scripts read: defined on objects only (strings, numbers,
booleans and arrays have no such property). -/
def Json.get (v : Json) (key : String) : JsVal :=
  match v with
  | Json.obj fields => lookupField key fields
  | _ => none

/-- Property read through an optional receiver that the source has already
tested to be truthy; `undefined` when the receiver is. -/
def getProp (v : JsVal) (key : String) : JsVal :=
  match v with
  | some w => w.get key
  | none => none

/-- The expression `a ?? b` with a defined right operand. -/
def orNullish (a : JsVal) (b : Json) : Json :=
  match a with
  | none => b
  | some Json.null => b
  | some v => v

/-- The expression `a || b` with a defined right operand. -/
def orFalsy (a : JsVal) (b : Json) : Json :=
  match a with
  | none => b
  | some v => if v.truthy then v else b

/-- The expression `Array.isArray(v) ? v : []`. -/
def asArray : JsVal → List Json
  | some (Json.arr items) => items
  | _ => []

/-- The empty object literal. -/
def emptyObj : Json := Json.obj []

/-- An exception raised by a script. -/
inductive JsError where
  | typeError
  | rangeError
deriving DecidableEq, Repr

/-! ## Background script (`background.js`) -/

/-- The session storage area `chrome.storage.session`: keys and values. -/
abbrev Storage := List (String × Json)

/-- The call `chrome.storage.session.set({ [key]: value })`. -/
def storageSet (key : String) (value : Json) (s : Storage) : Storage :=
  (key, value) :: s.filter (fun kv => kv.1 != key)

/-- The call `chrome.storage.session.remove(key)`. -/
def storageRemove (key : String) (s : Storage) : Storage :=
  s.filter (fun kv => kv.1 != key)

/-- The value `obj[key]` of the object `chrome.storage.session.get(key)`
resolves to. -/
def storageGet (key : String) (s : Storage) : JsVal := lookupField key s

/-- The state of the background script: the captured token and the session
storage. -/
structure BgState where
  lastBearerToken : Option String
  session : Storage

/-- A response of `fetch`: `json` is the result of `resp.json()`, an error
message when the body does not parse. -/
structure HttpResponse where
  ok : Bool
  status : Int
  contentType : Option String
  json : Except String Json
  text : String

/-- The result of a `fetch` call: rejected with an error message, or resolved
with a response. -/
inductive FetchResult where
  | rejected (message : String)
  | resolved (resp : HttpResponse)

/-- The request of the FETCH_SHIPMENT handler: the components out of which
lines 54-71 build the URL and the headers. -/
structure FetchRequest where
  /-- The path segment `String(shipmentId)`, before percent-encoding. -/
  shipmentId : String
  /-- The array serialised into the `types` parameter. -/
  types : List Json
  /-- The `event` parameter. -/
  event : String
  /-- The `_` parameter, present when `bustTs` is truthy. -/
  bust : Option String
  /-- The `authorization` header. -/
  authorization : String

/-- What one run of the message listener does: the argument of
`sendResponse` (if it answers), the network calls issued, the storage writes
performed, and the state afterwards. -/
structure Outcome where
  reply : Option Json
  requests : List FetchRequest
  writes : List (String × Json)
  state : BgState

/-- The default of `queryTypes` (line 52). -/
def defaultTypes : List Json :=
  [Json.str "general", Json.str "permissions", Json.str "groups", Json.str "commissions",
   Json.str "bids", Json.str "topCarriers"]

/-- The storage key of a tab (lines 33, 78, 96). -/
def shipmentKey (tabId : JsVal) : String := "shipment_" ++ jsString tabId

/-- The test `tabId || tabId === 0` (line 77); line 27 is its negation. -/
def hasTabId (tabId : JsVal) : Bool :=
  truthy tabId || (match tabId with | some (Json.num 0) => true | _ => false)

/-- The error reply `{ ok: false, error }`. -/
def errorReply (message : String) : Json :=
  Json.obj [("ok", Json.bool false), ("error", Json.str message)]

/-- The token as a JSON value (`null` when none was captured). -/
def tokenJson : Option String → Json
  | some t => Json.str t
  | none => Json.null

/-- Lines 25-42: the GET_LAST_SHIPMENT handler. -/
def handleGetLastShipment (st : BgState) (message : Json) : Outcome :=
  let tabId := message.get "tabId"
  if !hasTabId tabId then
    { reply := some (errorReply "Missing tabId"), requests := [], writes := [], state := st }
  else
    let key := shipmentKey tabId
    let cached := orFalsy (storageGet key st.session) Json.null
    { reply := some (Json.obj [("ok", Json.bool true), ("data", cached)]),
      requests := [], writes := [], state := st }

/-- Lines 51-59 and 63-71: the request the handler builds. -/
def buildRequest (token : String) (message : Json) : FetchRequest :=
  let queryTypes := message.get "queryTypes"
  let types := match queryTypes with
    | some (Json.arr (x :: xs)) => x :: xs
    | _ => defaultTypes
  let bustTs := message.get "bustTs"
  { shipmentId := jsString (message.get "shipmentId"),
    types := types,
    event := (orFalsy (message.get "event") (Json.str "join")).toJsString,
    bust := if truthy bustTs then some (jsString bustTs) else none,
    authorization := "Bearer " ++ token }

/-- Lines 73-74: `data`, the parsed body when the content type declares JSON
(an error message when `resp.json()` rejects), the text otherwise. -/
def responseData (resp : HttpResponse) : Except String Json :=
  if jsIncludes (resp.contentType.getD "") "application/json" then resp.json
  else Except.ok (Json.str resp.text)

/-- Line 79: the record `{ shipmentId, data, ts }` stored for a tab. -/
def cacheRecord (shipmentId : JsVal) (data : Json) (ts : Int) : Json :=
  Json.obj [("shipmentId", orNullish shipmentId Json.null), ("data", data), ("ts", Json.num ts)]

/-- Lines 44-89: the FETCH_SHIPMENT handler. `net` answers the network call,
`now` is `Date.now()` at the cache write. -/
def handleFetchShipment (net : FetchRequest → FetchResult) (now : Int) (st : BgState)
    (message : Json) : Outcome :=
  let shipmentId := message.get "shipmentId"
  let tabId := message.get "tabId"
  if !strTruthy st.lastBearerToken || !truthy shipmentId then
    { reply := some (errorReply "Missing token or shipmentId"),
      requests := [], writes := [], state := st }
  else
    let req := buildRequest (st.lastBearerToken.getD "") message
    match net req with
    | FetchResult.rejected msg =>
      { reply := some (errorReply msg), requests := [req], writes := [], state := st }
    | FetchResult.resolved resp =>
      match responseData resp with
      | Except.error msg =>
        { reply := some (errorReply msg), requests := [req], writes := [], state := st }
      | Except.ok data =>
        let reply := Json.obj [("ok", Json.bool resp.ok), ("status", Json.num resp.status),
          ("data", data)]
        if hasTabId tabId then
          let key := shipmentKey tabId
          let record := cacheRecord shipmentId data now
          { reply := some reply, requests := [req], writes := [(key, record)],
            state := { st with session := storageSet key record st.session } }
        else
          { reply := some reply, requests := [req], writes := [], state := st }

/-- Lines 19-90: the `onMessage` listener. -/
def onMessage (net : FetchRequest → FetchResult) (now : Int) (st : BgState)
    (message : JsVal) : Outcome :=
  match message with
  | none => { reply := none, requests := [], writes := [], state := st }
  | some m =>
    if !m.truthy then { reply := none, requests := [], writes := [], state := st }
    else
      match m.get "type" with
      | some (Json.str "GET_LAST_BEARER") =>
        { reply := some (Json.obj [("token", tokenJson st.lastBearerToken)]),
          requests := [], writes := [], state := st }
      | some (Json.str "GET_LAST_SHIPMENT") => handleGetLastShipment st m
      | some (Json.str "FETCH_SHIPMENT") => handleFetchShipment net now st m
      | _ => { reply := none, requests := [], writes := [], state := st }

/-- Lines 94-99: the `tabs.onUpdated` listener. -/
def onTabUpdated (st : BgState) (tabId : Int) (changeInfo : Json) : BgState :=
  match changeInfo.get "status" with
  | some (Json.str "loading") =>
    { st with session := storageRemove (shipmentKey (some (Json.num tabId))) st.session }
  | _ => st

/-! ## Host environment of the popup -/

/-- The parts of the JavaScript host that `popup.js` relies on and that depend
on the engine, the locale and the time zone database. Times are milliseconds
since the epoch; `none` stands for `NaN` (an invalid date). -/
structure Host where
  /-- The function `Date.parse` on a string. -/
  dateParse : String → Option Int
  /-- The function `Number` on a string, for integral results. -/
  stringToNumber : String → Option Int
  /-- The function `JSON.parse`; `none` when it throws. -/
  jsonParse : String → Option Json
  /-- The method `Date.prototype.toISOString` on a valid time. -/
  toISOString : Int → String
  /-- Whether `Intl.DateTimeFormat` accepts the `timeZone` identifier. -/
  zoneOk : String → Bool
  /-- Formatting with `{ month: 'short', day: 'numeric' }` in a zone (`none`:
  the host zone). -/
  formatMonthDay : Option String → Int → String
  /-- Formatting with `{ hour: '2-digit', minute: '2-digit', hour12: false }`. -/
  formatHourMinute : Option String → Int → String
  /-- Formatting with `{ year: 'numeric', month: 'numeric', day: 'numeric' }`. -/
  formatYearMonthDay : Option String → Int → String
  /-- The getter `getMonth` (host zone), `0` to `11`. -/
  getMonth : Int → Nat
  /-- The getter `getDate` (host zone). -/
  getDate : Int → Nat
  /-- The getter `getHours` (host zone). -/
  getHours : Int → Nat
  /-- The getter `getMinutes` (host zone). -/
  getMinutes : Int → Nat
  /-- The method `toDateString` (host zone). -/
  toDateString : Int → String

/-- The abstract operation TimeClip: a time value beyond 8.64e15 ms is
invalid. -/
def timeClip (t : Int) : Option Int :=
  if -8640000000000000 ≤ t ∧ t ≤ 8640000000000000 then some t else none

/-- The time value of `new Date(value)`: numbers and booleans are taken as
milliseconds, `null` is `0`, `undefined` is invalid, a string is parsed, an
array or object is converted to a string first. -/
def newDate (h : Host) : JsVal → Option Int
  | none => none
  | some Json.null => some 0
  | some (Json.bool b) => some (if b then 1 else 0)
  | some (Json.num n) => timeClip n
  | some (Json.str s) => h.dateParse s
  | some v => h.dateParse v.toJsString

/-- The conversion `Number(v)` of a defined value; `none` is `NaN`. -/
def toNumber (h : Host) : Json → Option Int
  | Json.null => some 0
  | Json.bool b => some (if b then 1 else 0)
  | Json.num n => some n
  | Json.str s => h.stringToNumber s
  | v => h.stringToNumber v.toJsString

/-- The expression `tz || undefined` passed as the `timeZone` option. -/
def zoneOption (tz : String) : Option String := if tz = "" then none else some tz

/-- Whether `new Intl.DateTimeFormat(undefined, { ..., timeZone: tz || undefined })`
succeeds. -/
def formatterOk (h : Host) (tz : String) : Bool :=
  match zoneOption tz with
  | none => true
  | some z => h.zoneOk z

/-- The call `String(n).padStart(2, '0')`. -/
def pad2 (n : Nat) : String :=
  let s := toString n
  if s.length < 2 then "0" ++ s else s

/-- The table `months` of `formatDateTimeCompact`. -/
def monthNames : List String :=
  ["Jan", "Feb", "Mar", "Apr", "May", "Jun", "Jul", "Aug", "Sep", "Oct", "Nov", "Dec"]

/-- Lines 681-691: `formatDateTimeCompact`. -/
def formatDateTimeCompact (h : Host) (value : JsVal) : String :=
  if !truthy value then ""
  else
    match newDate h value with
    | none => ""
    | some d =>
      let mon := jsString ((monthNames.get? (h.getMonth d)).map Json.str)
      mon ++ " " ++ toString (h.getDate d) ++ " - (" ++ pad2 (h.getHours d) ++ ":" ++
        pad2 (h.getMinutes d) ++ ")"

/-- Lines 693-706: `formatDateTimeCompactInZone`. -/
def formatDateTimeCompactInZone (h : Host) (value : JsVal) (timeZoneId : String) : String :=
  if !truthy value then ""
  else
    match newDate h value with
    | none => ""
    | some d =>
      if formatterOk h timeZoneId then
        h.formatMonthDay (zoneOption timeZoneId) d ++ " - (" ++
          h.formatHourMinute (zoneOption timeZoneId) d ++ ")"
      else formatDateTimeCompact h value

/-- Lines 708-720: `formatTimeOnlyInZone`. -/
def formatTimeOnlyInZone (h : Host) (value : JsVal) (timeZoneId : String) : String :=
  if !truthy value then ""
  else
    match newDate h value with
    | none => ""
    | some d =>
      if formatterOk h timeZoneId then h.formatHourMinute (zoneOption timeZoneId) d
      else pad2 (h.getHours d) ++ ":" ++ pad2 (h.getMinutes d)

/-- Lines 722-733: `isSameDayInZone`. -/
def isSameDayInZone (h : Host) (date1 date2 : JsVal) (timeZoneId : String) : Bool :=
  if !truthy date1 || !truthy date2 then false
  else
    match newDate h date1, newDate h date2 with
    | some d1, some d2 =>
      if formatterOk h timeZoneId then
        h.formatYearMonthDay (zoneOption timeZoneId) d1 ==
          h.formatYearMonthDay (zoneOption timeZoneId) d2
      else h.toDateString d1 == h.toDateString d2
    | _, _ => false

/-! ## Time zone resolution (`popup.js`, lines 735-803) -/

/-- Lines 761-763: `coerceString`. -/
def coerceString : JsVal → String
  | none => ""
  | some Json.null => ""
  | some v => v.toJsString

/-- The object literal `m` of `mapAbbrevToIana`. -/
def abbrevTable : List (String × String) :=
  [("ET", "America/New_York"), ("EST", "America/New_York"), ("EDT", "America/New_York"),
   ("CT", "America/Chicago"), ("CST", "America/Chicago"), ("CDT", "America/Chicago"),
   ("MT", "America/Denver"), ("MST", "America/Denver"), ("MDT", "America/Denver"),
   ("PT", "America/Los_Angeles"), ("PST", "America/Los_Angeles"), ("PDT", "America/Los_Angeles"),
   ("AKST", "America/Anchorage"), ("AKDT", "America/Anchorage"),
   ("HST", "Pacific/Honolulu"), ("HAST", "Pacific/Honolulu"), ("HADT", "Pacific/Honolulu"),
   ("PHOENIX", "America/Phoenix"), ("ARIZONA", "America/Phoenix")]

/-- The value `table[key] || ''` of a table of strings. -/
def lookupOrEmpty (key : String) : List (String × String) → String
  | [] => ""
  | (k, v) :: rest => if k = key then v else lookupOrEmpty key rest

/-- Lines 765-777: `mapAbbrevToIana`. -/
def mapAbbrevToIana (tz : String) : String := lookupOrEmpty (toUpperCase tz) abbrevTable

/-- The set `abbrs` of `normalizeUsStateAbbr`. -/
def stateAbbrs : List String :=
  ["AL","AK","AZ","AR","CA","CO","CT","DE","FL","GA","HI","ID","IL","IN","IA","KS","KY","LA",
   "ME","MD","MA","MI","MN","MS","MO","MT","NE","NV","NH","NJ","NM","NY","NC","ND","OH","OK",
   "OR","PA","RI","SC","SD","TN","TX","UT","VT","VA","WA","WV","WI","WY","DC"]

/-- The object literal `nameToAbbr` of `normalizeUsStateAbbr`. -/
def nameToAbbr : List (String × String) :=
  [("ALABAMA","AL"),("ALASKA","AK"),("ARIZONA","AZ"),("ARKANSAS","AR"),("CALIFORNIA","CA"),
   ("COLORADO","CO"),("CONNECTICUT","CT"),("DELAWARE","DE"),("FLORIDA","FL"),("GEORGIA","GA"),
   ("HAWAII","HI"),("IDAHO","ID"),("ILLINOIS","IL"),("INDIANA","IN"),("IOWA","IA"),
   ("KANSAS","KS"),("KENTUCKY","KY"),("LOUISIANA","LA"),("MAINE","ME"),("MARYLAND","MD"),
   ("MASSACHUSETTS","MA"),("MICHIGAN","MI"),("MINNESOTA","MN"),("MISSISSIPPI","MS"),
   ("MISSOURI","MO"),("MONTANA","MT"),("NEBRASKA","NE"),("NEVADA","NV"),("NEW HAMPSHIRE","NH"),
   ("NEW JERSEY","NJ"),("NEW MEXICO","NM"),("NEW YORK","NY"),("NORTH CAROLINA","NC"),
   ("NORTH DAKOTA","ND"),("OHIO","OH"),("OKLAHOMA","OK"),("OREGON","OR"),("PENNSYLVANIA","PA"),
   ("RHODE ISLAND","RI"),("SOUTH CAROLINA","SC"),("SOUTH DAKOTA","SD"),("TENNESSEE","TN"),
   ("TEXAS","TX"),("UTAH","UT"),("VERMONT","VT"),("VIRGINIA","VA"),("WASHINGTON","WA"),
   ("WEST VIRGINIA","WV"),("WISCONSIN","WI"),("WYOMING","WY"),("DISTRICT OF COLUMBIA","DC")]

/-- Lines 779-789: `normalizeUsStateAbbr`. -/
def normalizeUsStateAbbr (stateValue : String) : String :=
  if stateValue = "" then ""
  else
    let upper := toUpperCase (jsTrim stateValue)
    if stateAbbrs.contains upper then upper else lookupOrEmpty upper nameToAbbr

/-- The set `eastern` of `mapUsStateAbbrToIana`. -/
def eastern : List String :=
  ["CT","DE","FL","GA","ME","MD","MA","MI","NH","NJ","NY","NC","OH","PA","RI","SC","VT","VA",
   "WV","DC","IN"]

/-- The set `central` of `mapUsStateAbbrToIana`. -/
def central : List String :=
  ["AL","AR","IL","IA","LA","MN","MS","MO","OK","WI","KS","NE","SD","ND","TN","KY","TX"]

/-- The set `mountain` of `mapUsStateAbbrToIana`. -/
def mountain : List String := ["AZ","CO","ID","MT","NM","UT","WY"]

/-- The set `pacific` of `mapUsStateAbbrToIana`. -/
def pacific : List String := ["CA","OR","WA","NV"]

/-- Lines 791-803: `mapUsStateAbbrToIana`. -/
def mapUsStateAbbrToIana (abbr : String) : String :=
  if eastern.contains abbr then "America/New_York"
  else if central.contains abbr then "America/Chicago"
  else if mountain.contains abbr then (if abbr = "AZ" then "America/Phoenix" else "America/Denver")
  else if pacific.contains abbr then "America/Los_Angeles"
  else if abbr = "AK" then "America/Anchorage"
  else if abbr = "HI" then "Pacific/Honolulu"
  else ""

/-- The array `candidates` of `extractTimeZoneIdFromLocation` before
`.filter(Boolean)` (lines 738-742). -/
def zoneCandidates (location : Json) : List JsVal :=
  let addr := orFalsy (location.get "address") emptyObj
  let date := location.get "date"
  [location.get "timeZone", location.get "timezone", location.get "tz",
   addr.get "timeZone", addr.get "timezone", addr.get "time_zone",
   if truthy date && isObjectType date then
     (let a := getProp date "timeZone"
      if truthy a then a else getProp date "timezone")
   else none]

/-- The `for` loop of lines 743-749 over the truthy candidates: the zone of
the first candidate whose trimmed string is not empty. -/
def firstZone : List JsVal → Option String
  | [] => none
  | tz :: rest =>
    let z := jsTrim (coerceString tz)
    if z = "" then firstZone rest
    else
      let mapped := mapAbbrevToIana z
      if mapped ≠ "" then some mapped else some z

/-- Lines 751-752: the string the state is read from. -/
def stateNameLike (addr : Json) : String :=
  let stateObj := orFalsy (addr.get "state") emptyObj
  coerceString (some (orFalsy (stateObj.get "abbrev") (orFalsy (stateObj.get "abbr")
    (orFalsy (stateObj.get "code") (orFalsy (stateObj.get "value")
      (orFalsy (stateObj.get "name") stateObj))))))

/-- Lines 735-759: `extractTimeZoneIdFromLocation`. -/
def extractTimeZoneIdFromLocation (location : JsVal) : String :=
  match location with
  | none => ""
  | some loc =>
    if !loc.truthy || !loc.isObjectType then ""
    else
      match firstZone ((zoneCandidates loc).filter truthy) with
      | some z => z
      | none =>
        let addr := orFalsy (loc.get "address") emptyObj
        let abbr := normalizeUsStateAbbr (stateNameLike addr)
        if abbr ≠ "" then mapUsStateAbbrToIana abbr else ""

/-! ## Popup page -/

/-- Modelled from the spec: the popup page (`popup.html` is not among the
sources), "a popup showing ... summary fields with checkboxes, a generated
email text area". Every element the scripts look up by id exists, so the
`if (!el) return` guards of the scripts are not taken. A field is the
`textContent` of its span, `shipLocations` is the list of the text nodes of
`#ship-locations`, a `chk` field is the `checked` state of the check box of
that id, and `emailText` is the value of `#email-text`. -/
structure Dom where
  shipLocations : List String
  weight : String
  weightUnit : String
  commodity : String
  temperature : String
  temperatureUnit : String
  services : String
  rate : String
  chkShipLocations : Bool
  chkWeight : Bool
  chkWeightUnit : Bool
  chkCommodity : Bool
  chkTemperature : Bool
  chkTemperatureUnit : Bool
  chkServices : Bool
  chkRate : Bool
  emailText : String
deriving DecidableEq, Repr

/-- The placeholder shown for an empty field. -/
def placeholder : String := "—"

/-! ## Email Composer (`popup.js`, lines 329-372) -/

/-- Lines 332-343: the text of `#ship-locations` as read by `renderEmail`:
the trimmed, non-empty text nodes joined by a newline. -/
def shipLocationsText (nodes : List String) : String :=
  jsJoin "\n" ((nodes.map jsTrim).filter (fun t => t != ""))

/-- Lines 361-370: the array `lines` of `renderEmail`. -/
def emailLines (d : Dom) : List String :=
  let shipLocations := shipLocationsText d.shipLocations
  ["Shipment details can be found below.", ""] ++
  (if d.chkShipLocations && shipLocations != "" then ["Ship Locations:", shipLocations] else []) ++
  (if d.chkCommodity && d.commodity != "" then ["Commodity: " ++ d.commodity] else []) ++
  (if d.chkWeight && d.weight != "" then
    ["Weight: " ++ d.weight ++
      (if d.chkWeightUnit && d.weightUnit != "" then " " ++ d.weightUnit else "")] else []) ++
  (if d.chkTemperature && d.temperature != "" then
    ["Temperature: " ++ d.temperature ++
      (if d.chkTemperatureUnit && d.temperatureUnit != "" then " " ++ d.temperatureUnit else "")]
    else []) ++
  (if d.chkServices && d.services != "" then ["Services: " ++ d.services] else []) ++
  (if d.chkRate && d.rate != "" then ["Rate: " ++ d.rate] else [])

/-- Lines 329-372: `renderEmail`. -/
def renderEmail (d : Dom) : Dom := { d with emailText := jsJoin "\n" (emailLines d) }

/-! ## Summary Extractor (`popup.js`, lines 375-646) -/

/-- Lines 612-615: the text `setText` writes for `value`. -/
def setText (value : Json) : String :=
  if value.truthy && (jsTrim value.toJsString).length != 0 then value.toJsString
  else placeholder

/-- Lines 617-630: the text nodes `setMultiline` leaves in the element. -/
def setMultiline (lines : List String) : List String :=
  let safeLines := lines.filter (fun l => l != "")
  if safeLines.isEmpty then [placeholder] else safeLines

/-- The argument `!!String(value).trim()` of `setCheckboxDefault`. -/
def hasText (value : Json) : Bool := jsTrim value.toJsString != ""

/-- Lines 404-419: `getLocationDate`. -/
def getLocationDate (loc : Json) : Json :=
  if !loc.truthy then Json.null
  else
    let appointment := loc.get "appointment"
    let fromAppointment : Option Json :=
      if truthy appointment && isObjectType appointment then
        match getProp appointment "date" with
        | some (Json.str ad) => some (Json.str ad)
        | some ad =>
          if ad.truthy && ad.isObjectType then
            some (orNullish (ad.get "date") (orNullish (ad.get "value") (Json.str "")))
          else none
        | none => none
      else none
    match fromAppointment with
    | some r => r
    | none =>
      let date := loc.get "date"
      if truthy date then
        match date with
        | some (Json.str d) => Json.str d
        | some d =>
          if d.truthy && d.isObjectType then
            orNullish (d.get "date") (orNullish (d.get "value")
              (orNullish (d.get "start") (orNullish (d.get "end") (Json.str ""))))
          else Json.null
        | none => Json.null
      else Json.null

/-- Lines 403-436: the comparator of the waypoint sort. -/
def compareLocations (h : Host) (a b : Json) : Int :=
  let dateA := getLocationDate a
  let dateB := getLocationDate b
  if !dateA.truthy && !dateB.truthy then 0
  else if !dateA.truthy then 1
  else if !dateB.truthy then -1
  else
    match newDate h (some dateA), newDate h (some dateB) with
    | none, none => 0
    | none, some _ => 1
    | some _, none => -1
    | some timeA, some timeB => timeA - timeB

/-- Insert `x` before the first element it does not sort after. -/
def insertSorted {α : Type} (cmp : α → α → Int) (x : α) : List α → List α
  | [] => [x]
  | y :: ys => if cmp x y ≤ 0 then x :: y :: ys else y :: insertSorted cmp x ys

/-- The method `Array.prototype.sort(cmp)` on an array without `undefined`
items. The sort is stable (ECMAScript 2019); for a consistent comparator its
result is the stable arrangement, computed here by insertion. -/
def jsSort {α : Type} (cmp : α → α → Int) : List α → List α
  | [] => []
  | x :: xs => insertSorted cmp x (jsSort cmp xs)

/-- Lines 398-436: `sortedLocations` for the waypoint array. -/
def sortedLocations (h : Host) (shipLocations : List Json) : List Json :=
  jsSort (compareLocations h) shipLocations

/-- The fields of one waypoint resolved by lines 439-445. -/
structure LocFields where
  t : Json
  city : Json
  state : Json
  apptType : Json

/-- The city or state value of lines 443-444. -/
def placeName (v : Json) : Json :=
  if v.truthy && v.isObjectType then orNullish (v.get "name") (Json.str "")
  else orFalsy (some v) (Json.str "")

/-- Lines 439-445: the type, city, state and scheduling label of a waypoint. -/
def locFields (loc : Json) : LocFields :=
  let type := loc.get "type"
  let t := if loc.truthy && truthy type then
      orNullish (getProp type "value") (orNullish (getProp type "name") (orNullish type Json.null))
    else Json.str ""
  let addr := if loc.truthy && truthy (loc.get "address") then
      orNullish (loc.get "address") emptyObj else emptyObj
  let cityObj := orFalsy (addr.get "city") (Json.str "")
  let stateObj := orFalsy (addr.get "state") (Json.str "")
  let st := loc.get "schedulingType"
  let apptType := if loc.truthy && truthy st then
      orNullish (getProp st "shortName") (orNullish (getProp st "name")
        (orNullish (getProp st "value") (Json.str "")))
    else Json.str ""
  { t := t, city := placeName cityObj, state := placeName stateObj, apptType := apptType }

/-- Lines 450-474: the raw date of a truthy waypoint and its flex seconds. -/
def rawDateAndFlex (h : Host) (loc : Json) : Json × Int :=
  let appt := loc.get "appointment"
  let fromAppt : Json × Int :=
    if truthy appt && isObjectType appt then
      let raw := match getProp appt "date" with
        | some (Json.str ad) => Json.str ad
        | some ad =>
          if ad.truthy && ad.isObjectType then
            orNullish (ad.get "date") (orNullish (ad.get "value") (Json.str ""))
          else Json.str ""
        | none => Json.str ""
      let flexSeconds := match getProp appt "flex" with
        | none => 0
        | some Json.null => 0
        | some f => (toNumber h f).getD 0
      (raw, flexSeconds)
    else (Json.str "", 0)
  let raw := fromAppt.1
  let raw2 :=
    if !raw.truthy then
      match loc.get "date" with
      | none => raw
      | some (Json.str d) => Json.str d
      | some Json.null => raw
      | some d =>
        if d.truthy && d.isObjectType then
          orNullish (d.get "date") (orNullish (d.get "value")
            (orNullish (d.get "start") (orNullish (d.get "end") (Json.str ""))))
        else Json.str d.toJsString
    else raw
  (raw2, fromAppt.2)

/-- Line 478: `isApptType`, as a boolean. -/
def isApptType (apptType : Json) : Bool :=
  apptType.truthy && jsIncludes (toLowerCase apptType.toJsString) "appt"

/-- Lines 447-503: `dtFormatted` for one waypoint; raises when `toISOString`
or the `Intl.DateTimeFormat` constructor of line 488 does. -/
def dtFormatted (h : Host) (loc : Json) (apptType : Json) : Except JsError String :=
  if !loc.truthy then Except.ok ""
  else
    let rf := rawDateAndFlex h loc
    let raw := rf.1
    let flexSeconds := rf.2
    let tz := extractTimeZoneIdFromLocation (some loc)
    if raw.truthy && flexSeconds > 0 && !isApptType apptType then
      match (newDate h (some raw)).bind (fun start => timeClip (start + flexSeconds * 1000)) with
      | none => Except.error JsError.rangeError
      | some endTime =>
        let endDateStr := some (Json.str (h.toISOString endTime))
        if isSameDayInZone h (some raw) endDateStr tz then
          if !formatterOk h tz then Except.error JsError.rangeError
          else
            match newDate h (some raw) with
            | none => Except.error JsError.rangeError
            | some start =>
              Except.ok (h.formatMonthDay (zoneOption tz) start ++ " (" ++
                formatTimeOnlyInZone h (some raw) tz ++ " - " ++
                formatTimeOnlyInZone h endDateStr tz ++ ")")
        else
          Except.ok (formatDateTimeCompactInZone h (some raw) tz ++ " to " ++
            formatDateTimeCompactInZone h endDateStr tz)
    else Except.ok (formatDateTimeCompactInZone h (some raw) tz)

/-- The expression `[city, state].filter(Boolean).join(', ')`. -/
def cityState (city state : Json) : String :=
  jsJoin ", " (([city, state].filter Json.truthy).map Json.toJsString)

/-- Lines 505-523: the array `locationParts`, its items as `join` converts
them to strings. -/
def locationParts (f : LocFields) (dt : String) : List String :=
  (if f.t.truthy then
    (let cs := cityState f.city f.state
     [if cs != "" then f.t.toJsString ++ ": " ++ cs else f.t.toJsString])
   else if f.city.truthy || f.state.truthy then [cityState f.city f.state]
   else []) ++
  (if dt != "" then [dt] else []) ++
  (if f.apptType.truthy then ["(" ++ f.apptType.toJsString ++ ")"] else [])

/-- Lines 438-526: the line of one waypoint. -/
def locLine (h : Host) (loc : Json) : Except JsError String :=
  let f := locFields loc
  match dtFormatted h loc f.apptType with
  | Except.error e => Except.error e
  | Except.ok dt => Except.ok (jsJoin " | " (locationParts f dt))

/-- The `map` of line 438 over the sorted waypoints; the first raise ends it. -/
def locLines (h : Host) : List Json → Except JsError (List String)
  | [] => Except.ok []
  | loc :: rest =>
    match locLine h loc with
    | Except.error e => Except.error e
    | Except.ok line =>
      match locLines h rest with
      | Except.error e => Except.error e
      | Except.ok lines => Except.ok (line :: lines)

/-- The unit of lines 541-548 and 577-584: a string as it is, an object
through the keys `k1 ?? k2 ?? name ?? label`, nothing otherwise. -/
def unitValue (u : JsVal) (k1 k2 : String) : Json :=
  match u with
  | none => Json.str ""
  | some Json.null => Json.str ""
  | some (Json.str s) => Json.str s
  | some v =>
    if v.isObjectType then
      orNullish (v.get k1) (orNullish (v.get k2) (orNullish (v.get "name")
        (orNullish (v.get "label") (Json.str ""))))
    else Json.str ""

/-- Lines 536-552: `weightVal` and `weightUnitVal`. -/
def weightOf (eqAttrs : Json) : Json × Json :=
  match eqAttrs.get "weight" with
  | none => (Json.str "", Json.str "")
  | some Json.null => (Json.str "", Json.str "")
  | some w =>
    if w.isObjectType then
      (orNullish (w.get "weight") (orNullish (w.get "value") (Json.str "")),
       unitValue (w.get "units") "value" "Value")
    else (w, Json.str "")

/-- Lines 572-588: `tempVal` and `tempUnits`. -/
def tempOf (eqAttrs : Json) : Json × Json :=
  match eqAttrs.get "temp" with
  | none => (Json.str "", Json.str "")
  | some Json.null => (Json.str "", Json.str "")
  | some w =>
    if w.isObjectType then
      (orNullish (w.get "temp") (orNullish (w.get "value") (Json.str "")),
       unitValue (w.get "units") "Value" "value")
    else (w, Json.str "")

/-- Lines 563-565: the names pushed for the items of one order. -/
def namesOfItems (items : List Json) : List String :=
  items.filterMap (fun it =>
    if it.truthy && truthy (it.get "name") then some (jsString (it.get "name")) else none)

/-- Lines 561-566: `itemNames`; reading `ord.items` of a `null` order raises
a `TypeError`. -/
def itemNames : List Json → Except JsError (List String)
  | [] => Except.ok []
  | Json.null :: _ => Except.error JsError.typeError
  | ord :: rest =>
    match itemNames rest with
    | Except.error e => Except.error e
    | Except.ok names => Except.ok (namesOfItems (asArray (ord.get "items")) ++ names)

/-- The items of `Array.from(new Set(names))`: first occurrences, in order. -/
def dedupe : List String → List String
  | [] => []
  | x :: xs => x :: (dedupe xs).filter (fun y => y != x)

/-- Line 567: `commodityVal`. -/
def commodityOf (names : List String) : String :=
  if names.isEmpty then "" else jsJoin ", " (dedupe names)

/-- The value `s.value || s.name || s.key || s.id` of a truthy service. -/
def serviceLabel (s : Json) : JsVal :=
  let a := s.get "value"
  if truthy a then a else
  let b := s.get "name"
  if truthy b then b else
  let c := s.get "key"
  if truthy c then c else s.get "id"

/-- Lines 597-600: `servicesJoined`. -/
def servicesOf (servicesList : List Json) : String :=
  jsJoin ", " ((servicesList.map (fun s =>
    if s.truthy && truthy (serviceLabel s) then jsString (serviceLabel s) else "")).filter
      (fun l => l != ""))

/-- Lines 638-646: the state `wireDependentCheckbox` leaves the child in. -/
def wireDependentCheckbox (parent child : Bool) : Bool := if !parent then false else child

/-- The result of a run of `renderSummary`: the page afterwards, and the
exception it ended with, if any. -/
structure Rendered where
  dom : Dom
  raised : Option JsError
deriving DecidableEq, Repr

/-- Lines 398-400: the waypoint array of the document. -/
def shipLocationsOf (details : Json) : List Json :=
  let globalRoute := orFalsy (details.get "global_route")
    (orFalsy (details.get "gloabl_route") emptyObj)
  asArray (globalRoute.get "ship_locations")

/-- Lines 531-533: `eqAttrs`. -/
def eqAttrsOf (details : Json) : Json :=
  let firstEquipment := orFalsy (asArray (details.get "equipment")).head? emptyObj
  orFalsy (firstEquipment.get "attributes") emptyObj

/-- Lines 398-610: `renderSummary` on a document that is a truthy object. -/
def renderDocument (h : Host) (data : Json) (dom : Dom) : Rendered :=
  let details := orFalsy (data.get "details") emptyObj
  match locLines h (sortedLocations h (shipLocationsOf details)) with
  | Except.error e => { dom := dom, raised := some e }
  | Except.ok lines =>
    let eqAttrs := eqAttrsOf details
    let w := weightOf eqAttrs
    let d1 : Dom := { dom with
      shipLocations := setMultiline lines,
      chkShipLocations := !lines.isEmpty,
      weight := setText w.1,
      weightUnit := setText w.2,
      chkWeight := hasText w.1,
      chkWeightUnit := hasText w.2 }
    match itemNames (asArray (details.get "customer_orders")) with
    | Except.error e => { dom := d1, raised := some e }
    | Except.ok names =>
      let commodityVal := commodityOf names
      let t := tempOf eqAttrs
      let servicesJoined := servicesOf (asArray (details.get "services"))
      let margin := orFalsy (details.get "margin") emptyObj
      let pay := margin.get "minCarrierPay"
      let rateText := match pay with
        | none => ""
        | some Json.null => ""
        | some v => v.toJsString
      let d2 : Dom := { d1 with
        commodity := setText (Json.str commodityVal),
        chkCommodity := hasText (Json.str commodityVal),
        temperature := setText t.1,
        temperatureUnit := setText t.2,
        chkTemperature := hasText t.1,
        chkTemperatureUnit := wireDependentCheckbox (hasText t.1) (hasText t.2),
        services := setText (Json.str servicesJoined),
        chkServices := hasText (Json.str servicesJoined),
        rate := setText (Json.str rateText),
        chkRate := (match pay with
          | none => false
          | some Json.null => false
          | some v => jsTrim v.toJsString != "") }
      let d3 : Dom := { d2 with chkWeightUnit := wireDependentCheckbox d2.chkWeight d2.chkWeightUnit }
      { dom := renderEmail d3, raised := none }

/-- Lines 375-610: `renderSummary`. A string is parsed first; a value that
is not a truthy object leaves the page as it is. -/
def renderSummary (h : Host) (raw : JsVal) (dom : Dom) : Rendered :=
  let data : JsVal := match raw with
    | some (Json.str text) => some ((h.jsonParse text).getD Json.null)
    | other => other
  match data with
  | none => { dom := dom, raised := none }
  | some d =>
    if !d.truthy || !d.isObjectType then { dom := dom, raised := none }
    else renderDocument h d dom

/-! ## Notions used to state the properties of the waypoint sort -/

/-- The time the comparator orders a waypoint by: the time value of its
resolved date, `none` when the waypoint has no date or the date does not
parse. -/
def locTime (h : Host) (loc : Json) : Option Int :=
  if (getLocationDate loc).truthy then newDate h (some (getLocationDate loc)) else none

/-- The rank the comparator gives a waypoint: `(0, t)` for a date that parses
to `t`, `(1, 0)` for a date that does not parse, `(2, 0)` for no date. -/
def sortKey (h : Host) (loc : Json) : Nat × Int :=
  if (getLocationDate loc).truthy then
    match newDate h (some (getLocationDate loc)) with
    | some t => (0, t)
    | none => (1, 0)
  else (2, 0)

/-- The order of ranks: by the first component, then by the time. -/
def keyLe (a b : Nat × Int) : Prop := a.1 < b.1 ∨ (a.1 = b.1 ∧ a.2 ≤ b.2)

/-! ## Sample inputs -/

/-- A host for the examples: it parses the two dates of the sort example as
ECMAScript does (UTC midnight) and formats nothing. -/
def sampleHost : Host where
  dateParse := fun s =>
    if s = "2024-01-01" then some 1704067200000
    else if s = "2024-02-01" then some 1706745600000
    else none
  stringToNumber := fun _ => none
  jsonParse := fun _ => none
  toISOString := fun _ => ""
  zoneOk := fun _ => true
  formatMonthDay := fun _ _ => ""
  formatHourMinute := fun _ _ => ""
  formatYearMonthDay := fun _ _ => ""
  getMonth := fun _ => 0
  getDate := fun _ => 1
  getHours := fun _ => 0
  getMinutes := fun _ => 0
  toDateString := fun _ => ""

/-- A waypoint with a type label and, when given, an appointment date. -/
def sampleWaypoint (label : String) (date : Option String) : Json :=
  match date with
  | some d => Json.obj [("type", Json.str label),
      ("appointment", Json.obj [("date", Json.str d)])]
  | none => Json.obj [("type", Json.str label)]

/-- A FETCH_SHIPMENT message for a tab. -/
def sampleFetchMessage (shipmentId : String) (tabId : Int) : Json :=
  Json.obj [("type", Json.str "FETCH_SHIPMENT"), ("shipmentId", Json.str shipmentId),
    ("tabId", Json.num tabId)]

/-- A GET_LAST_SHIPMENT message for a tab. -/
def sampleGetMessage (tabId : Int) : Json :=
  Json.obj [("type", Json.str "GET_LAST_SHIPMENT"), ("tabId", Json.num tabId)]

/-- A successful JSON response with the given body. -/
def sampleResponse (body : Json) : HttpResponse :=
  { ok := true, status := 200, contentType := some "application/json; charset=utf-8",
    json := Except.ok body, text := "" }

/-- A page on which a previous summary is shown. -/
def sampleDom : Dom :=
  { shipLocations := ["Pickup: Dallas, TX"], weight := "42000", weightUnit := "lbs",
    commodity := "Steel", temperature := "34", temperatureUnit := "F", services := "Tarp",
    rate := "1500", chkShipLocations := true, chkWeight := true, chkWeightUnit := true,
    chkCommodity := true, chkTemperature := true, chkTemperatureUnit := true,
    chkServices := true, chkRate := true, emailText := "" }

/-! ## The location line as the specification words it -/

/-- The place segment: `t: c, s` with an empty city or state left out of the
comma pair, `t` alone when both are empty, the comma pair alone when `t` is
empty. -/
def specPlace (t c s : String) : String :=
  let pair := jsJoin ", " ([c, s].filter (fun x => x != ""))
  if t != "" then (if c == "" && s == "" then t else t ++ ": " ++ pair) else pair

/-- The segments of a line: the place segment, the date/time and the
scheduling label in parentheses, a segment with an empty source left out. -/
def specSegments (t c s d a : String) : List String :=
  [specPlace t c s, d].filter (fun x => x != "") ++ (if a != "" then ["(" ++ a ++ ")"] else [])

/-- Whether the string starts with `pre`. -/
def jsStartsWith (s pre : String) : Bool := isPrefixChars pre.data s.data

/-- Whether the string ends with `suf`. -/
def jsEndsWith (s suf : String) : Bool := isPrefixChars suf.data.reverse s.data.reverse

/-! ## The email text as the specification words it -/

/-- One `<Label>: <value>` entry, present when the check box is checked and
the text is not empty; `suffix` is appended to the value. -/
def fieldEntry (label : String) (checked : Bool) (value suffix : String) : List String :=
  if checked && value != "" then [label ++ ": " ++ value ++ suffix] else []

/-- The unit part of the weight and temperature entries: a space and the unit
when the unit check box is checked and the unit text is not empty. -/
def unitSuffix (checked : Bool) (unit : String) : String :=
  if checked && unit != "" then " " ++ unit else ""

/-- The lines of the email when every field, the locations included, is one
`<Label>: <value>` entry. -/
def uniformEmailLines (d : Dom) : List String :=
  ["Shipment details can be found below.", ""] ++
  fieldEntry "Ship Locations" d.chkShipLocations (shipLocationsText d.shipLocations) "" ++
  fieldEntry "Commodity" d.chkCommodity d.commodity "" ++
  fieldEntry "Weight" d.chkWeight d.weight (unitSuffix d.chkWeightUnit d.weightUnit) ++
  fieldEntry "Temperature" d.chkTemperature d.temperature
    (unitSuffix d.chkTemperatureUnit d.temperatureUnit) ++
  fieldEntry "Services" d.chkServices d.services "" ++
  fieldEntry "Rate" d.chkRate d.rate ""

/-- The lines of the email when the locations are a labelled block (the line
`Ship Locations:` followed by the location lines) and every other field is
one `<Label>: <value>` entry. -/
def blockEmailLines (d : Dom) : List String :=
  ["Shipment details can be found below.", ""] ++
  (if d.chkShipLocations && shipLocationsText d.shipLocations != "" then
    ["Ship Locations:", shipLocationsText d.shipLocations] else []) ++
  fieldEntry "Commodity" d.chkCommodity d.commodity "" ++
  fieldEntry "Weight" d.chkWeight d.weight (unitSuffix d.chkWeightUnit d.weightUnit) ++
  fieldEntry "Temperature" d.chkTemperature d.temperature
    (unitSuffix d.chkTemperatureUnit d.temperatureUnit) ++
  fieldEntry "Services" d.chkServices d.services "" ++
  fieldEntry "Rate" d.chkRate d.rate ""

/-- A page on which only the locations are checked. -/
def sampleLocationsOnlyDom : Dom :=
  { shipLocations := ["Pickup: Dallas, TX"], weight := "—", weightUnit := "—",
    commodity := "—", temperature := "—", temperatureUnit := "—", services := "—",
    rate := "—", chkShipLocations := true, chkWeight := false, chkWeightUnit := false,
    chkCommodity := false, chkTemperature := false, chkTemperatureUnit := false,
    chkServices := false, chkRate := false, emailText := "" }

/-- A page on which only the rate, `1500`, is checked. -/
def sampleRateOnlyDom : Dom :=
  { shipLocations := ["Pickup: Dallas, TX"], weight := "42000", weightUnit := "lbs",
    commodity := "Steel", temperature := "34", temperatureUnit := "F", services := "Tarp",
    rate := "1500", chkShipLocations := false, chkWeight := false, chkWeightUnit := false,
    chkCommodity := false, chkTemperature := false, chkTemperatureUnit := false,
    chkServices := false, chkRate := true, emailText := "" }

/-! ## Time zone resolution as the specification words it -/

/-- The canonical zone of a listed abbreviation (in upper case), `none` for
any other string. -/
def specAbbrevGroup (u : String) : Option String :=
  if ["ET", "EST", "EDT"].contains u then some "America/New_York"
  else if ["CT", "CST", "CDT"].contains u then some "America/Chicago"
  else if ["MT", "MST", "MDT"].contains u then some "America/Denver"
  else if ["PT", "PST", "PDT"].contains u then some "America/Los_Angeles"
  else if ["AKST", "AKDT"].contains u then some "America/Anchorage"
  else if ["HST", "HAST", "HADT"].contains u then some "Pacific/Honolulu"
  else if ["PHOENIX", "ARIZONA"].contains u then some "America/Phoenix"
  else none

/-- The zone of a trimmed explicit value: the canonical zone when the value
is a listed abbreviation in any letter case (its upper case is the
abbreviation), the value itself otherwise. -/
def specAbbrevZone (z : String) : String := (specAbbrevGroup (toUpperCase z)).getD z

/-- A non-blank field: present, truthy, and not empty once trimmed. -/
def nonBlank (v : JsVal) : Bool := truthy v && jsTrim (coerceString v) != ""

/-- The explicit time zone fields of a waypoint and of its address, in the
order of the source: `timeZone`, `timezone`, `tz`, then the address's
`timeZone`, `timezone`, `time_zone`. -/
def explicitZoneFields (location : Json) : List JsVal := (zoneCandidates location).take 6

/-- The zones of the state table. -/
def stateZones : List String :=
  ["America/New_York", "America/Chicago", "America/Denver", "America/Phoenix",
   "America/Los_Angeles", "America/Anchorage", "Pacific/Honolulu"]

/-- The zone groups of `mapUsStateAbbrToIana`, Alaska and Hawaii as groups of
one. -/
def zoneGroups : List (List String) := [eastern, central, mountain, pacific, ["AK"], ["HI"]]

/-- Whether a state string is one of the 50 states or DC, as the two-letter
abbreviation or the full name, in any letter case (its upper case is the
abbreviation or the name). -/
def isUsState (state : String) : Bool :=
  stateAbbrs.contains (toUpperCase (jsTrim state)) ||
    (nameToAbbr.map Prod.fst).contains (toUpperCase (jsTrim state))

/-- The state of an address that is given as a plain string, or as an object
that carries it under `name` and has no truthy `abbrev`, `abbr`, `code` or
`value` field (the fields the source reads before `name`). -/
def givenState (addr : Json) : Option String :=
  match addr.get "state" with
  | some (Json.str s) => some s
  | some (Json.obj fields) =>
    if !truthy (lookupField "abbrev" fields) && !truthy (lookupField "abbr" fields) &&
        !truthy (lookupField "code" fields) && !truthy (lookupField "value" fields) then
      match lookupField "name" fields with
      | some (Json.str s) => some s
      | _ => none
    else none
  | _ => none

/-- A document whose first equipment entry has the given attributes. -/
def sampleEquipmentDoc (attrs : Json) : Json :=
  Json.obj [("details", Json.obj [("equipment", Json.arr [Json.obj [("attributes", attrs)]])])]

/-! ## A host in UTC with en-US formatting -/

/-- The civil date `(year, month, day)` of a day number counted from
1970-01-01 (proleptic Gregorian calendar). -/
def civilFromDays (days : Int) : Int × Nat × Nat :=
  let z := days + 719468
  let era := Int.fdiv z 146097
  let doe := (z - era * 146097).toNat
  let yoe := (doe - doe / 1460 + doe / 36524 - doe / 146096) / 365
  let doy := doe - (365 * yoe + yoe / 4 - yoe / 100)
  let mp := (5 * doy + 2) / 153
  let d := doy - (153 * mp + 2) / 5 + 1
  let m := if mp < 10 then mp + 3 else mp - 9
  let y := (yoe : Int) + era * 400 + (if m ≤ 2 then 1 else 0)
  (y, m, d)

/-- The day number, counted from 1970-01-01, of a civil date. -/
def daysFromCivil (y : Int) (m d : Nat) : Int :=
  let y1 := if m ≤ 2 then y - 1 else y
  let era := Int.fdiv y1 400
  let yoe := (y1 - era * 400).toNat
  let mp := if m > 2 then m - 3 else m + 9
  let doy := (153 * mp + 2) / 5 + d - 1
  let doe := yoe * 365 + yoe / 4 - yoe / 100 + doy
  era * 146097 + (doe : Int) - 719468

/-- The value of a decimal digit character. -/
def digitValue (c : Char) : Option Nat :=
  if 48 ≤ c.toNat ∧ c.toNat ≤ 57 then some (c.toNat - 48) else none

/-- The number written by a non-empty list of decimal digits. -/
def digitsValue : List Char → Option Nat
  | [] => none
  | cs => cs.foldl (fun acc c =>
      match acc, digitValue c with
      | some n, some d => some (10 * n + d)
      | _, _ => none) (some 0)

/-- The time of a calendar date and clock time in UTC, when the fields are in
range. -/
def utcTime (y mo d hh mi ss ms : Nat) : Option Int :=
  if 1 ≤ mo ∧ mo ≤ 12 ∧ 1 ≤ d ∧ d ≤ 31 ∧ hh ≤ 23 ∧ mi ≤ 59 ∧ ss ≤ 59 then
    some (daysFromCivil y mo d * 86400000 + hh * 3600000 + mi * 60000 + ss * 1000 + ms)
  else none

/-- The ISO forms read by the UTC host: `YYYY-MM-DD`, `YYYY-MM-DDTHH:mm:ssZ`
and `YYYY-MM-DDTHH:mm:ss.sssZ`; any other string is an invalid date. -/
def parseIso (s : String) : Option Int :=
  match s.data with
  | [y1, y2, y3, y4, '-', m1, m2, '-', d1, d2] =>
    match digitsValue [y1, y2, y3, y4], digitsValue [m1, m2], digitsValue [d1, d2] with
    | some y, some mo, some d => utcTime y mo d 0 0 0 0
    | _, _, _ => none
  | [y1, y2, y3, y4, '-', m1, m2, '-', d1, d2, 'T', h1, h2, ':', i1, i2, ':', s1, s2, 'Z'] =>
    match digitsValue [y1, y2, y3, y4], digitsValue [m1, m2], digitsValue [d1, d2],
      digitsValue [h1, h2], digitsValue [i1, i2], digitsValue [s1, s2] with
    | some y, some mo, some d, some hh, some mi, some ss => utcTime y mo d hh mi ss 0
    | _, _, _, _, _, _ => none
  | [y1, y2, y3, y4, '-', m1, m2, '-', d1, d2, 'T', h1, h2, ':', i1, i2, ':', s1, s2, '.',
      f1, f2, f3, 'Z'] =>
    match digitsValue [y1, y2, y3, y4], digitsValue [m1, m2], digitsValue [d1, d2],
      digitsValue [h1, h2], digitsValue [i1, i2], digitsValue [s1, s2],
      digitsValue [f1, f2, f3] with
    | some y, some mo, some d, some hh, some mi, some ss, some ms => utcTime y mo d hh mi ss ms
    | _, _, _, _, _, _, _ => none
  | _ => none

/-- A number in decimal, padded with zeros on the left to `width` digits. -/
def padZeros (width n : Nat) : String :=
  let s := toString n
  ⟨List.replicate (width - s.length) '0'⟩ ++ s

/-- The day number of a time. -/
def dayOf (t : Int) : Int := Int.fdiv t 86400000

/-- The milliseconds of a time since the start of its UTC day. -/
def msOfDay (t : Int) : Nat := (Int.fmod t 86400000).toNat

/-- The UTC hour of a time. -/
def utcHours (t : Int) : Nat := msOfDay t / 3600000

/-- The UTC minute of a time. -/
def utcMinutes (t : Int) : Nat := msOfDay t / 60000 % 60

/-- The string `YYYY-MM-DDTHH:mm:ss.sssZ` of a time (years 0 to 9999). -/
def isoString (t : Int) : String :=
  let c := civilFromDays (dayOf t)
  padZeros 4 c.1.toNat ++ "-" ++ padZeros 2 c.2.1 ++ "-" ++ padZeros 2 c.2.2 ++ "T" ++
    padZeros 2 (utcHours t) ++ ":" ++ padZeros 2 (utcMinutes t) ++ ":" ++
    padZeros 2 (msOfDay t / 1000 % 60) ++ "." ++ padZeros 3 (msOfDay t % 1000) ++ "Z"

/-- The short month name and day of a time in UTC, as en-US formats them
(`Mar 1`). -/
def utcMonthDay (t : Int) : String :=
  let c := civilFromDays (dayOf t)
  (monthNames.getD (c.2.1 - 1) "") ++ " " ++ toString c.2.2

/-- The table of day names of `toDateString`. -/
def dayNames : List String := ["Thu", "Fri", "Sat", "Sun", "Mon", "Tue", "Wed"]

/-- The decimal integer written by a string, white space trimmed: the empty
string is `0`, a string that is not an optional sign and digits is `NaN`. -/
def decimalNumber (s : String) : Option Int :=
  match (jsTrim s).data with
  | [] => some 0
  | '-' :: ds => (digitsValue ds).map (fun n => - (n : Int))
  | '+' :: ds => (digitsValue ds).map (fun n => (n : Int))
  | ds => (digitsValue ds).map (fun n => (n : Int))

/-- A host whose zone is UTC and whose locale is en-US: it reads the ISO
forms of `parseIso`, accepts `UTC` as the only time zone identifier, and
formats dates as `Mar 1`, times as `09:00` (hours `00` to `23`) and days as
`3/1/2024`. The examples pass parsed documents, so `JSON.parse` is not
used. -/
def utcHost : Host where
  dateParse := parseIso
  stringToNumber := decimalNumber
  jsonParse := fun _ => none
  toISOString := isoString
  zoneOk := fun z => z == "UTC"
  formatMonthDay := fun _ t => utcMonthDay t
  formatHourMinute := fun _ t => padZeros 2 (utcHours t) ++ ":" ++ padZeros 2 (utcMinutes t)
  formatYearMonthDay := fun _ t =>
    let c := civilFromDays (dayOf t)
    toString c.2.1 ++ "/" ++ toString c.2.2 ++ "/" ++ toString c.1
  getMonth := fun t => (civilFromDays (dayOf t)).2.1 - 1
  getDate := fun t => (civilFromDays (dayOf t)).2.2
  getHours := utcHours
  getMinutes := utcMinutes
  toDateString := fun t =>
    let c := civilFromDays (dayOf t)
    (dayNames.getD (Int.fmod (dayOf t) 7).toNat "") ++ " " ++
      (monthNames.getD (c.2.1 - 1) "") ++ " " ++ padZeros 2 c.2.2 ++ " " ++
      padZeros 4 c.1.toNat

/-- The round trip a conforming host guarantees for a valid time: its
`toISOString` is a non-empty string that `Date.parse` reads back. -/
def isoRoundTrip (h : Host) (t : Int) : Prop :=
  h.toISOString t ≠ "" ∧ h.dateParse (h.toISOString t) = some t

/-- A first-come-first-served waypoint with an explicit zone. -/
def sampleWindowWaypoint (date : String) (flex : Int) (label zone : String) : Json :=
  Json.obj [("type", Json.str "Pickup"),
    ("appointment", Json.obj [("date", Json.str date), ("flex", Json.num flex)]),
    ("schedulingType", Json.obj [("shortName", Json.str label)]),
    ("timeZone", Json.str zone)]

/-- A document whose route holds the given waypoints. -/
def sampleRouteDoc (waypoints : List Json) : Json :=
  Json.obj [("details", Json.obj [("global_route",
    Json.obj [("ship_locations", Json.arr waypoints)])])]

/-! ## Notions used to state the properties of the date/time segment -/

/-- The waypoint with `appointment.flex` set to `flex`, for a waypoint
object whose `appointment` is an object (the new binding comes first, so it
is the one read); any other waypoint is left as it is. -/
def withFlex (loc : Json) (flex : Json) : Json :=
  match loc with
  | Json.obj fields =>
    match lookupField "appointment" fields with
    | some (Json.obj afields) =>
      Json.obj (("appointment", Json.obj (("flex", flex) :: afields)) :: fields)
    | _ => loc
  | _ => loc

/-- Whether the comparator finds no date on the waypoint. -/
def hasNoDate (loc : Json) : Bool := !(getLocationDate loc).truthy

/-- Whether the comparator finds a date that does not parse. -/
def hasUnparseableDate (h : Host) (loc : Json) : Bool :=
  (getLocationDate loc).truthy && (newDate h (some (getLocationDate loc))).isNone

/-! ## Shipment list client (`shipmentList.js`) -/

/-- The request of `fetchShipmentList`: the filter object that lines 17-38
encode into the URL, and the `authorization` header of line 46. -/
structure ListRequest where
  filter : Json
  authorization : String

/-- Lines 18-35: the filter object. -/
def listFilter (customId : Json) : Json :=
  Json.obj [("pageSize", Json.num 24), ("start", Json.num 0),
    ("criteria", Json.arr [
      Json.obj [("key", Json.str "custom_id"), ("function", Json.str "in"),
        ("values", Json.arr [customId])],
      Json.obj [("key", Json.str "status.code.id"), ("function", Json.str "nin"),
        ("values", Json.arr [Json.num 100173])]]),
    ("sortBy", Json.str "lastUpdatedOn"), ("sortDirection", Json.str "desc")]

/-- Lines 12-62: `fetchShipmentList`; `Except.error` is a thrown `Error` with
the given message (a rejected `fetch` or `resp.json()` rethrows its own). -/
def fetchShipmentList (net : ListRequest → FetchResult) (bearerToken customId : JsVal) :
    Except String Json :=
  if !truthy bearerToken || !truthy customId then
    Except.error "Missing required parameters: bearerToken or customId"
  else
    match net { filter := listFilter (orNullish customId Json.null),
                authorization := "Bearer " ++ jsString bearerToken } with
    | FetchResult.rejected msg => Except.error msg
    | FetchResult.resolved resp =>
      if !resp.ok then
        Except.error ("API request failed with status " ++ numToString resp.status)
      else responseData resp

/-- Lines 119-141: the FETCH_SHIPMENT_LIST handler, the argument of
`sendResponse`. -/
def handleFetchShipmentList (net : ListRequest → FetchResult) (message : Json) : Json :=
  let bearerToken := message.get "bearerToken"
  let customId := message.get "customId"
  if !truthy bearerToken || !truthy customId then
    errorReply "Missing bearerToken or customId"
  else
    match fetchShipmentList net bearerToken customId with
    | Except.error msg => errorReply msg
    | Except.ok data => Json.obj [("ok", Json.bool true), ("data", data)]

/-- Lines 117-142: the listener of `initShipmentListHandler`; `none` when it
does not answer. -/
def onListMessage (net : ListRequest → FetchResult) (message : JsVal) : Option Json :=
  match message with
  | none => none
  | some m =>
    if !m.truthy then none
    else
      match m.get "type" with
      | some (Json.str "FETCH_SHIPMENT_LIST") => some (handleFetchShipmentList net m)
      | _ => none

/-- A FETCH_SHIPMENT_LIST message. -/
def sampleListMessage : Json :=
  Json.obj [("type", Json.str "FETCH_SHIPMENT_LIST"), ("bearerToken", Json.str "tok"),
    ("customId", Json.str "PO-1")]

/-- A response with status 500 and a JSON error body. -/
def sampleErrorResponse : HttpResponse :=
  { ok := false, status := 500, contentType := some "application/json",
    json := Except.ok (Json.obj [("message", Json.str "boom")]), text := "" }

/-! ## Check box toggles -/

/-- The check boxes of the popup. -/
inductive Box where
  | shipLocations
  | weight
  | weightUnit
  | commodity
  | temperature
  | temperatureUnit
  | services
  | rate
deriving DecidableEq, Repr

/-- A click on a check box of a page on which `renderSummary` has run to its
end: the box changes state and its `onchange` handler runs. The handler of the
weight and temperature boxes is the one `wireDependentCheckbox` assigns
(lines 642-645: switch the unit off when the parent is off, then
`renderEmail`); the handler of every other box, the unit boxes included, is
the one `setCheckboxDefault` assigns (line 635: `renderEmail`). -/
def toggle (b : Box) (d : Dom) : Dom :=
  match b with
  | Box.shipLocations => renderEmail { d with chkShipLocations := !d.chkShipLocations }
  | Box.weight =>
    renderEmail { d with chkWeight := !d.chkWeight,
                         chkWeightUnit := wireDependentCheckbox (!d.chkWeight) d.chkWeightUnit }
  | Box.weightUnit => renderEmail { d with chkWeightUnit := !d.chkWeightUnit }
  | Box.commodity => renderEmail { d with chkCommodity := !d.chkCommodity }
  | Box.temperature =>
    renderEmail { d with chkTemperature := !d.chkTemperature,
                         chkTemperatureUnit :=
                           wireDependentCheckbox (!d.chkTemperature) d.chkTemperatureUnit }
  | Box.temperatureUnit => renderEmail { d with chkTemperatureUnit := !d.chkTemperatureUnit }
  | Box.services => renderEmail { d with chkServices := !d.chkServices }
  | Box.rate => renderEmail { d with chkRate := !d.chkRate }

/-- The dependency of the unit boxes: a parent that is off has its unit
off. -/
def unitsFollowParents (d : Dom) : Prop :=
  (d.chkWeight = false → d.chkWeightUnit = false) ∧
  (d.chkTemperature = false → d.chkTemperatureUnit = false)

/-! ## Outbound request headers -/

/-- The headers object that both clients pass to `fetch` (`background.js`,
lines 65-69; `shipmentList.js`, lines 44-48), given the value of the
`authorization` entry. -/
def fetchHeaders (authorization : String) : List HttpHeader :=
  [⟨some "accept", some "application/json, text/plain, */*"⟩,
   ⟨some "authorization", some authorization⟩,
   ⟨some "referer", some "https://app.turvo.com/"⟩]

/-- A network that rejects every list request with the `authorization` header
it was given, so that the reply shows the header the client sent. -/
def echoAuthorization (r : ListRequest) : FetchResult :=
  FetchResult.rejected r.authorization

/-! # Theorems -/

/-! ### Lemmas on the matcher -/

theorem tryGreedy_eq_some {ρ : Type} (k : List Char → List Char → Option ρ) (input : List Char)
    (r : ρ) (n : Nat) :
    tryGreedy k input n = some r ↔
      ∃ j, 1 ≤ j ∧ j ≤ n ∧ k (input.take j) (input.drop j) = some r ∧
        ∀ i, j < i → i ≤ n → k (input.take i) (input.drop i) = none := by
  induction n with
  | zero =>
    simp only [tryGreedy]
    constructor
    · intro h; cases h
    · rintro ⟨j, h1, h2, _⟩; omega
  | succ n ih =>
    simp only [tryGreedy]
    cases hk : k (input.take (n + 1)) (input.drop (n + 1)) with
    | some r0 =>
      constructor
      · intro h
        refine ⟨n + 1, by omega, le_refl _, ?_, ?_⟩
        · rw [hk]; exact h
        · intro i h1 h2; omega
      · rintro ⟨j, h1, h2, h3, h4⟩
        rcases Nat.lt_or_ge j (n + 1) with hlt | hge
        · have := h4 (n + 1) hlt (le_refl _)
          rw [hk] at this; cases this
        · have hj : j = n + 1 := by omega
          subst hj
          rw [hk] at h3; exact h3
    | none =>
      simp only []
      rw [ih]
      constructor
      · rintro ⟨j, h1, h2, h3, h4⟩
        refine ⟨j, h1, by omega, h3, ?_⟩
        intro i hi1 hi2
        rcases Nat.lt_or_ge i (n + 1) with hlt | hge
        · exact h4 i hi1 (by omega)
        · have hi : i = n + 1 := by omega
          subst hi; exact hk
      · rintro ⟨j, h1, h2, h3, h4⟩
        have hj : j ≠ n + 1 := by
          intro hj; subst hj; rw [hk] at h3; cases h3
        exact ⟨j, h1, by omega, h3, fun i hi1 hi2 => h4 i hi1 (by omega)⟩

theorem takeWhile_length_le (p : Char → Bool) (l : List Char) :
    (l.takeWhile p).length ≤ l.length := by
  induction l with
  | nil => simp
  | cons c cs ih =>
    simp only [List.takeWhile]
    cases p c
    · simp
    · simp; omega

theorem takeWhile_length_eq (p : Char → Bool) (l : List Char) :
    (l.takeWhile p).length = l.length ↔ ∀ c ∈ l, p c = true := by
  induction l with
  | nil => simp
  | cons c cs ih =>
    simp only [List.takeWhile]
    cases hp : p c
    · simp [hp]
    · simp [hp, ih]

theorem take_of_le_takeWhile (p : Char → Bool) (l : List Char) (j : Nat)
    (hj : j ≤ (l.takeWhile p).length) : ∀ c ∈ l.take j, p c = true := by
  induction l generalizing j with
  | nil => simp
  | cons c cs ih =>
    cases j with
    | zero => simp
    | succ j =>
      simp only [List.takeWhile] at hj
      cases hp : p c
      · simp [hp] at hj
      · simp only [hp, List.length_cons] at hj
        intro x hx
        simp only [List.take_succ_cons, List.mem_cons] at hx
        rcases hx with rfl | hx
        · exact hp
        · exact ih j (by omega) x hx

theorem drop_takeWhile_head (p : Char → Bool) (l : List Char) (c : Char) (cs : List Char)
    (h : l.drop (l.takeWhile p).length = c :: cs) : p c = false := by
  induction l with
  | nil => simp at h
  | cons x xs ih =>
    simp only [List.takeWhile] at h
    cases hp : p x
    · simp only [hp, List.length_nil, List.drop_zero, List.cons.injEq] at h
      rw [← h.1]; exact hp
    · simp only [hp, List.length_cons, List.drop_succ_cons] at h
      exact ih h

theorem takeWhile_length_append (p : Char → Bool) (w t : List Char)
    (hw : ∀ c ∈ w, p c = true) :
    ((w ++ t).takeWhile p).length = w.length + (t.takeWhile p).length := by
  induction w with
  | nil => simp
  | cons x xs ih =>
    have hx : p x = true := hw x (List.mem_cons_self _ _)
    have h2 := ih (fun c hc => hw c (List.mem_cons_of_mem _ hc))
    rw [List.cons_append, List.takeWhile_cons, hx]
    simp only [if_true, List.length_cons, h2]
    omega

theorem matchAtoms_dotPlus (input : List Char) (cap : Option (List Char)) :
    matchAtoms [Atom.plus isDotChar true] input cap =
      if input ≠ [] ∧ ∀ c ∈ input, isDotChar c = true then some (some input) else none := by
  have hdef : matchAtoms [Atom.plus isDotChar true] input cap =
      tryGreedy atEnd input (input.takeWhile isDotChar).length := by
    simp only [matchAtoms, if_true]
    rfl
  rw [hdef]
  by_cases hc : input ≠ [] ∧ ∀ c ∈ input, isDotChar c = true
  · rw [if_pos hc]
    obtain ⟨hne, hall⟩ := hc
    rw [tryGreedy_eq_some]
    have hlen : (input.takeWhile isDotChar).length = input.length :=
      (takeWhile_length_eq _ _).2 hall
    refine ⟨input.length, ?_, by omega, ?_, ?_⟩
    · cases input with
      | nil => exact absurd rfl hne
      | cons c cs => simp
    · simp [atEnd]
    · intro i h1 h2; omega
  · rw [if_neg hc]
    cases hres : tryGreedy atEnd input (input.takeWhile isDotChar).length with
    | none => rfl
    | some r =>
      exfalso
      rw [tryGreedy_eq_some] at hres
      obtain ⟨j, h1, h2, h3, _⟩ := hres
      have hle := takeWhile_length_le isDotChar input
      by_cases hd : (input.drop j).isEmpty = true
      · have hj : input.length ≤ j := by
          simpa [List.isEmpty_iff, List.drop_eq_nil_iff] using hd
        apply hc
        refine ⟨?_, (takeWhile_length_eq _ _).1 (by omega)⟩
        intro hnil; subst hnil; simp at h2; omega
      · simp [atEnd, hd] at h3

theorem isDotChar_iff (c : Char) : isDotChar c = true ↔ isLineTerminator c = false := by
  simp [isDotChar]

theorem matchAtoms_gap (R t : List Char) :
    matchAtoms [Atom.plus isJsWhitespace false, Atom.plus isDotChar true] R none = some (some t) ↔
      ∃ gap, R = gap ++ t ∧ gap ≠ [] ∧ (∀ c ∈ gap, isJsWhitespace c = true) ∧ t ≠ [] ∧
        (∀ c ∈ t, isLineTerminator c = false) ∧
        (t.length = 1 ∨ ∃ c cs, t = c :: cs ∧ isJsWhitespace c = false) := by
  have hdef : matchAtoms [Atom.plus isJsWhitespace false, Atom.plus isDotChar true] R none =
      tryGreedy (fun _ remaining =>
        if remaining ≠ [] ∧ ∀ c ∈ remaining, isDotChar c = true then some (some remaining)
        else none) R (R.takeWhile isJsWhitespace).length := by
    rw [matchAtoms]
    simp only [matchAtoms_dotPlus]
  rw [hdef, tryGreedy_eq_some]
  constructor
  · rintro ⟨j, h1, h2, h3, h4⟩
    have hm := takeWhile_length_le isJsWhitespace R
    by_cases hc : R.drop j ≠ [] ∧ ∀ c ∈ R.drop j, isDotChar c = true
    · rw [if_pos hc] at h3
      have ht : R.drop j = t := by simpa using h3
      obtain ⟨hne, hall⟩ := hc
      rw [ht] at hne hall
      refine ⟨R.take j, ?_, ?_, take_of_le_takeWhile _ _ _ h2, hne,
        fun c hc => (isDotChar_iff c).1 (hall c hc), ?_⟩
      · rw [← ht]; exact (List.take_append_drop j R).symm
      · intro hnil
        have : (R.take j).length = 0 := by rw [hnil]; rfl
        rw [List.length_take] at this
        omega
      · rcases Nat.lt_or_ge j (R.takeWhile isJsWhitespace).length with hlt | hge
        · left
          have hnone := h4 (j + 1) (by omega) (by omega)
          have hdrop : R.drop (j + 1) = t.tail := by
            rw [← ht, List.tail_drop]
          rw [hdrop] at hnone
          by_cases htl : t.tail = []
          · cases t with
            | nil => exact absurd rfl hne
            | cons c cs =>
              simp only [List.tail_cons] at htl
              simp [htl]
          · exfalso
            have hcond : t.tail ≠ [] ∧ ∀ c ∈ t.tail, isDotChar c = true :=
              ⟨htl, fun c hc => hall c (List.mem_of_mem_tail hc)⟩
            rw [if_pos hcond] at hnone
            cases hnone
        · right
          have hj : j = (R.takeWhile isJsWhitespace).length := by omega
          cases t with
          | nil => exact absurd rfl hne
          | cons c cs =>
            refine ⟨c, cs, rfl, ?_⟩
            apply drop_takeWhile_head isJsWhitespace R c cs
            rw [← hj]; exact ht
    · rw [if_neg hc] at h3
      cases h3
  · rintro ⟨gap, hR, hgap, hws, hne, hlt, hmax⟩
    subst hR
    have hm := takeWhile_length_append isJsWhitespace gap t hws
    have hgl : 1 ≤ gap.length := by
      cases gap with
      | nil => exact absurd rfl hgap
      | cons c cs => simp
    refine ⟨gap.length, hgl, by omega, ?_, ?_⟩
    · have hcond : t ≠ [] ∧ ∀ c ∈ t, isDotChar c = true :=
        ⟨hne, fun c hc => (isDotChar_iff c).2 (hlt c hc)⟩
      simp only [List.drop_left]
      rw [if_pos hcond]
    · intro i hi1 hi2
      rcases hmax with hlen | ⟨c, cs, rfl, hc⟩
      · have hdrop : (gap ++ t).drop i = [] := by
          apply List.drop_eq_nil_of_le
          rw [List.length_append]
          omega
        rw [hdrop]
        simp
      · exfalso
        simp only [List.takeWhile_cons, hc] at hm
        simp at hm
        omega

theorem matchAtoms_lit (c : Char) (rest : List Atom) (input : List Char)
    (cap : Option (List Char)) (r : Option (List Char)) :
    matchAtoms (Atom.lit c :: rest) input cap = some r ↔
      ∃ x xs, input = x :: xs ∧ upperChar x = upperChar c ∧ matchAtoms rest xs cap = some r := by
  cases input with
  | nil => simp [matchAtoms]
  | cons x xs =>
    simp only [matchAtoms, canonicalize]
    by_cases hx : upperChar x = upperChar c
    · rw [if_pos hx]
      constructor
      · intro h; exact ⟨x, xs, rfl, hx, h⟩
      · rintro ⟨y, ys, heq, _, h⟩
        cases heq; exact h
    · rw [if_neg hx]
      constructor
      · intro h; cases h
      · rintro ⟨y, ys, heq, hu, _⟩
        cases heq; exact absurd hu hx

theorem bearerMatch_eq_some_iff (value token : String) :
    bearerMatch value = some token ↔ BearerSplit value.data token.data := by
  have hres : bearerMatch value = some token ↔
      matchAtoms bearerPattern value.data none = some (some token.data) := by
    unfold bearerMatch
    cases hm : matchAtoms bearerPattern value.data none with
    | none => simp
    | some r =>
      cases r with
      | none => simp
      | some t =>
        simp only [Option.some.injEq]
        constructor
        · intro h; rw [← h]
        · intro h; rw [h]
  rw [hres]
  unfold bearerPattern BearerSplit
  simp only [matchAtoms_lit, matchAtoms_gap]
  constructor
  · rintro ⟨x1, r1, h1, u1, x2, r2, h2, u2, x3, r3, h3, u3, x4, r4, h4, u4, x5, r5, h5, u5,
      x6, r6, h6, u6, gap, hR, rest⟩
    subst h6 h5 h4 h3 h2
    refine ⟨[x1, x2, x3, x4, x5, x6], gap, ?_, ?_, rest⟩
    · rw [h1, hR]; simp
    · simp only [List.map_cons, List.map_nil, u1, u2, u3, u4, u5, u6]
      decide
  · rintro ⟨scheme, gap, hv, hs, rest⟩
    have hl := congrArg List.length hs
    simp only [List.length_map, List.length_cons, List.length_nil] at hl
    rcases scheme with _ | ⟨x1, _ | ⟨x2, _ | ⟨x3, _ | ⟨x4, _ | ⟨x5, _ | ⟨x6, _ | ⟨x7, tl⟩⟩⟩⟩⟩⟩⟩ <;>
      simp only [List.length_cons, List.length_nil] at hl <;> try omega
    · simp only [List.map_cons, List.map_nil, List.cons.injEq, and_true] at hs
      obtain ⟨u1, u2, u3, u4, u5, u6⟩ := hs
      refine ⟨x1, _, by rw [hv]; rfl, by rw [u1]; decide, x2, _, rfl, by rw [u2]; decide,
        x3, _, rfl, by rw [u3]; decide, x4, _, rfl, by rw [u4]; decide,
        x5, _, rfl, by rw [u5]; decide, x6, _, rfl, by rw [u6]; decide, gap, rfl, rest⟩

theorem headerCapture_eq_some_iff (h : HttpHeader) (t : String) :
    headerCapture h = some t ↔
      ∃ n v, h.name = some n ∧ h.value = some v ∧ toLowerCase n = "authorization" ∧
        BearerSplit v.data t.data := by
  obtain ⟨name, value⟩ := h
  cases name with
  | none => simp [headerCapture]
  | some n =>
    cases value with
    | none => simp [headerCapture]
    | some v =>
      simp only [headerCapture, Option.some.injEq, exists_and_left, exists_eq_left']
      rw [← bearerMatch_eq_some_iff]
      by_cases hn : toLowerCase n = "authorization"
      · by_cases hm : bearerMatch v = some t
        · have hn0 : n ≠ "" := by
            intro h0; subst h0; revert hn; decide
          have hv0 : v ≠ "" := by
            intro h0; subst h0
            have hnone : bearerMatch "" = none := by decide
            rw [hnone] at hm; cases hm
          simp [strTruthy, hn, hm, hn0, hv0]
        · simp only [hn, hm, and_false, iff_false]
          intro hc
          split at hc
          · exact hm hc
          · cases hc
      · simp only [hn, false_and, iff_false]
        intro hc
        split at hc
        · rename_i hcond
          simp [hn] at hcond
        · cases hc

theorem foldl_observeHeader (hs : List HttpHeader) (prev : Option String) :
    hs.foldl observeHeader prev =
      (match (hs.filter (fun h => (headerCapture h).isSome)).getLast? with
       | some h => headerCapture h
       | none => prev) := by
  induction hs using List.reverseRecOn with
  | nil => rfl
  | append_singleton hs h ih =>
    rw [List.foldl_append, List.filter_append]
    simp only [List.foldl_cons, List.foldl_nil]
    cases hc : headerCapture h with
    | none =>
      have hf : List.filter (fun h => (headerCapture h).isSome) [h] = [] := by
        simp [List.filter, hc]
      rw [hf, List.append_nil, ← ih]
      simp [observeHeader, hc]
    | some t =>
      have hf : List.filter (fun h => (headerCapture h).isSome) [h] = [h] := by
        simp [List.filter, hc]
      rw [hf, List.getLast?_append]
      simp [observeHeader, hc]

/-- C1 (as amended). For every header list and previous token, the token after
the listener has run is the capture of the last header that captures one, and
the previous token when no header does; a header captures `t` exactly when
its name lower-cases to `authorization` and its value splits into `Bearer` (any
letter case), a non-empty white-space gap, and a non-empty token `t` that
holds no line terminator, the gap being as long as possible. A request without
a header list leaves the token unchanged. -/
theorem tokenObserver_captures_last_match (hs : List HttpHeader) (prev : Option String) :
    onBeforeSendHeaders (some hs) prev =
        (match (hs.filter (fun h => (headerCapture h).isSome)).getLast? with
         | some h => headerCapture h
         | none => prev) ∧
      (∀ (h : HttpHeader) (t : String), headerCapture h = some t ↔
        ∃ n v, h.name = some n ∧ h.value = some v ∧ toLowerCase n = "authorization" ∧
          BearerSplit v.data t.data) ∧
      onBeforeSendHeaders none prev = prev :=
  ⟨foldl_observeHeader hs prev, headerCapture_eq_some_iff, rfl⟩

/-- C1 is false as stated: the value `Bearer a\nb` is `Bearer`, a white-space
character and a non-empty remainder, yet the listener captures nothing from
it, because the remainder holds a line terminator. -/
theorem tokenObserver_line_terminator_not_captured :
    specBearerMatches "Bearer a\nb" = true ∧
      toLowerCase "authorization" = "authorization" ∧
      onBeforeSendHeaders (some [⟨some "authorization", some "Bearer a\nb"⟩]) none = none ∧
      specBearerMatches "Bearer a\u2028b" = true ∧
      onBeforeSendHeaders (some [⟨some "Authorization", some "Bearer a\u2028b"⟩]) (some "old") =
        some "old" := by
  decide

/-! ## Background message handlers -/

theorem truthy_of_get {m : Json} {key : String} {v : Json} (h : m.get key = some v) :
    m.truthy = true := by
  cases m <;> simp [Json.get] at h ⊢
  rfl

theorem onMessage_fetch (net : FetchRequest → FetchResult) (now : Int) (st : BgState) (m : Json)
    (htype : m.get "type" = some (Json.str "FETCH_SHIPMENT")) :
    onMessage net now st (some m) = handleFetchShipment net now st m := by
  have ht := truthy_of_get htype
  simp [onMessage, ht, htype]

theorem onMessage_getLast (net : FetchRequest → FetchResult) (now : Int) (st : BgState) (m : Json)
    (htype : m.get "type" = some (Json.str "GET_LAST_SHIPMENT")) :
    onMessage net now st (some m) = handleGetLastShipment st m := by
  have ht := truthy_of_get htype
  simp [onMessage, ht, htype]

/-- C2. A FETCH_SHIPMENT message that arrives when no token has been captured,
or whose shipmentId is missing or empty (falsy), is answered with exactly
`{ ok: false, error: 'Missing token or shipmentId' }`; no network call is
issued, nothing is written to the cache and the state is unchanged. -/
theorem fetchShipment_precondition (net : FetchRequest → FetchResult) (now : Int)
    (st : BgState) (m : Json)
    (htype : m.get "type" = some (Json.str "FETCH_SHIPMENT"))
    (hpre : strTruthy st.lastBearerToken = false ∨ truthy (m.get "shipmentId") = false) :
    (onMessage net now st (some m)).reply =
        some (Json.obj [("ok", Json.bool false),
          ("error", Json.str "Missing token or shipmentId")]) ∧
      (onMessage net now st (some m)).requests = [] ∧
      (onMessage net now st (some m)).writes = [] ∧
      (onMessage net now st (some m)).state = st := by
  rw [onMessage_fetch net now st m htype]
  have hc : (!strTruthy st.lastBearerToken || !truthy (m.get "shipmentId")) = true := by
    rcases hpre with h | h <;> simp [h]
  simp only [handleFetchShipment, hc, if_true, errorReply, and_self]

/-- C2 at a concrete input: no token, shipment id `12345`. -/
theorem fetchShipment_precondition_witness :
    (onMessage (fun _ => FetchResult.rejected "offline") 0 ⟨none, []⟩
        (some (Json.obj [("type", Json.str "FETCH_SHIPMENT"), ("shipmentId", Json.str "12345"),
          ("tabId", Json.num 5)]))).reply =
        some (Json.obj [("ok", Json.bool false),
          ("error", Json.str "Missing token or shipmentId")]) ∧
      (onMessage (fun _ => FetchResult.rejected "offline") 0 ⟨none, []⟩
        (some (Json.obj [("type", Json.str "FETCH_SHIPMENT"), ("shipmentId", Json.str "12345"),
          ("tabId", Json.num 5)]))).requests = [] ∧
      (onMessage (fun _ => FetchResult.rejected "offline") 0 ⟨none, []⟩
        (some (Json.obj [("type", Json.str "FETCH_SHIPMENT"), ("shipmentId", Json.str "12345"),
          ("tabId", Json.num 5)]))).writes = [] ∧
      (onMessage (fun _ => FetchResult.rejected "offline") 0 ⟨none, []⟩
        (some (Json.obj [("type", Json.str "FETCH_SHIPMENT"), ("shipmentId", Json.str "12345"),
          ("tabId", Json.num 5)]))).state = ⟨none, []⟩ :=
  fetchShipment_precondition (fun _ => FetchResult.rejected "offline") 0 ⟨none, []⟩
    (Json.obj [("type", Json.str "FETCH_SHIPMENT"), ("shipmentId", Json.str "12345"),
      ("tabId", Json.num 5)]) rfl (Or.inl rfl)

theorem storageGet_storageSet (key : String) (v : Json) (s : Storage) :
    storageGet key (storageSet key v s) = some v := by
  simp [storageGet, storageSet, lookupField]

theorem storageGet_storageRemove (key : String) (s : Storage) :
    storageGet key (storageRemove key s) = none := by
  unfold storageGet storageRemove
  induction s with
  | nil => rfl
  | cons kv rest ih =>
    obtain ⟨k, v⟩ := kv
    by_cases hk : k = key
    · have hb : (k != key) = false := by simp [hk]
      rw [List.filter_cons]
      simp only [hb]
      exact ih
    · have hb : (k != key) = true := by simp [hk]
      rw [List.filter_cons]
      simp only [hb, if_true, lookupField, hk, if_false]
      exact ih

theorem hasTabId_num (t : Int) : hasTabId (some (Json.num t)) = true := by
  by_cases h : t = 0
  · subst h; rfl
  · simp [hasTabId, truthy, Json.truthy, h]

theorem handleFetchShipment_success (net : FetchRequest → FetchResult) (now : Int)
    (st : BgState) (m : Json) (t : Int) (resp : HttpResponse) (data : Json)
    (htok : strTruthy st.lastBearerToken = true)
    (hid : truthy (m.get "shipmentId") = true)
    (htab : m.get "tabId" = some (Json.num t))
    (hnet : net (buildRequest (st.lastBearerToken.getD "") m) = FetchResult.resolved resp)
    (hdata : responseData resp = Except.ok data) :
    (handleFetchShipment net now st m).state =
      BgState.mk st.lastBearerToken (storageSet (shipmentKey (some (Json.num t)))
        (cacheRecord (m.get "shipmentId") data now) st.session) := by
  simp [handleFetchShipment, htok, hid, htab, hnet, hdata, hasTabId_num]

theorem handleGetLastShipment_reply (st : BgState) (g : Json) (t : Int)
    (htab : g.get "tabId" = some (Json.num t)) :
    (handleGetLastShipment st g).reply =
      some (Json.obj [("ok", Json.bool true),
        ("data", orFalsy (storageGet (shipmentKey (some (Json.num t))) st.session) Json.null)]) := by
  simp [handleGetLastShipment, htab, hasTabId_num]

/-- C3. For every tab id `t` (zero included): after two FETCH_SHIPMENT runs for
tab `t` that each wrote their record, GET_LAST_SHIPMENT for `t` answers
`{ ok: true, data: R2 }` with the record of the second run; after a
`tabs.onUpdated` event with status `loading` for `t` it answers
`{ ok: true, data: null }`. -/
theorem perTabCache_last_write_then_evict
    (net1 net2 net3 : FetchRequest → FetchResult) (now1 now2 now3 : Int) (st : BgState)
    (t : Int) (m1 m2 g : Json) (resp1 resp2 : HttpResponse) (data1 data2 : Json)
    (htok : strTruthy st.lastBearerToken = true)
    (hty1 : m1.get "type" = some (Json.str "FETCH_SHIPMENT"))
    (hid1 : truthy (m1.get "shipmentId") = true)
    (htab1 : m1.get "tabId" = some (Json.num t))
    (hnet1 : net1 (buildRequest (st.lastBearerToken.getD "") m1) = FetchResult.resolved resp1)
    (hdata1 : responseData resp1 = Except.ok data1)
    (hty2 : m2.get "type" = some (Json.str "FETCH_SHIPMENT"))
    (hid2 : truthy (m2.get "shipmentId") = true)
    (htab2 : m2.get "tabId" = some (Json.num t))
    (hnet2 : net2 (buildRequest (st.lastBearerToken.getD "") m2) = FetchResult.resolved resp2)
    (hdata2 : responseData resp2 = Except.ok data2)
    (htyg : g.get "type" = some (Json.str "GET_LAST_SHIPMENT"))
    (htabg : g.get "tabId" = some (Json.num t)) :
    (onMessage net3 now3
        (onMessage net2 now2 (onMessage net1 now1 st (some m1)).state (some m2)).state
        (some g)).reply =
      some (Json.obj [("ok", Json.bool true),
        ("data", cacheRecord (m2.get "shipmentId") data2 now2)]) ∧
    (onMessage net3 now3
        (onTabUpdated
          (onMessage net2 now2 (onMessage net1 now1 st (some m1)).state (some m2)).state
          t (Json.obj [("status", Json.str "loading")]))
        (some g)).reply =
      some (Json.obj [("ok", Json.bool true), ("data", Json.null)]) := by
  have h1 : (onMessage net1 now1 st (some m1)).state =
      BgState.mk st.lastBearerToken (storageSet (shipmentKey (some (Json.num t)))
        (cacheRecord (m1.get "shipmentId") data1 now1) st.session) := by
    rw [onMessage_fetch net1 now1 st m1 hty1]
    exact handleFetchShipment_success net1 now1 st m1 t resp1 data1 htok hid1 htab1 hnet1 hdata1
  rw [h1]
  have h2 := handleFetchShipment_success net2 now2 (BgState.mk st.lastBearerToken
      (storageSet (shipmentKey (some (Json.num t)))
        (cacheRecord (m1.get "shipmentId") data1 now1) st.session)) m2 t resp2 data2
      htok hid2 htab2 hnet2 hdata2
  rw [onMessage_fetch net2 now2 _ m2 hty2, h2]
  constructor
  · rw [onMessage_getLast _ _ _ g htyg, handleGetLastShipment_reply _ g t htabg]
    simp only [storageGet_storageSet]
    rfl
  · rw [onMessage_getLast _ _ _ g htyg, handleGetLastShipment_reply _ g t htabg]
    simp only [onTabUpdated, Json.get, lookupField, if_true, storageGet_storageRemove]
    rfl

/-- C3 at a concrete input: tab `0`, two fetches, then a read and an eviction. -/
theorem perTabCache_last_write_then_evict_witness :
    (onMessage (fun _ => FetchResult.rejected "unused") 3
        (onMessage (fun _ => FetchResult.resolved (sampleResponse (Json.str "second"))) 2
          (onMessage (fun _ => FetchResult.resolved (sampleResponse (Json.str "first"))) 1
            ⟨some "tok", []⟩ (some (sampleFetchMessage "11" 0))).state
          (some (sampleFetchMessage "22" 0))).state
        (some (sampleGetMessage 0))).reply =
      some (Json.obj [("ok", Json.bool true),
        ("data", cacheRecord ((sampleFetchMessage "22" 0).get "shipmentId") (Json.str "second") 2)]) ∧
    (onMessage (fun _ => FetchResult.rejected "unused") 3
        (onTabUpdated
          (onMessage (fun _ => FetchResult.resolved (sampleResponse (Json.str "second"))) 2
            (onMessage (fun _ => FetchResult.resolved (sampleResponse (Json.str "first"))) 1
              ⟨some "tok", []⟩ (some (sampleFetchMessage "11" 0))).state
            (some (sampleFetchMessage "22" 0))).state
          0 (Json.obj [("status", Json.str "loading")]))
        (some (sampleGetMessage 0))).reply =
      some (Json.obj [("ok", Json.bool true), ("data", Json.null)]) :=
  perTabCache_last_write_then_evict
    (fun _ => FetchResult.resolved (sampleResponse (Json.str "first")))
    (fun _ => FetchResult.resolved (sampleResponse (Json.str "second")))
    (fun _ => FetchResult.rejected "unused") 1 2 3 ⟨some "tok", []⟩ 0
    (sampleFetchMessage "11" 0) (sampleFetchMessage "22" 0) (sampleGetMessage 0)
    (sampleResponse (Json.str "first")) (sampleResponse (Json.str "second"))
    (Json.str "first") (Json.str "second")
    rfl rfl rfl rfl rfl rfl rfl rfl rfl rfl rfl rfl rfl

/-! ## Waypoint sort -/

theorem jsSort_eq_insertionSort {α : Type} (cmp : α → α → Int) (l : List α) :
    jsSort cmp l = List.insertionSort (fun a b => cmp a b ≤ 0) l := by
  induction l with
  | nil => rfl
  | cons x xs ih =>
    simp only [jsSort, List.insertionSort, ih]
    generalize List.insertionSort (fun a b => cmp a b ≤ 0) xs = ys
    induction ys with
    | nil => rfl
    | cons y ys ih2 =>
      simp only [insertSorted, List.orderedInsert, ih2]

theorem filter_insertSorted {α : Type} (cmp : α → α → Int) (p : α → Bool) (x : α)
    (hp : ∀ y, p x = true → p y = true → cmp x y ≤ 0) (l : List α) :
    (insertSorted cmp x l).filter p = (x :: l).filter p := by
  induction l with
  | nil => rfl
  | cons y ys ih =>
    simp only [insertSorted]
    by_cases hxy : cmp x y ≤ 0
    · rw [if_pos hxy]
    · rw [if_neg hxy, List.filter_cons, ih]
      cases hpx : p x
      · simp [List.filter_cons, hpx]
      · cases hpy : p y
        · simp [List.filter_cons, hpx, hpy]
        · exact absurd (hp y hpx hpy) hxy

theorem filter_jsSort {α : Type} (cmp : α → α → Int) (p : α → Bool)
    (hp : ∀ x y, p x = true → p y = true → cmp x y ≤ 0) (l : List α) :
    (jsSort cmp l).filter p = l.filter p := by
  induction l with
  | nil => rfl
  | cons x xs ih =>
    simp only [jsSort]
    rw [filter_insertSorted cmp p x (hp x), List.filter_cons, List.filter_cons, ih]

theorem compareLocations_le_iff (h : Host) (a b : Json) :
    compareLocations h a b ≤ 0 ↔ keyLe (sortKey h a) (sortKey h b) := by
  unfold compareLocations sortKey keyLe
  cases ha : (getLocationDate a).truthy <;> cases hb : (getLocationDate b).truthy
  · simp [ha, hb]
  · cases hnb : newDate h (some (getLocationDate b)) <;> simp [ha, hb, hnb]
  · cases hna : newDate h (some (getLocationDate a)) <;> simp [ha, hb, hna]
  · cases hna : newDate h (some (getLocationDate a)) <;>
      cases hnb : newDate h (some (getLocationDate b)) <;> simp [ha, hb, hna, hnb]

theorem compareLocations_eq_zero_iff (h : Host) (a b : Json) :
    compareLocations h a b = 0 ↔ sortKey h a = sortKey h b := by
  unfold compareLocations sortKey
  cases ha : (getLocationDate a).truthy <;> cases hb : (getLocationDate b).truthy
  · simp [ha, hb]
  · cases hnb : newDate h (some (getLocationDate b)) <;> simp [ha, hb, hnb]
  · cases hna : newDate h (some (getLocationDate a)) <;> simp [ha, hb, hna]
  · cases hna : newDate h (some (getLocationDate a)) <;>
      cases hnb : newDate h (some (getLocationDate b)) <;>
      simp [ha, hb, hna, hnb, sub_eq_zero]

theorem keyLe_total (a b : Nat × Int) : keyLe a b ∨ keyLe b a := by
  unfold keyLe; omega

theorem keyLe_trans {a b c : Nat × Int} (hab : keyLe a b) (hbc : keyLe b c) : keyLe a c := by
  unfold keyLe at *; omega

theorem sortKey_of_locTime_some {h : Host} {loc : Json} {t : Int}
    (ht : locTime h loc = some t) : sortKey h loc = (0, t) := by
  unfold locTime at ht
  unfold sortKey
  cases hd : (getLocationDate loc).truthy
  · simp [hd] at ht
  · simp only [hd, if_true] at ht ⊢
    rw [ht]

theorem sortKey_of_locTime_none {h : Host} {loc : Json}
    (ht : locTime h loc = none) : 1 ≤ (sortKey h loc).1 := by
  unfold locTime at ht
  unfold sortKey
  cases hd : (getLocationDate loc).truthy
  · simp
  · simp only [hd, if_true] at ht ⊢
    rw [ht]

theorem locTime_none_of_sortKey {h : Host} {loc : Json}
    (hk : 1 ≤ (sortKey h loc).1) : locTime h loc = none := by
  cases ht : locTime h loc with
  | none => rfl
  | some t =>
    rw [sortKey_of_locTime_some ht] at hk
    simp at hk

theorem sortedLocations_pairwise (h : Host) (ws : List Json) :
    (sortedLocations h ws).Pairwise (fun a b => keyLe (sortKey h a) (sortKey h b)) := by
  haveI : IsTotal Json (fun a b => compareLocations h a b ≤ 0) :=
    ⟨fun a b => by
      simp only [compareLocations_le_iff]
      exact keyLe_total _ _⟩
  haveI : IsTrans Json (fun a b => compareLocations h a b ≤ 0) :=
    ⟨fun a b c hab hbc => by
      simp only [compareLocations_le_iff] at *
      exact keyLe_trans hab hbc⟩
  have hs := List.sorted_insertionSort (fun a b => compareLocations h a b ≤ 0) ws
  unfold sortedLocations
  rw [jsSort_eq_insertionSort]
  exact List.Pairwise.imp (fun hab => (compareLocations_le_iff h _ _).1 hab) hs

/-- C4. For every waypoint list the sorted list is a permutation of the input;
waypoints whose date parses are in non-decreasing time order; no waypoint
without a resolvable date (no date, or a date that does not parse) stands
before a waypoint whose date parses; the waypoints that compare equal to any
given waypoint appear in their input order; and a list `[b, a, c]` in which
`a` is dated before `b` and `c` has no resolvable date is sorted to
`[a, b, c]`. -/
theorem waypointSort_stable_chronological (h : Host) (ws : List Json) :
    (sortedLocations h ws).Perm ws ∧
      (sortedLocations h ws).Pairwise
        (fun a b => ∀ ta tb, locTime h a = some ta → locTime h b = some tb → ta ≤ tb) ∧
      (sortedLocations h ws).Pairwise (fun a b => locTime h a = none → locTime h b = none) ∧
      (∀ x, (sortedLocations h ws).filter (fun y => compareLocations h x y == 0) =
        ws.filter (fun y => compareLocations h x y == 0)) ∧
      (∀ (a b c : Json) (tA tB : Int), locTime h a = some tA → locTime h b = some tB →
        tA < tB → locTime h c = none → sortedLocations h [b, a, c] = [a, b, c]) := by
  refine ⟨?_, ?_, ?_, ?_, ?_⟩
  · unfold sortedLocations
    rw [jsSort_eq_insertionSort]
    exact List.perm_insertionSort _ ws
  · refine List.Pairwise.imp ?_ (sortedLocations_pairwise h ws)
    intro a b hab ta tb hta htb
    rw [sortKey_of_locTime_some hta, sortKey_of_locTime_some htb] at hab
    unfold keyLe at hab
    simp at hab
    exact hab
  · refine List.Pairwise.imp ?_ (sortedLocations_pairwise h ws)
    intro a b hab hna
    have h1 := sortKey_of_locTime_none hna
    apply locTime_none_of_sortKey
    unfold keyLe at hab
    omega
  · intro x
    unfold sortedLocations
    apply filter_jsSort
    intro y z hy hz
    have hy2 : compareLocations h x y = 0 := by simpa using hy
    have hz2 : compareLocations h x z = 0 := by simpa using hz
    rw [compareLocations_eq_zero_iff] at hy2 hz2
    have hyz : compareLocations h y z = 0 := by
      rw [compareLocations_eq_zero_iff, ← hy2, ← hz2]
    omega
  · intro a b c tA tB ha hb hlt hc
    have hac : compareLocations h a c ≤ 0 := by
      rw [compareLocations_le_iff, sortKey_of_locTime_some ha]
      have := sortKey_of_locTime_none hc
      unfold keyLe; simp; omega
    have hbc : compareLocations h b c ≤ 0 := by
      rw [compareLocations_le_iff, sortKey_of_locTime_some hb]
      have := sortKey_of_locTime_none hc
      unfold keyLe; simp; omega
    have hba : ¬ compareLocations h b a ≤ 0 := by
      rw [compareLocations_le_iff, sortKey_of_locTime_some ha, sortKey_of_locTime_some hb]
      unfold keyLe; simp; omega
    simp [sortedLocations, jsSort, insertSorted, hac, hbc, hba]

/-- C4 at the example of the specification: dates
`[B@2024-02-01, A@2024-01-01, C@none]` give the order `A, B, C`. -/
theorem waypointSort_example_witness :
    locTime sampleHost (sampleWaypoint "A" (some "2024-01-01")) = some 1704067200000 ∧
      locTime sampleHost (sampleWaypoint "B" (some "2024-02-01")) = some 1706745600000 ∧
      locTime sampleHost (sampleWaypoint "C" none) = none ∧
      sortedLocations sampleHost [sampleWaypoint "B" (some "2024-02-01"),
          sampleWaypoint "A" (some "2024-01-01"), sampleWaypoint "C" none] =
        [sampleWaypoint "A" (some "2024-01-01"), sampleWaypoint "B" (some "2024-02-01"),
          sampleWaypoint "C" none] :=
  ⟨rfl, rfl, rfl,
    (waypointSort_stable_chronological sampleHost []).2.2.2.2
      (sampleWaypoint "A" (some "2024-01-01")) (sampleWaypoint "B" (some "2024-02-01"))
      (sampleWaypoint "C" none) 1704067200000 1706745600000 rfl rfl (by decide) rfl⟩

/-! ## Summary Extractor on a document without the optional fields -/

theorem setText_empty : setText (Json.str "") = placeholder := rfl

theorem hasText_empty : hasText (Json.str "") = false := by decide

/-- C5. For every document that is an object whose `details` is missing, or
lacks `global_route`, `gloabl_route`, `equipment`, `customer_orders`,
`services` and `margin`, `renderSummary` does not raise, every summary field
shows the placeholder dash and every include flag is off. -/
theorem renderSummary_empty_document (h : Host) (data : Json) (dom : Dom)
    (hobj : data.truthy = true ∧ data.isObjectType = true)
    (hmiss : ∀ k ∈ ["global_route", "gloabl_route", "equipment", "customer_orders",
      "services", "margin"], (orFalsy (data.get "details") emptyObj).get k = none) :
    (renderSummary h (some data) dom).raised = none ∧
      (renderSummary h (some data) dom).dom.shipLocations = [placeholder] ∧
      (renderSummary h (some data) dom).dom.weight = placeholder ∧
      (renderSummary h (some data) dom).dom.weightUnit = placeholder ∧
      (renderSummary h (some data) dom).dom.commodity = placeholder ∧
      (renderSummary h (some data) dom).dom.temperature = placeholder ∧
      (renderSummary h (some data) dom).dom.temperatureUnit = placeholder ∧
      (renderSummary h (some data) dom).dom.services = placeholder ∧
      (renderSummary h (some data) dom).dom.rate = placeholder ∧
      (renderSummary h (some data) dom).dom.chkShipLocations = false ∧
      (renderSummary h (some data) dom).dom.chkWeight = false ∧
      (renderSummary h (some data) dom).dom.chkWeightUnit = false ∧
      (renderSummary h (some data) dom).dom.chkCommodity = false ∧
      (renderSummary h (some data) dom).dom.chkTemperature = false ∧
      (renderSummary h (some data) dom).dom.chkTemperatureUnit = false ∧
      (renderSummary h (some data) dom).dom.chkServices = false ∧
      (renderSummary h (some data) dom).dom.chkRate = false := by
  have hgr := hmiss "global_route" (by simp)
  have hgl := hmiss "gloabl_route" (by simp)
  have heq := hmiss "equipment" (by simp)
  have hco := hmiss "customer_orders" (by simp)
  have hsv := hmiss "services" (by simp)
  have hmg := hmiss "margin" (by simp)
  have hdoc : renderSummary h (some data) dom = renderDocument h data dom := by
    cases data <;> simp [renderSummary, Json.truthy, Json.isObjectType] at hobj ⊢
  rw [hdoc]
  unfold renderDocument
  generalize orFalsy (data.get "details") emptyObj = details at *
  have hloc : shipLocationsOf details = [] := by
    unfold shipLocationsOf
    simp only [hgr, hgl]
    rfl
  have hattrs : eqAttrsOf details = emptyObj := by
    unfold eqAttrsOf
    simp only [heq]
    rfl
  simp only [hloc, hattrs, hco, hsv, hmg, sortedLocations, jsSort, locLines,
    asArray, itemNames]
  refine ⟨trivial, ?_, ?_, ?_, ?_, ?_, ?_, ?_, ?_, ?_, ?_, ?_, ?_, ?_, ?_, ?_, ?_⟩ <;> rfl

/-- C5 at concrete inputs: the empty object, and an object whose `details`
carries only an identifier. -/
theorem renderSummary_empty_document_witness :
    ((renderSummary sampleHost (some (Json.obj [])) sampleDom).raised = none ∧
      (renderSummary sampleHost (some (Json.obj [])) sampleDom).dom.weight = "—" ∧
      (renderSummary sampleHost (some (Json.obj [])) sampleDom).dom.chkWeight = false) ∧
    ((renderSummary sampleHost
        (some (Json.obj [("details", Json.obj [("id", Json.num 7)])])) sampleDom).raised = none ∧
      (renderSummary sampleHost
        (some (Json.obj [("details", Json.obj [("id", Json.num 7)])])) sampleDom).dom.rate = "—" ∧
      (renderSummary sampleHost
        (some (Json.obj [("details", Json.obj [("id", Json.num 7)])])) sampleDom).dom.chkRate =
          false) := by
  have r1 := renderSummary_empty_document sampleHost (Json.obj []) sampleDom ⟨rfl, rfl⟩
    (by intro k _; rfl)
  have r2 := renderSummary_empty_document sampleHost
    (Json.obj [("details", Json.obj [("id", Json.num 7)])]) sampleDom ⟨rfl, rfl⟩
    (by
      intro k hk
      simp only [List.mem_cons, List.mem_singleton, List.not_mem_nil, or_false] at hk
      rcases hk with rfl | rfl | rfl | rfl | rfl | rfl <;> rfl)
  exact ⟨⟨r1.1, r1.2.2.1, r1.2.2.2.2.2.2.2.2.2.2.1⟩,
    ⟨r2.1, r2.2.2.2.2.2.2.2.2.1, r2.2.2.2.2.2.2.2.2.2.2.2.2.2.2.2.2⟩⟩

/-! ## Location line composition -/

theorem str_ne_empty_iff (x : String) : x ≠ "" ↔ x.data ≠ [] := by
  constructor
  · intro hx hd
    apply hx
    cases x
    simp only at hd
    subst hd
    rfl
  · intro hd hx
    subst hx
    exact hd rfl

theorem append_ne_empty_left (x y : String) (hx : x ≠ "") : x ++ y ≠ "" := by
  rw [str_ne_empty_iff] at hx ⊢
  rw [String.data_append]
  intro hc
  exact hx (List.append_eq_nil.1 hc).1

theorem append_ne_empty_right (x y : String) (hy : y ≠ "") : x ++ y ≠ "" := by
  rw [str_ne_empty_iff] at hy ⊢
  rw [String.data_append]
  intro hc
  exact hy (List.append_eq_nil.1 hc).2

theorem bne_empty_true {x : String} (hx : x ≠ "") : (x != "") = true := by
  simp [hx]

theorem locationParts_eq_specSegments (t c s a dt : String) :
    locationParts ⟨Json.str t, Json.str c, Json.str s, Json.str a⟩ dt =
      specSegments t c s dt a := by
  unfold locationParts specSegments specPlace cityState
  have key : ∀ x : String, x = "" ∨ ((x != "") = true ∧ x ≠ "") := fun x => by
    by_cases hx : x = ""
    · exact Or.inl hx
    · exact Or.inr ⟨bne_empty_true hx, hx⟩
  rcases key t with rfl | ⟨ht, ht'⟩ <;> rcases key c with rfl | ⟨hc, hc'⟩ <;>
    rcases key s with rfl | ⟨hs, hs'⟩ <;> rcases key dt with rfl | ⟨hd, hd'⟩ <;>
    rcases key a with rfl | ⟨ha, ha'⟩ <;>
    simp [Json.truthy, Json.toJsString, jsJoin, List.filter_cons, *,
      append_ne_empty_left, append_ne_empty_right]

theorem specSegments_ne_empty (t c s d a : String) :
    ∀ seg ∈ specSegments t c s d a, seg ≠ "" := by
  intro seg hseg
  unfold specSegments at hseg
  rw [List.mem_append] at hseg
  rcases hseg with hseg | hseg
  · have := (List.mem_filter.1 hseg).2
    simpa using this
  · by_cases ha : a = ""
    · simp [ha] at hseg
    · simp only [bne_empty_true ha, if_true, List.mem_singleton] at hseg
      rw [hseg]
      apply append_ne_empty_left
      apply append_ne_empty_left
      decide

theorem not_prefix_sep (p more : List Char) (hp : p ≠ []) (hbar : '|' ∉ p)
    (hmore : more = [] ∨ ∃ m, more = ' ' :: '|' :: ' ' :: m) :
    isPrefixChars [' ', '|', ' '] (p ++ more) = false := by
  cases p with
  | nil => exact absurd rfl hp
  | cons c p' =>
    cases p' with
    | nil =>
      rcases hmore with rfl | ⟨m, rfl⟩
      · simp [isPrefixChars]
      · simp [isPrefixChars]
    | cons c' p'' =>
      have hc' : '|' ≠ c' := by
        intro hcc
        apply hbar
        rw [hcc]
        simp
      simp [isPrefixChars, hc']

theorem jsJoin_cons_cons_data (sep p q : String) (rest : List String) :
    (jsJoin sep (p :: q :: rest)).data = p.data ++ (sep.data ++ (jsJoin sep (q :: rest)).data) := by
  simp [jsJoin, String.data_append]

theorem jsJoin_not_startsWith (parts : List String)
    (hgood : ∀ x ∈ parts, x ≠ "" ∧ '|' ∉ x.data) :
    jsStartsWith (jsJoin " | " parts) " | " = false := by
  unfold jsStartsWith
  cases parts with
  | nil => rfl
  | cons x rest =>
    have hx := hgood x (List.mem_cons_self _ _)
    cases rest with
    | nil =>
      have := not_prefix_sep x.data [] ((str_ne_empty_iff x).1 hx.1) hx.2 (Or.inl rfl)
      simpa [jsJoin] using this
    | cons q rest =>
      rw [jsJoin_cons_cons_data]
      exact not_prefix_sep x.data _ ((str_ne_empty_iff x).1 hx.1) hx.2 (Or.inr ⟨_, rfl⟩)

theorem jsJoin_reverse_data (parts : List String) (hne : parts ≠ []) :
    ∃ last more, last ∈ parts ∧
      (jsJoin " | " parts).data.reverse = last.data.reverse ++ more ∧
      (more = [] ∨ ∃ m, more = ' ' :: '|' :: ' ' :: m) := by
  induction parts with
  | nil => exact absurd rfl hne
  | cons x rest ih =>
    cases rest with
    | nil => exact ⟨x, [], List.mem_cons_self _ _, by simp [jsJoin], Or.inl rfl⟩
    | cons q rest =>
      obtain ⟨last, more, hmem, hrev, hmore⟩ := ih (by simp)
      refine ⟨last, more ++ (' ' :: '|' :: ' ' :: x.data.reverse),
        List.mem_cons_of_mem _ hmem, ?_, ?_⟩
      · rw [jsJoin_cons_cons_data, List.reverse_append, List.reverse_append, hrev]
        simp
      · rcases hmore with rfl | ⟨m, rfl⟩
        · exact Or.inr ⟨_, rfl⟩
        · exact Or.inr ⟨m ++ (' ' :: '|' :: ' ' :: x.data.reverse), rfl⟩

theorem jsJoin_not_endsWith (parts : List String)
    (hgood : ∀ x ∈ parts, x ≠ "" ∧ '|' ∉ x.data) :
    jsEndsWith (jsJoin " | " parts) " | " = false := by
  unfold jsEndsWith
  by_cases hne : parts = []
  · subst hne; rfl
  · obtain ⟨last, more, hmem, hrev, hmore⟩ := jsJoin_reverse_data parts hne
    have hl := hgood last hmem
    rw [hrev]
    apply not_prefix_sep _ _ _ _ hmore
    · intro hc
      exact (str_ne_empty_iff last).1 hl.1 (List.reverse_eq_nil_iff.1 hc)
    · intro hc
      exact hl.2 (List.mem_reverse.1 hc)

theorem specPlace_barFree (t c s : String) (ht : '|' ∉ t.data) (hc : '|' ∉ c.data)
    (hs : '|' ∉ s.data) : '|' ∉ (specPlace t c s).data := by
  unfold specPlace
  have hpair : '|' ∉ (jsJoin ", " ([c, s].filter (fun x => x != ""))).data := by
    by_cases hce : c = "" <;> by_cases hse : s = "" <;>
      simp [List.filter_cons, jsJoin, hce, hse, String.data_append, hc, hs]
  by_cases hte : t = ""
  · simp only [hte]
    exact hpair
  · simp only [bne_empty_true hte, if_true]
    split
    · exact ht
    · simp only [String.data_append, List.mem_append, not_or]
      exact ⟨⟨ht, by decide⟩, hpair⟩

theorem specSegments_barFree (t c s d a : String) (ht : '|' ∉ t.data) (hc : '|' ∉ c.data)
    (hs : '|' ∉ s.data) (hd : '|' ∉ d.data) (ha : '|' ∉ a.data) :
    ∀ seg ∈ specSegments t c s d a, '|' ∉ seg.data := by
  intro seg hseg
  unfold specSegments at hseg
  rw [List.mem_append] at hseg
  rcases hseg with hseg | hseg
  · have hmem := (List.mem_filter.1 hseg).1
    simp only [List.mem_cons, List.mem_singleton, List.not_mem_nil, or_false] at hmem
    rcases hmem with rfl | rfl
    · exact specPlace_barFree t c s ht hc hs
    · exact hd
  · by_cases hae : a = ""
    · simp [hae] at hseg
    · simp only [bne_empty_true hae, if_true, List.mem_singleton] at hseg
      rw [hseg]
      simp only [String.data_append, List.mem_append, not_or]
      exact ⟨⟨by decide, ha⟩, by decide⟩

/-- C6 (as amended). For every waypoint whose resolved type `t`, city `c`,
state `s` and scheduling label `a` are strings, with formatted date/time `d`:
the line is the `' | '`-join of the non-empty segments among the place segment,
`d` and `(a)`; no joined segment is empty; and when none of `t`, `c`, `s`,
`d`, `a` contains the character `|`, the line neither starts nor ends with
`' | '`. -/
theorem locationLine_composition (h : Host) (loc : Json) (t c s a d : String)
    (hf : locFields loc = ⟨Json.str t, Json.str c, Json.str s, Json.str a⟩)
    (hd : dtFormatted h loc (Json.str a) = Except.ok d) :
    locLine h loc = Except.ok (jsJoin " | " (specSegments t c s d a)) ∧
      (∀ seg ∈ specSegments t c s d a, seg ≠ "") ∧
      ((∀ x ∈ [t, c, s, d, a], '|' ∉ x.data) →
        jsStartsWith (jsJoin " | " (specSegments t c s d a)) " | " = false ∧
        jsEndsWith (jsJoin " | " (specSegments t c s d a)) " | " = false) := by
  refine ⟨?_, specSegments_ne_empty t c s d a, ?_⟩
  · unfold locLine
    simp only [hf, hd, locationParts_eq_specSegments]
  · intro hbar
    have hgood : ∀ x ∈ specSegments t c s d a, x ≠ "" ∧ '|' ∉ x.data := fun x hx =>
      ⟨specSegments_ne_empty t c s d a x hx,
        specSegments_barFree t c s d a (hbar t (by simp)) (hbar c (by simp)) (hbar s (by simp))
          (hbar d (by simp)) (hbar a (by simp)) x hx⟩
    exact ⟨jsJoin_not_startsWith _ hgood, jsJoin_not_endsWith _ hgood⟩

/-- C6 at a concrete waypoint: a pickup in Dallas, TX with an FCFS label and no
date. -/
theorem locationLine_composition_witness :
    locLine sampleHost (Json.obj [("type", Json.str "Pickup"),
        ("address", Json.obj [("city", Json.str "Dallas"),
          ("state", Json.obj [("name", Json.str "TX")])]),
        ("schedulingType", Json.obj [("shortName", Json.str "FCFS")])]) =
      Except.ok "Pickup: Dallas, TX | (FCFS)" ∧
    jsStartsWith "Pickup: Dallas, TX | (FCFS)" " | " = false ∧
    jsEndsWith "Pickup: Dallas, TX | (FCFS)" " | " = false := by
  have r := locationLine_composition sampleHost (Json.obj [("type", Json.str "Pickup"),
        ("address", Json.obj [("city", Json.str "Dallas"),
          ("state", Json.obj [("name", Json.str "TX")])]),
        ("schedulingType", Json.obj [("shortName", Json.str "FCFS")])])
      "Pickup" "Dallas" "TX" "FCFS" "" rfl rfl
  exact ⟨r.1, r.2.2 (by decide)⟩

/-- C6 is false as stated: a waypoint whose type is the string ` | x` gives a
line that starts with `' | '`, and a waypoint whose type value is the empty
array (truthy, with the empty string as its text) gives a line with an empty
first segment. -/
theorem locationLine_separator_counterexample :
    locLine sampleHost (Json.obj [("type", Json.str " | x")]) = Except.ok " | x" ∧
      jsStartsWith " | x" " | " = true ∧
      locLine sampleHost (Json.obj [("type", Json.obj [("value", Json.arr [])]),
        ("schedulingType", Json.obj [("shortName", Json.str "FCFS")])]) =
        Except.ok " | (FCFS)" ∧
      locationParts (locFields (Json.obj [("type", Json.obj [("value", Json.arr [])]),
        ("schedulingType", Json.obj [("shortName", Json.str "FCFS")])])) "" =
        ["", "(FCFS)"] := by
  refine ⟨rfl, by decide, rfl, rfl⟩

/-! ## Email Composer -/

theorem string_append_empty (x : String) : x ++ "" = x := by
  cases x
  simp only [HAppend.hAppend, Append.append, String.append]
  congr 1
  exact List.append_nil _

theorem emailLines_eq_blockEmailLines (d : Dom) : emailLines d = blockEmailLines d := by
  unfold emailLines blockEmailLines fieldEntry unitSuffix
  have e1 : "Commodity" ++ ": " = "Commodity: " := by decide
  have e2 : "Weight" ++ ": " = "Weight: " := by decide
  have e3 : "Temperature" ++ ": " = "Temperature: " := by decide
  have e4 : "Services" ++ ": " = "Services: " := by decide
  have e5 : "Rate" ++ ": " = "Rate: " := by decide
  simp only [e1, e2, e3, e4, e5, string_append_empty]

/-- C7 (as amended). For every assignment of field texts and check box
states, the email text is the newline-join of the greeting, one empty line
and then, in the order locations, commodity, weight, temperature, services,
rate, one entry for each field whose check box is checked and whose text is
not empty: the line `Ship Locations:` followed by the location lines for the
locations, and `<Label>: <value>` for the others, with a space and the unit
after the weight and temperature values when the unit box is checked and the
unit text not empty. With only the rate box checked and rate `1500` the text
is the greeting, an empty line and `Rate: 1500`. -/
theorem renderEmail_composition (d : Dom) :
    (renderEmail d).emailText = jsJoin "\n" (blockEmailLines d) ∧
      (d.chkShipLocations = false → d.chkCommodity = false → d.chkWeight = false →
        d.chkTemperature = false → d.chkServices = false → d.chkRate = true →
        d.rate = "1500" →
        (renderEmail d).emailText = "Shipment details can be found below.\n\nRate: 1500") := by
  constructor
  · simp only [renderEmail, emailLines_eq_blockEmailLines]
  · intro h1 h2 h3 h4 h5 h6 h7
    simp only [renderEmail, emailLines, h1, h2, h3, h4, h5, h6, h7, Bool.false_and,
      Bool.true_and, if_false, Bool.false_eq_true]
    decide

/-- C7 at a concrete page: only the rate box is checked, the rate is `1500`. -/
theorem renderEmail_rate_only_witness :
    (renderEmail sampleRateOnlyDom).emailText =
      "Shipment details can be found below.\n\nRate: 1500" :=
  (renderEmail_composition sampleRateOnlyDom).2 rfl rfl rfl rfl rfl rfl rfl

/-- C7 is false as stated: with only the locations box checked the email
holds the line `Ship Locations:` and the location line under it, not one
`Ship Locations: <value>` entry. -/
theorem renderEmail_locations_block_counterexample :
    (renderEmail sampleLocationsOnlyDom).emailText =
        "Shipment details can be found below.\n\nShip Locations:\nPickup: Dallas, TX" ∧
      jsJoin "\n" (uniformEmailLines sampleLocationsOnlyDom) =
        "Shipment details can be found below.\n\nShip Locations: Pickup: Dallas, TX" ∧
      (renderEmail sampleLocationsOnlyDom).emailText ≠
        jsJoin "\n" (uniformEmailLines sampleLocationsOnlyDom) := by
  decide

/-! ## Time zone resolution -/

theorem lookupOrEmpty_of_not_mem (u : String) (table : List (String × String))
    (hu : u ∉ table.map Prod.fst) : lookupOrEmpty u table = "" := by
  induction table with
  | nil => rfl
  | cons kv rest ih =>
    obtain ⟨k, v⟩ := kv
    simp only [List.map_cons, List.mem_cons, not_or] at hu
    have hk : ¬ k = u := fun hc => hu.1 hc.symm
    simp only [lookupOrEmpty, hk, if_false]
    exact ih hu.2

theorem abbrevTable_agrees :
    ∀ u ∈ abbrevTable.map Prod.fst,
      lookupOrEmpty u abbrevTable ≠ "" ∧
        specAbbrevGroup u = some (lookupOrEmpty u abbrevTable) := by
  decide

theorem specAbbrevGroup_of_not_mem (u : String) (hu : u ∉ abbrevTable.map Prod.fst) :
    specAbbrevGroup u = none := by
  simp only [abbrevTable, List.map_cons, List.map_nil, List.mem_cons, List.mem_singleton,
    List.not_mem_nil, or_false, not_or] at hu
  simp [specAbbrevGroup, hu]

theorem zone_eq_specAbbrevZone (z : String) :
    (if mapAbbrevToIana z ≠ "" then mapAbbrevToIana z else z) = specAbbrevZone z := by
  unfold mapAbbrevToIana specAbbrevZone
  by_cases hu : toUpperCase z ∈ abbrevTable.map Prod.fst
  · obtain ⟨h1, h2⟩ := abbrevTable_agrees _ hu
    rw [if_pos h1, h2]
    rfl
  · rw [lookupOrEmpty_of_not_mem _ _ hu, specAbbrevGroup_of_not_mem _ hu]
    simp

theorem firstZone_filter (l : List JsVal) :
    firstZone (l.filter truthy) =
      (l.find? nonBlank).map (fun v => specAbbrevZone (jsTrim (coerceString v))) := by
  induction l with
  | nil => rfl
  | cons v rest ih =>
    rw [List.filter_cons, List.find?_cons]
    cases ht : truthy v
    · simp only [nonBlank, ht, Bool.false_and, Bool.false_eq_true, if_false]
      exact ih
    · simp only [if_true, firstZone, nonBlank, ht, Bool.true_and]
      by_cases hz : jsTrim (coerceString v) = ""
      · simp only [hz, if_true, bne_self_eq_false]
        exact ih
      · simp only [hz, if_false, bne_empty_true hz, Option.map_some']
        rw [← zone_eq_specAbbrevZone]
        split <;> rfl

/-- Upper-casing at characters outside Basic Latin: the long s and the dotless
i map to `S` and `I`, the sharp s and the ligature `fi` to two letters, and an
accented letter to its capital; the zone helpers follow. -/
theorem toUpperCase_samples :
    toUpperCase "p\u017Ft" = "PST" ∧ toUpperCase "\u0131n" = "IN" ∧
      toUpperCase "stra\u00DFe" = "STRASSE" ∧ toUpperCase "\uFB01" = "FI" ∧
      toUpperCase "\u00E9t\u00E9" = "\u00C9T\u00C9" ∧
      mapAbbrevToIana "p\u017Ft" = "America/Los_Angeles" ∧
      normalizeUsStateAbbr "\u0131n" = "IN" ∧
      mapUsStateAbbrToIana (normalizeUsStateAbbr "\u0131n") = "America/New_York" := by
  decide

/-- C8. For every waypoint object that carries a non-blank explicit time zone
field on the waypoint (`timeZone`, `timezone`, `tz`) or on its address
(`timeZone`, `timezone`, `time_zone`), the resolved zone is a function of the
first such field alone: the canonical zone when its trimmed value is one of
the listed abbreviations in any letter case, the trimmed value itself
otherwise. -/
theorem explicitZone_priority (loc : Json) (v : JsVal)
    (hobj : loc.truthy = true ∧ loc.isObjectType = true)
    (hfirst : (explicitZoneFields loc).find? nonBlank = some v) :
    extractTimeZoneIdFromLocation (some loc) = specAbbrevZone (jsTrim (coerceString v)) := by
  have hc : zoneCandidates loc = explicitZoneFields loc ++ (zoneCandidates loc).drop 6 :=
    (List.take_append_drop 6 _).symm
  unfold extractTimeZoneIdFromLocation
  simp only [hobj.1, hobj.2, Bool.not_true, Bool.or_self, Bool.false_eq_true, if_false]
  rw [firstZone_filter, hc, List.find?_append, hfirst]
  rfl

/-- C8 at concrete waypoints: an abbreviation in lower case on the waypoint
beats the address and the state; an unlisted value is returned trimmed; and
`pst` written with a long s (U+017F), whose upper case is `PST`, is the
abbreviation. -/
theorem explicitZone_priority_witness :
    extractTimeZoneIdFromLocation (some (Json.obj [("timezone", Json.str " est "),
        ("address", Json.obj [("timeZone", Json.str "PT"), ("state", Json.str "TX")])])) =
      "America/New_York" ∧
    extractTimeZoneIdFromLocation (some (Json.obj [("tz", Json.str ""),
        ("address", Json.obj [("time_zone", Json.str " Europe/Paris"),
          ("state", Json.str "TX")])])) =
      "Europe/Paris" ∧
    extractTimeZoneIdFromLocation (some (Json.obj [("timeZone", Json.str "p\u017Ft")])) =
      "America/Los_Angeles" :=
  ⟨explicitZone_priority (Json.obj [("timezone", Json.str " est "),
        ("address", Json.obj [("timeZone", Json.str "PT"), ("state", Json.str "TX")])])
      (some (Json.str " est ")) ⟨rfl, rfl⟩ rfl,
   explicitZone_priority (Json.obj [("tz", Json.str ""),
        ("address", Json.obj [("time_zone", Json.str " Europe/Paris"),
          ("state", Json.str "TX")])])
      (some (Json.str " Europe/Paris")) ⟨rfl, rfl⟩ rfl,
   explicitZone_priority (Json.obj [("timeZone", Json.str "p\u017Ft")])
      (some (Json.str "p\u017Ft")) ⟨rfl, rfl⟩ rfl⟩

set_option maxRecDepth 100000 in
theorem stateAbbrs_zone : ∀ u ∈ stateAbbrs, mapUsStateAbbrToIana u ∈ stateZones := by
  decide

set_option maxRecDepth 100000 in
theorem stateAbbrs_one_group :
    ∀ u ∈ stateAbbrs, (zoneGroups.filter (fun g => g.contains u)).length = 1 := by
  decide

set_option maxRecDepth 100000 in
theorem nameToAbbr_sound :
    ∀ p ∈ nameToAbbr, stateAbbrs.contains p.1 = false ∧
      lookupOrEmpty p.1 nameToAbbr = p.2 ∧ p.2 ∈ stateAbbrs := by
  decide

theorem mem_of_contains {l : List String} {u : String} (h : l.contains u = true) : u ∈ l := by
  simpa using h

theorem normalize_of_isUsState (S : String) (h : isUsState S = true) :
    normalizeUsStateAbbr S ∈ stateAbbrs := by
  have hS : S ≠ "" := by
    intro hc; subst hc
    revert h; decide
  unfold normalizeUsStateAbbr
  simp only [hS, if_false]
  cases hA : stateAbbrs.contains (toUpperCase (jsTrim S))
  · simp only [Bool.false_eq_true, if_false]
    unfold isUsState at h
    rw [hA, Bool.false_or] at h
    have hmem := mem_of_contains h
    obtain ⟨p, hp, hpu⟩ := List.mem_map.1 hmem
    obtain ⟨_, h2, h3⟩ := nameToAbbr_sound p hp
    rw [← hpu, h2]
    exact h3
  · simp only [if_true]
    exact mem_of_contains hA

theorem normalize_of_not_isUsState (S : String) (h : isUsState S = false) :
    normalizeUsStateAbbr S = "" := by
  unfold normalizeUsStateAbbr
  by_cases hS : S = ""
  · simp [hS]
  · unfold isUsState at h
    rw [Bool.or_eq_false_iff] at h
    simp only [hS, if_false, h.1, Bool.false_eq_true]
    apply lookupOrEmpty_of_not_mem
    intro hc
    have : (nameToAbbr.map Prod.fst).contains (toUpperCase (jsTrim S)) = true := by
      simpa using hc
    rw [h.2] at this
    cases this

theorem extract_of_no_zone (loc : Json)
    (hobj : loc.truthy = true ∧ loc.isObjectType = true)
    (hnozone : ∀ v ∈ zoneCandidates loc, nonBlank v = false) :
    extractTimeZoneIdFromLocation (some loc) =
      (if normalizeUsStateAbbr (stateNameLike (orFalsy (loc.get "address") emptyObj)) ≠ "" then
        mapUsStateAbbrToIana
          (normalizeUsStateAbbr (stateNameLike (orFalsy (loc.get "address") emptyObj)))
       else "") := by
  have hfind : (zoneCandidates loc).find? nonBlank = none := by
    rw [List.find?_eq_none]
    intro v hv
    rw [hnozone v hv]
    simp
  unfold extractTimeZoneIdFromLocation
  simp only [hobj.1, hobj.2, Bool.not_true, Bool.or_self, Bool.false_eq_true, if_false]
  rw [firstZone_filter, hfind]
  rfl

theorem stateNameLike_of_givenState (addr : Json) (S : String)
    (hg : givenState addr = some S) :
    (S ≠ "" → stateNameLike addr = S) ∧ (S = "" → stateNameLike addr = "[object Object]") := by
  unfold givenState at hg
  unfold stateNameLike
  cases hst : addr.get "state" with
  | none => rw [hst] at hg; cases hg
  | some st =>
    rw [hst] at hg
    cases st with
    | str s =>
      simp only [Option.some.injEq] at hg
      subst hg
      constructor
      · intro hne
        simp [orFalsy, Json.truthy, hne, Json.get, coerceString, Json.toJsString]
      · intro he
        subst he
        rfl
    | obj fields =>
      simp only at hg
      split at hg
      · rename_i hkeys
        simp only [Bool.and_eq_true, Bool.not_eq_true'] at hkeys
        obtain ⟨⟨⟨k1, k2⟩, k3⟩, k4⟩ := hkeys
        have hor : ∀ (a : JsVal) (b : Json), truthy a = false → orFalsy a b = b := by
          intro a b ha
          cases a with
          | none => rfl
          | some w =>
            simp only [truthy] at ha
            simp [orFalsy, ha]
        cases hn : lookupField "name" fields with
        | none => rw [hn] at hg; cases hg
        | some nv =>
          rw [hn] at hg
          cases nv with
          | str s =>
            simp only [Option.some.injEq] at hg
            subst hg
            constructor
            · intro hne
              have hso : orFalsy (some (Json.obj fields)) emptyObj = Json.obj fields := rfl
              simp only [hso, Json.get, hor _ _ k1, hor _ _ k2, hor _ _ k3, hor _ _ k4, hn]
              simp [orFalsy, Json.truthy, hne, coerceString, Json.toJsString]
            · intro he
              subst he
              have hso : orFalsy (some (Json.obj fields)) emptyObj = Json.obj fields := rfl
              simp only [hso, Json.get, hor _ _ k1, hor _ _ k2, hor _ _ k3, hor _ _ k4, hn]
              rfl
          | null => cases hg
          | bool b => cases hg
          | num n => cases hg
          | arr items => cases hg
          | obj fs => cases hg
      · cases hg
    | null => cases hg
    | bool b => cases hg
    | num n => cases hg
    | arr items => cases hg

theorem empty_not_stateAbbr : "" ∉ stateAbbrs := by decide

theorem normalize_object_text : normalizeUsStateAbbr "[object Object]" = "" := by decide

theorem normalize_arizona (S : String)
    (h : toUpperCase (jsTrim S) = "AZ" ∨ toUpperCase (jsTrim S) = "ARIZONA") :
    normalizeUsStateAbbr S = "AZ" := by
  have hS : S ≠ "" := by
    intro hc; subst hc
    revert h; decide
  unfold normalizeUsStateAbbr
  simp only [hS, if_false]
  rcases h with h | h <;> rw [h] <;> decide

/-- C9 (as amended). For every waypoint object without a non-blank explicit
time zone field whose address state is given as a plain string `S`, or as an
object carrying `S` under `name` and no truthy `abbrev`, `abbr`, `code` or
`value` field: when `S` is the two-letter abbreviation or the full name of
one of the 50 states or DC, in any letter case, the resolved zone is a
non-empty zone of the state table; Arizona resolves to `America/Phoenix`;
when `S` is not recognised the zone is unresolved (empty); and every state
abbreviation belongs to exactly one zone group. -/
theorem stateZone_inference (loc : Json) (S : String)
    (hobj : loc.truthy = true ∧ loc.isObjectType = true)
    (hnozone : ∀ v ∈ zoneCandidates loc, nonBlank v = false)
    (hstate : givenState (orFalsy (loc.get "address") emptyObj) = some S) :
    (isUsState S = true →
        extractTimeZoneIdFromLocation (some loc) ∈ stateZones ∧
        extractTimeZoneIdFromLocation (some loc) ≠ "") ∧
      (toUpperCase (jsTrim S) = "AZ" ∨ toUpperCase (jsTrim S) = "ARIZONA" →
        extractTimeZoneIdFromLocation (some loc) = "America/Phoenix") ∧
      (isUsState S = false → extractTimeZoneIdFromLocation (some loc) = "") ∧
      (∀ u ∈ stateAbbrs, (zoneGroups.filter (fun g => g.contains u)).length = 1) := by
  have hex := extract_of_no_zone loc hobj hnozone
  obtain ⟨hne, he⟩ := stateNameLike_of_givenState _ S hstate
  refine ⟨?_, ?_, ?_, stateAbbrs_one_group⟩
  · intro hrec
    have hS : S ≠ "" := by
      intro hc; subst hc
      revert hrec; decide
    rw [hne hS] at hex
    have hmem := normalize_of_isUsState S hrec
    have hnz : normalizeUsStateAbbr S ≠ "" := by
      intro hc
      rw [hc] at hmem
      exact empty_not_stateAbbr hmem
    rw [if_pos hnz] at hex
    rw [hex]
    have hz := stateAbbrs_zone _ hmem
    refine ⟨hz, ?_⟩
    intro hc
    rw [hc] at hz
    revert hz
    decide
  · intro haz
    have hS : S ≠ "" := by
      intro hc; subst hc
      revert haz; decide
    rw [hne hS, normalize_arizona S haz] at hex
    rw [hex]
    decide
  · intro hun
    by_cases hS : S = ""
    · rw [he hS, normalize_object_text] at hex
      rw [hex]
      rfl
    · rw [hne hS, normalize_of_not_isUsState S hun] at hex
      rw [hex]
      rfl

/-- C9 at concrete waypoints: `tx` as a plain string, `Arizona` as an object
carrying the name, an unknown state, and `in` written with a dotless i
(U+0131), whose upper case is `IN`. -/
theorem stateZone_inference_witness :
    extractTimeZoneIdFromLocation (some (Json.obj [("address",
        Json.obj [("state", Json.str "tx")])])) ∈ stateZones ∧
      extractTimeZoneIdFromLocation (some (Json.obj [("address",
        Json.obj [("state", Json.obj [("name", Json.str "Arizona")])])])) =
        "America/Phoenix" ∧
      extractTimeZoneIdFromLocation (some (Json.obj [("address",
        Json.obj [("state", Json.str "Ontario")])])) = "" ∧
      (extractTimeZoneIdFromLocation (some (Json.obj [("address",
        Json.obj [("state", Json.str "\u0131n")])])) ∈ stateZones ∧
       extractTimeZoneIdFromLocation (some (Json.obj [("address",
        Json.obj [("state", Json.str "\u0131n")])])) ≠ "") := by
  have r1 := stateZone_inference (Json.obj [("address",
      Json.obj [("state", Json.str "tx")])]) "tx" ⟨rfl, rfl⟩ (by decide) rfl
  have r2 := stateZone_inference (Json.obj [("address",
      Json.obj [("state", Json.obj [("name", Json.str "Arizona")])])]) "Arizona" ⟨rfl, rfl⟩
      (by decide) rfl
  have r3 := stateZone_inference (Json.obj [("address",
      Json.obj [("state", Json.str "Ontario")])]) "Ontario" ⟨rfl, rfl⟩ (by decide) rfl
  have r4 := stateZone_inference (Json.obj [("address",
      Json.obj [("state", Json.str "\u0131n")])]) "\u0131n" ⟨rfl, rfl⟩ (by decide) rfl
  exact ⟨(r1.1 (by decide)).1, r2.2.1 (Or.inr (by decide)), r3.2.2.1 (by decide),
    r4.1 (by decide)⟩

/-- C9 is false as stated: a state object that carries the name `Texas` and
also a `code` is read through `code`, which is not recognised, so the zone is
unresolved although the state is one of the 50. -/
theorem stateZone_code_before_name_counterexample :
    isUsState "Texas" = true ∧
      (Json.obj [("name", Json.str "Texas"), ("code", Json.str "US-TX")]).get "name" =
        some (Json.str "Texas") ∧
      extractTimeZoneIdFromLocation (some (Json.obj [("address", Json.obj [("state",
        Json.obj [("name", Json.str "Texas"), ("code", Json.str "US-TX")])])])) = "" ∧
      extractTimeZoneIdFromLocation (some (Json.obj [("address", Json.obj [("state",
        Json.obj [("name", Json.str "Texas")])])])) = "America/Chicago" := by
  refine ⟨by decide, rfl, by decide, by decide⟩

/-! ## Weight and temperature -/

/-- C10, the code at the failing input and beside it: a temperature or weight
of `0` is shown as the placeholder dash although its include flag is set and
its unit is shown, while the `42000 lbs` example and the bare scalar `42000`
are shown as the claim says, and a rate of `0` is shown as `0`. -/
theorem zero_measure_shows_placeholder :
    (renderSummary sampleHost (some (sampleEquipmentDoc (Json.obj [("temp",
        Json.obj [("temp", Json.num 0), ("units", Json.str "F")])]))) sampleDom).dom.temperature
        = "—" ∧
      (renderSummary sampleHost (some (sampleEquipmentDoc (Json.obj [("temp",
        Json.obj [("temp", Json.num 0), ("units", Json.str "F")])]))) sampleDom).dom.temperatureUnit
        = "F" ∧
      (renderSummary sampleHost (some (sampleEquipmentDoc (Json.obj [("temp",
        Json.obj [("temp", Json.num 0), ("units", Json.str "F")])]))) sampleDom).dom.chkTemperature
        = true ∧
      (renderSummary sampleHost (some (sampleEquipmentDoc (Json.obj [("weight", Json.num 0)])))
        sampleDom).dom.weight = "—" ∧
      (renderSummary sampleHost (some (sampleEquipmentDoc (Json.obj [("weight",
        Json.obj [("weight", Json.num 42000), ("units", Json.str "lbs")])]))) sampleDom).dom.weight
        = "42000" ∧
      (renderSummary sampleHost (some (sampleEquipmentDoc (Json.obj [("weight",
        Json.obj [("weight", Json.num 42000), ("units", Json.str "lbs")])]))) sampleDom).dom.weightUnit
        = "lbs" ∧
      (renderSummary sampleHost (some (sampleEquipmentDoc (Json.obj [("weight", Json.num 42000)])))
        sampleDom).dom.weight = "42000" ∧
      (renderSummary sampleHost (some (sampleEquipmentDoc (Json.obj [("weight", Json.num 42000)])))
        sampleDom).dom.weightUnit = "—" ∧
      (renderSummary sampleHost (some (Json.obj [("details", Json.obj [("margin",
        Json.obj [("minCarrierPay", Json.num 0)])])])) sampleDom).dom.rate = "0" := by
  decide

/-! ## Date/time segment of a waypoint line -/

theorem withFlex_cases (loc flex : Json) :
    withFlex loc flex = loc ∨
      ∃ fields afields, loc = Json.obj fields ∧
        lookupField "appointment" fields = some (Json.obj afields) ∧
        withFlex loc flex =
          Json.obj (("appointment", Json.obj (("flex", flex) :: afields)) :: fields) := by
  cases loc with
  | obj fields =>
    cases ha : lookupField "appointment" fields with
    | none => left; simp [withFlex, ha]
    | some a =>
      cases a with
      | obj afields => right; exact ⟨fields, afields, rfl, ha, by simp [withFlex, ha]⟩
      | null => left; simp [withFlex, ha]
      | bool b => left; simp [withFlex, ha]
      | num n => left; simp [withFlex, ha]
      | str s => left; simp [withFlex, ha]
      | arr items => left; simp [withFlex, ha]
  | null => left; rfl
  | bool b => left; rfl
  | num n => left; rfl
  | str s => left; rfl
  | arr items => left; rfl

theorem get_withFlex (loc flex : Json) (k : String) (hk : k ≠ "appointment") :
    (withFlex loc flex).get k = loc.get k := by
  rcases withFlex_cases loc flex with h | ⟨fields, afields, rfl, _, h⟩
  · rw [h]
  · rw [h]
    have hk2 : ¬ "appointment" = k := fun hc => hk hc.symm
    simp [Json.get, lookupField, hk2]

theorem truthy_withFlex (loc flex : Json) : (withFlex loc flex).truthy = loc.truthy := by
  rcases withFlex_cases loc flex with h | ⟨fields, afields, rfl, _, h⟩
  · rw [h]
  · rw [h]; rfl

theorem isObjectType_withFlex (loc flex : Json) :
    (withFlex loc flex).isObjectType = loc.isObjectType := by
  rcases withFlex_cases loc flex with h | ⟨fields, afields, rfl, _, h⟩
  · rw [h]
  · rw [h]; rfl

theorem locFields_withFlex (loc flex : Json) : locFields (withFlex loc flex) = locFields loc := by
  unfold locFields
  simp only [truthy_withFlex, get_withFlex loc flex "type" (by decide),
    get_withFlex loc flex "address" (by decide),
    get_withFlex loc flex "schedulingType" (by decide)]

theorem zone_withFlex (loc flex : Json) :
    extractTimeZoneIdFromLocation (some (withFlex loc flex)) =
      extractTimeZoneIdFromLocation (some loc) := by
  unfold extractTimeZoneIdFromLocation zoneCandidates
  simp only [truthy_withFlex, isObjectType_withFlex, get_withFlex loc flex "address" (by decide),
    get_withFlex loc flex "date" (by decide), get_withFlex loc flex "timeZone" (by decide),
    get_withFlex loc flex "timezone" (by decide), get_withFlex loc flex "tz" (by decide)]

theorem raw_withFlex (h : Host) (loc flex : Json) :
    (rawDateAndFlex h (withFlex loc flex)).1 = (rawDateAndFlex h loc).1 := by
  rcases withFlex_cases loc flex with hw | ⟨fields, afields, rfl, ha, hw⟩
  · rw [hw]
  · rw [hw]
    have hd : ¬ "appointment" = "date" := by decide
    have hf : ¬ "flex" = "date" := by decide
    simp [rawDateAndFlex, Json.get, lookupField, ha, hd, hf, truthy, isObjectType, getProp,
      Json.truthy, Json.isObjectType]

theorem isApptType_of_includes (label : Json)
    (h : jsIncludes (toLowerCase label.toJsString) "appt" = true) : isApptType label = true := by
  unfold isApptType
  rw [h, Bool.and_true]
  cases label with
  | null => revert h; decide
  | bool b => cases b <;> revert h <;> decide
  | num n =>
    by_cases hn : n = 0
    · subst hn; revert h; decide
    · simp [Json.truthy, hn]
  | str s =>
    have hs : s ≠ "" := by
      intro hc; subst hc; revert h; decide
    simp [Json.truthy, hs]
  | arr items => rfl
  | obj fields => rfl

theorem dtFormatted_of_appt (h : Host) (loc label : Json) (hloc : loc.truthy = true)
    (hlabel : isApptType label = true) :
    dtFormatted h loc label =
      Except.ok (formatDateTimeCompactInZone h (some (rawDateAndFlex h loc).1)
        (extractTimeZoneIdFromLocation (some loc))) := by
  simp [dtFormatted, hloc, hlabel]

theorem truthy_of_apptLabel (loc : Json)
    (hlabel : jsIncludes (toLowerCase (locFields loc).apptType.toJsString) "appt" = true) :
    loc.truthy = true := by
  cases ht : loc.truthy with
  | true => rfl
  | false =>
    exfalso
    have hf : (locFields loc).apptType = Json.str "" := by
      simp [locFields, ht]
    rw [hf] at hlabel
    revert hlabel
    decide

/-- C11. For every waypoint whose scheduling-type label contains `appt` in any
letter case and every value `flex` put in `appointment.flex`: the date/time
segment is the single compact form of the start date (with a start date that
parses and a usable zone, `<Mon D> - (<HH:MM>)`), whatever `flex` is, and the
line is the line of the waypoint as it was. -/
theorem apptLine_ignores_flex (h : Host) (loc flex : Json)
    (hlabel : jsIncludes (toLowerCase (locFields loc).apptType.toJsString) "appt" = true) :
    dtFormatted h (withFlex loc flex) (locFields (withFlex loc flex)).apptType =
        Except.ok (formatDateTimeCompactInZone h (some (rawDateAndFlex h loc).1)
          (extractTimeZoneIdFromLocation (some loc))) ∧
      locLine h (withFlex loc flex) = locLine h loc ∧
      (∀ start, (rawDateAndFlex h loc).1.truthy = true →
        newDate h (some (rawDateAndFlex h loc).1) = some start →
        formatterOk h (extractTimeZoneIdFromLocation (some loc)) = true →
        formatDateTimeCompactInZone h (some (rawDateAndFlex h loc).1)
            (extractTimeZoneIdFromLocation (some loc)) =
          h.formatMonthDay (zoneOption (extractTimeZoneIdFromLocation (some loc))) start ++
            " - (" ++
            h.formatHourMinute (zoneOption (extractTimeZoneIdFromLocation (some loc))) start ++
            ")") := by
  have hloc := truthy_of_apptLabel loc hlabel
  have happt := isApptType_of_includes _ hlabel
  have hloc2 : (withFlex loc flex).truthy = true := by rw [truthy_withFlex]; exact hloc
  have happt2 : isApptType (locFields (withFlex loc flex)).apptType = true := by
    rw [locFields_withFlex]; exact happt
  have h1 := dtFormatted_of_appt h (withFlex loc flex) _ hloc2 happt2
  rw [raw_withFlex, zone_withFlex] at h1
  refine ⟨h1, ?_, ?_⟩
  · have h1b := h1
    rw [locFields_withFlex] at h1b
    simp only [locLine, locFields_withFlex, h1b, dtFormatted_of_appt h loc _ hloc happt]
  · intro start hraw hstart hzone
    simp [formatDateTimeCompactInZone, truthy, hraw, hstart, hzone]

/-- C11 at a concrete waypoint: an `Appt` stop at 22:00 UTC whose flex is
replaced by `999`. -/
theorem apptLine_ignores_flex_witness :
    dtFormatted utcHost
        (withFlex (sampleWindowWaypoint "2024-03-01T22:00:00Z" 28800 "Appt" "UTC") (Json.num 999))
        (locFields (withFlex (sampleWindowWaypoint "2024-03-01T22:00:00Z" 28800 "Appt" "UTC")
          (Json.num 999))).apptType =
      Except.ok "Mar 1 - (22:00)" ∧
    locLine utcHost
        (withFlex (sampleWindowWaypoint "2024-03-01T22:00:00Z" 28800 "Appt" "UTC") (Json.num 999)) =
      locLine utcHost (sampleWindowWaypoint "2024-03-01T22:00:00Z" 28800 "Appt" "UTC") := by
  have r := apptLine_ignores_flex utcHost
    (sampleWindowWaypoint "2024-03-01T22:00:00Z" 28800 "Appt" "UTC") (Json.num 999) (by decide)
  exact ⟨r.1, r.2.1⟩

theorem isApptType_eq_false (label : Json)
    (h : jsIncludes (toLowerCase label.toJsString) "appt" = false) : isApptType label = false := by
  simp [isApptType, h]

/-- C12. For every waypoint with a start date that parses to `start`, a
positive flex of `f` seconds and a scheduling label that does not contain
`appt`, on a host that accepts the resolved zone and reads its own ISO string
of the window end back: the window end is `start + f` seconds, and when start
and end fall on the same calendar day in the resolved zone the date/time
segment is `<Mon D> (<HH:MM start> - <HH:MM end>)`. -/
theorem fcfsWindow_same_day (h : Host) (loc : Json) (start f : Int)
    (hloc : loc.truthy = true)
    (hraw : (rawDateAndFlex h loc).1.truthy = true)
    (hstart : newDate h (some (rawDateAndFlex h loc).1) = some start)
    (hflex : (rawDateAndFlex h loc).2 = f) (hpos : 0 < f)
    (hlabel : jsIncludes (toLowerCase (locFields loc).apptType.toJsString) "appt" = false)
    (hend : timeClip (start + f * 1000) = some (start + f * 1000))
    (hiso : isoRoundTrip h (start + f * 1000))
    (hzone : formatterOk h (extractTimeZoneIdFromLocation (some loc)) = true)
    (hsame : h.formatYearMonthDay (zoneOption (extractTimeZoneIdFromLocation (some loc))) start =
      h.formatYearMonthDay (zoneOption (extractTimeZoneIdFromLocation (some loc)))
        (start + f * 1000)) :
    dtFormatted h loc (locFields loc).apptType =
      Except.ok (h.formatMonthDay (zoneOption (extractTimeZoneIdFromLocation (some loc))) start ++
        " (" ++
        h.formatHourMinute (zoneOption (extractTimeZoneIdFromLocation (some loc))) start ++
        " - " ++
        h.formatHourMinute (zoneOption (extractTimeZoneIdFromLocation (some loc)))
          (start + f * 1000) ++ ")") := by
  obtain ⟨hne, hparse⟩ := hiso
  have hnot := isApptType_eq_false _ hlabel
  have htr2 : (Json.str (h.toISOString (start + f * 1000))).truthy = true := by
    simp [Json.truthy, hne]
  have htr : truthy (some (Json.str (h.toISOString (start + f * 1000)))) = true := htr2
  have hnd : newDate h (some (Json.str (h.toISOString (start + f * 1000)))) =
      some (start + f * 1000) := by
    simp [newDate, hparse]
  have hsd : isSameDayInZone h (some (rawDateAndFlex h loc).1)
      (some (Json.str (h.toISOString (start + f * 1000))))
      (extractTimeZoneIdFromLocation (some loc)) = true := by
    unfold isSameDayInZone
    simp only [hnd, hstart, hzone, htr2, truthy, hraw]
    simp [hsame]
  have hft1 : formatTimeOnlyInZone h (some (rawDateAndFlex h loc).1)
      (extractTimeZoneIdFromLocation (some loc)) =
      h.formatHourMinute (zoneOption (extractTimeZoneIdFromLocation (some loc))) start := by
    simp [formatTimeOnlyInZone, truthy, hraw, hstart, hzone]
  have hft2 : formatTimeOnlyInZone h (some (Json.str (h.toISOString (start + f * 1000))))
      (extractTimeZoneIdFromLocation (some loc)) =
      h.formatHourMinute (zoneOption (extractTimeZoneIdFromLocation (some loc)))
        (start + f * 1000) := by
    unfold formatTimeOnlyInZone
    simp only [htr, hnd, hzone]
    simp
  unfold dtFormatted
  simp only [hloc, hraw, hnot, hstart, hflex, Option.bind, hend, hsd, hzone, hft1, hft2]
  simp [hpos]

/-- C12 at the example of the specification: start `2024-03-01T09:00:00Z`
with flex `28800` in UTC renders `Mar 1 (09:00 - 17:00)`. -/
theorem fcfsWindow_same_day_witness :
    dtFormatted utcHost (sampleWindowWaypoint "2024-03-01T09:00:00Z" 28800 "FCFS" "UTC")
        (locFields (sampleWindowWaypoint "2024-03-01T09:00:00Z" 28800 "FCFS" "UTC")).apptType =
      Except.ok "Mar 1 (09:00 - 17:00)" :=
  fcfsWindow_same_day utcHost (sampleWindowWaypoint "2024-03-01T09:00:00Z" 28800 "FCFS" "UTC")
    1709283600000 28800 rfl rfl rfl rfl (by decide) (by decide) (by decide)
    ⟨by decide, by decide⟩ (by decide) (by decide)

/-- C13, the code at a window that crosses midnight: start
`2024-03-01T22:00:00Z` with flex `28800` in UTC gives
`Mar 1 - (22:00) to Mar 2 - (06:00)`, each half in the compact form with its
dash, not the form `Mar 1 (22:00) to Mar 2 (06:00)` of the claim and of the
comment of line 494. -/
theorem fcfsWindow_two_dates_keep_dash :
    dtFormatted utcHost (sampleWindowWaypoint "2024-03-01T22:00:00Z" 28800 "FCFS" "UTC")
        (locFields (sampleWindowWaypoint "2024-03-01T22:00:00Z" 28800 "FCFS" "UTC")).apptType =
      Except.ok "Mar 1 - (22:00) to Mar 2 - (06:00)" ∧
    locLine utcHost (sampleWindowWaypoint "2024-03-01T22:00:00Z" 28800 "FCFS" "UTC") =
      Except.ok "Pickup | Mar 1 - (22:00) to Mar 2 - (06:00) | (FCFS)" :=
  ⟨rfl, rfl⟩

/-! ## Shipment list client -/

theorem onListMessage_eq (net : ListRequest → FetchResult) (m : Json)
    (hty : m.get "type" = some (Json.str "FETCH_SHIPMENT_LIST")) :
    onListMessage net (some m) = some (handleFetchShipmentList net m) := by
  have ht := truthy_of_get hty
  simp [onListMessage, ht, hty]

/-- C14 (as amended). For every response with a non-success HTTP status,
`fetchShipmentList` raises an `Error` with the message
`API request failed with status <status>`, and the FETCH_SHIPMENT_LIST handler
catches it and answers `{ ok: false, error: <that message> }`. -/
theorem listFetch_non_success_raises (net : ListRequest → FetchResult) (m : Json)
    (resp : HttpResponse)
    (hty : m.get "type" = some (Json.str "FETCH_SHIPMENT_LIST"))
    (htok : truthy (m.get "bearerToken") = true)
    (hid : truthy (m.get "customId") = true)
    (hnet : net { filter := listFilter (orNullish (m.get "customId") Json.null),
                  authorization := "Bearer " ++ jsString (m.get "bearerToken") } =
      FetchResult.resolved resp)
    (hok : resp.ok = false) :
    fetchShipmentList net (m.get "bearerToken") (m.get "customId") =
        Except.error ("API request failed with status " ++ numToString resp.status) ∧
      onListMessage net (some m) =
        some (Json.obj [("ok", Json.bool false),
          ("error", Json.str ("API request failed with status " ++ numToString resp.status))]) := by
  have h1 : fetchShipmentList net (m.get "bearerToken") (m.get "customId") =
      Except.error ("API request failed with status " ++ numToString resp.status) := by
    simp [fetchShipmentList, htok, hid, hnet, hok]
  refine ⟨h1, ?_⟩
  rw [onListMessage_eq net m hty]
  simp [handleFetchShipmentList, htok, hid, h1, errorReply]

/-- C14 at a concrete response: status 500 with a JSON body. -/
theorem listFetch_non_success_raises_witness :
    fetchShipmentList (fun _ => FetchResult.resolved sampleErrorResponse)
        (sampleListMessage.get "bearerToken") (sampleListMessage.get "customId") =
      Except.error "API request failed with status 500" ∧
    onListMessage (fun _ => FetchResult.resolved sampleErrorResponse) (some sampleListMessage) =
      some (Json.obj [("ok", Json.bool false),
        ("error", Json.str "API request failed with status 500")]) :=
  listFetch_non_success_raises (fun _ => FetchResult.resolved sampleErrorResponse)
    sampleListMessage sampleErrorResponse rfl rfl rfl rfl rfl

/-- C14 is false as stated: on a response with status 500 the list client
raises, and the handler's answer carries neither a `status` nor the body,
while the shipment fetch client answers the same response with
`{ ok: false, status: 500, data: <body> }`. -/
theorem listFetch_raises_on_500_counterexample :
    fetchShipmentList (fun _ => FetchResult.resolved sampleErrorResponse)
        (some (Json.str "tok")) (some (Json.str "PO-1")) =
      Except.error "API request failed with status 500" ∧
    (handleFetchShipmentList (fun _ => FetchResult.resolved sampleErrorResponse)
        sampleListMessage).get "status" = none ∧
    (handleFetchShipmentList (fun _ => FetchResult.resolved sampleErrorResponse)
        sampleListMessage).get "data" = none ∧
    (onMessage (fun _ => FetchResult.resolved sampleErrorResponse) 1 ⟨some "tok", []⟩
        (some (sampleFetchMessage "11" 5))).reply =
      some (Json.obj [("ok", Json.bool false), ("status", Json.num 500),
        ("data", Json.obj [("message", Json.str "boom")])]) :=
  ⟨rfl, rfl, rfl, rfl⟩

/-- C15 (as amended). A FETCH_SHIPMENT creates or overwrites the cache entry
of the originating tab exactly when a token and a shipment id are present, a
tab id was supplied, the fetch resolved and its body was read, whatever the
HTTP status of the response; the entry is then the record of that body. In
every other case (precondition failure, connection failure, unreadable JSON
body, no tab id) the state is unchanged. -/
theorem cacheWrite_whatever_status (net : FetchRequest → FetchResult) (now : Int)
    (st : BgState) (m : Json)
    (hty : m.get "type" = some (Json.str "FETCH_SHIPMENT")) :
    ((onMessage net now st (some m)).writes ≠ [] ↔
        strTruthy st.lastBearerToken = true ∧ truthy (m.get "shipmentId") = true ∧
        hasTabId (m.get "tabId") = true ∧
        ∃ resp data, net (buildRequest (st.lastBearerToken.getD "") m) =
          FetchResult.resolved resp ∧ responseData resp = Except.ok data) ∧
      (∀ resp data, strTruthy st.lastBearerToken = true → truthy (m.get "shipmentId") = true →
        hasTabId (m.get "tabId") = true →
        net (buildRequest (st.lastBearerToken.getD "") m) = FetchResult.resolved resp →
        responseData resp = Except.ok data →
        storageGet (shipmentKey (m.get "tabId")) (onMessage net now st (some m)).state.session =
          some (cacheRecord (m.get "shipmentId") data now)) ∧
      ((onMessage net now st (some m)).writes = [] → (onMessage net now st (some m)).state = st) := by
  rw [onMessage_fetch net now st m hty]
  unfold handleFetchShipment
  cases htok : strTruthy st.lastBearerToken <;> cases hid : truthy (m.get "shipmentId") <;>
    try (simp [htok, hid]; done)
  cases hnet : net (buildRequest (st.lastBearerToken.getD "") m) with
  | rejected msg => simp [htok, hid, hnet]
  | resolved resp =>
    cases hdata : responseData resp with
    | error msg =>
      simp [htok, hid, hnet, hdata]
      intro r d _ hr hd
      subst hr
      rw [hdata] at hd
      cases hd
    | ok data =>
      cases htab : hasTabId (m.get "tabId")
      · simp [htok, hid, hnet, hdata, htab]
      · simp [htok, hid, hnet, hdata, htab, storageGet_storageSet]
        intro r d hr hd
        subst hr
        rw [hdata] at hd
        cases hd
        rfl

/-- C15 at a concrete run: a response with status 500 for tab 5 replaces the
record the tab had. -/
theorem cacheWrite_whatever_status_witness :
    storageGet (shipmentKey ((sampleFetchMessage "11" 5).get "tabId"))
        (onMessage (fun _ => FetchResult.resolved sampleErrorResponse) 7
          ⟨some "tok", [("shipment_5", Json.str "old")]⟩
          (some (sampleFetchMessage "11" 5))).state.session =
      some (cacheRecord ((sampleFetchMessage "11" 5).get "shipmentId")
        (Json.obj [("message", Json.str "boom")]) 7) :=
  (cacheWrite_whatever_status (fun _ => FetchResult.resolved sampleErrorResponse) 7
    ⟨some "tok", [("shipment_5", Json.str "old")]⟩ (sampleFetchMessage "11" 5) rfl).2.1
    sampleErrorResponse (Json.obj [("message", Json.str "boom")]) rfl rfl rfl rfl rfl

/-- C15 is false as stated: after a FETCH_SHIPMENT for tab 5 whose response
has status 500, the cache entry of tab 5 is no longer the record it held but
a record of the error body. -/
theorem cacheWrite_on_500_counterexample :
    sampleErrorResponse.ok = false ∧
      storageGet "shipment_5" [("shipment_5", Json.str "old")] = some (Json.str "old") ∧
      storageGet "shipment_5"
          (onMessage (fun _ => FetchResult.resolved sampleErrorResponse) 7
            ⟨some "tok", [("shipment_5", Json.str "old")]⟩
            (some (sampleFetchMessage "11" 5))).state.session =
        some (Json.obj [("shipmentId", Json.str "11"),
          ("data", Json.obj [("message", Json.str "boom")]), ("ts", Json.num 7)]) ∧
      (onMessage (fun _ => FetchResult.resolved sampleErrorResponse) 7
          ⟨some "tok", [("shipment_5", Json.str "old")]⟩
          (some (sampleFetchMessage "11" 5))).writes.length = 1 :=
  ⟨rfl, rfl, rfl, rfl⟩

theorem sortKey_of_hasNoDate {h : Host} {loc : Json} (hn : hasNoDate loc = true) :
    sortKey h loc = (2, 0) := by
  unfold hasNoDate at hn
  unfold sortKey
  cases hd : (getLocationDate loc).truthy
  · simp
  · simp [hd] at hn

theorem sortKey_of_hasUnparseableDate {h : Host} {loc : Json}
    (hu : hasUnparseableDate h loc = true) : sortKey h loc = (1, 0) := by
  unfold hasUnparseableDate at hu
  unfold sortKey
  cases hd : (getLocationDate loc).truthy
  · simp [hd] at hu
  · cases hn : newDate h (some (getLocationDate loc))
    · simp
    · simp [hd, hn] at hu

theorem hasNoDate_of_sortKey {h : Host} {loc : Json} (hk : 2 ≤ (sortKey h loc).1) :
    hasNoDate loc = true := by
  unfold hasNoDate
  unfold sortKey at hk
  cases hd : (getLocationDate loc).truthy
  · rfl
  · exfalso
    cases hn : newDate h (some (getLocationDate loc)) <;> simp [hd, hn] at hk

/-- C16 (as amended). For every waypoint list, in the sorted output a waypoint
with an unparseable date is followed only by waypoints without a usable date
(so it stands after every waypoint whose date parses), a waypoint with no
date is followed only by waypoints with no date (so every waypoint with an
unparseable date precedes every waypoint with no date), the waypoints with an
unparseable date keep their input order among themselves, and so do the
waypoints with no date. -/
theorem unparseable_after_parsed_before_absent (h : Host) (ws : List Json) :
    (sortedLocations h ws).Pairwise
        (fun a b => hasUnparseableDate h a = true → locTime h b = none) ∧
      (sortedLocations h ws).Pairwise (fun a b => hasNoDate a = true → hasNoDate b = true) ∧
      (sortedLocations h ws).filter (hasUnparseableDate h) = ws.filter (hasUnparseableDate h) ∧
      (sortedLocations h ws).filter hasNoDate = ws.filter hasNoDate := by
  refine ⟨?_, ?_, ?_, ?_⟩
  · refine List.Pairwise.imp ?_ (sortedLocations_pairwise h ws)
    intro a b hab hu
    rw [sortKey_of_hasUnparseableDate hu] at hab
    apply locTime_none_of_sortKey
    unfold keyLe at hab
    simp at hab
    omega
  · refine List.Pairwise.imp ?_ (sortedLocations_pairwise h ws)
    intro a b hab hn
    rw [sortKey_of_hasNoDate hn] at hab
    apply hasNoDate_of_sortKey (h := h)
    unfold keyLe at hab
    simp at hab
    omega
  · unfold sortedLocations
    apply filter_jsSort
    intro x y hx hy
    rw [compareLocations_le_iff, sortKey_of_hasUnparseableDate hx,
      sortKey_of_hasUnparseableDate hy]
    unfold keyLe
    simp
  · unfold sortedLocations
    apply filter_jsSort
    intro x y hx hy
    rw [compareLocations_le_iff, sortKey_of_hasNoDate hx, sortKey_of_hasNoDate hy]
    unfold keyLe
    simp

/-- C16 is false as stated: in the list `[C, U]`, where `C` has no date and
`U` has the date string `garbage`, `U` is sorted to the front; once the date
of `U` is replaced by an absent date the list stays `[C, U]`, so the
replacement changes the positions. -/
theorem unparseable_not_like_absent_counterexample :
    hasUnparseableDate utcHost (sampleWaypoint "U" (some "garbage")) = true ∧
      hasNoDate (sampleWaypoint "C" none) = true ∧
      sortedLocations utcHost [sampleWaypoint "C" none, sampleWaypoint "U" (some "garbage")] =
        [sampleWaypoint "U" (some "garbage"), sampleWaypoint "C" none] ∧
      sortedLocations utcHost [sampleWaypoint "C" none, sampleWaypoint "U" none] =
        [sampleWaypoint "C" none, sampleWaypoint "U" none] :=
  ⟨rfl, rfl, rfl, rfl⟩

/-! ## Raises and include flags of the Summary Extractor -/

/-- C17, the code at three failing inputs: a `null` customer order raises a
`TypeError` (after the locations and the weight were written, the other
fields keeping what they showed before), and a first-come-first-served
waypoint with a flex raises a `RangeError` when its date does not parse or
when its zone is not one the host accepts (nothing is written). -/
theorem renderSummary_raises :
    (renderSummary utcHost (some (Json.obj [("details",
        Json.obj [("customer_orders", Json.arr [Json.null])])])) sampleDom).raised =
        some JsError.typeError ∧
      (renderSummary utcHost (some (Json.obj [("details",
        Json.obj [("customer_orders", Json.arr [Json.null])])])) sampleDom).dom.commodity =
        "Steel" ∧
      (renderSummary utcHost (some (sampleRouteDoc
        [sampleWindowWaypoint "not a date" 3600 "FCFS" "UTC"])) sampleDom).raised =
        some JsError.rangeError ∧
      (renderSummary utcHost (some (sampleRouteDoc
        [sampleWindowWaypoint "2024-03-01T09:00:00Z" 3600 "FCFS" "Mars/Phobos"])) sampleDom).raised =
        some JsError.rangeError ∧
      (renderSummary utcHost (some (sampleRouteDoc
        [sampleWindowWaypoint "not a date" 3600 "FCFS" "UTC"])) sampleDom).dom = sampleDom := by
  decide

/-- C18, the code at two failing inputs: a weight of `0` sets the weight flag
while the weight shows the placeholder dash, and a route whose only waypoint
is an empty object sets the locations flag while the locations show the
placeholder dash. -/
theorem include_flag_set_on_placeholder :
    (renderSummary utcHost (some (sampleEquipmentDoc (Json.obj [("weight", Json.num 0)])))
        sampleDom).dom.chkWeight = true ∧
      (renderSummary utcHost (some (sampleEquipmentDoc (Json.obj [("weight", Json.num 0)])))
        sampleDom).dom.weight = "—" ∧
      (renderSummary utcHost (some (sampleRouteDoc [Json.obj []])) sampleDom).dom.chkShipLocations
        = true ∧
      (renderSummary utcHost (some (sampleRouteDoc [Json.obj []])) sampleDom).dom.shipLocations
        = ["—"] ∧
      (renderSummary utcHost (some (sampleRouteDoc [Json.obj []])) sampleDom).raised = none := by
  decide

/-! ## Check box toggles -/

theorem renderSummary_object (h : Host) (data : Json) (dom : Dom)
    (hobj : data.truthy = true ∧ data.isObjectType = true) :
    renderSummary h (some data) dom = renderDocument h data dom := by
  cases data <;> simp [renderSummary, Json.truthy, Json.isObjectType] at hobj ⊢

theorem renderDocument_unitsFollowParents (h : Host) (data : Json) (dom : Dom)
    (hr : (renderDocument h data dom).raised = none) :
    unitsFollowParents (renderDocument h data dom).dom := by
  unfold renderDocument at hr ⊢
  cases hl : locLines h (sortedLocations h (shipLocationsOf (orFalsy (data.get "details") emptyObj))) with
  | error e => simp [hl] at hr
  | ok lines =>
    cases hi : itemNames (asArray ((orFalsy (data.get "details") emptyObj).get "customer_orders")) with
    | error e => simp [hl, hi] at hr
    | ok names =>
      simp only [hl, hi, unitsFollowParents, renderEmail, wireDependentCheckbox]
      constructor
      · intro hw
        simp [hw]
      · intro ht
        simp [ht]

/-- C19 (as amended). After a run of `renderSummary` on an object that does
not raise, a parent box (weight, temperature) that is off has its unit box
off; a click on a parent box that leaves it off switches its unit box off at
once; a click on any box other than the two unit boxes keeps that
dependency; a click on a unit box changes the unit flag alone, whatever the
state of its parent. -/
theorem dependentToggle_enforced_on_parent (h : Host) (data : Json) (dom d : Dom) :
    (data.truthy = true → data.isObjectType = true →
        (renderSummary h (some data) dom).raised = none →
        unitsFollowParents (renderSummary h (some data) dom).dom) ∧
      ((toggle Box.weight d).chkWeight = false → (toggle Box.weight d).chkWeightUnit = false) ∧
      ((toggle Box.temperature d).chkTemperature = false →
        (toggle Box.temperature d).chkTemperatureUnit = false) ∧
      (∀ b, b ≠ Box.weightUnit → b ≠ Box.temperatureUnit → unitsFollowParents d →
        unitsFollowParents (toggle b d)) ∧
      ((toggle Box.weightUnit d).chkWeightUnit = !d.chkWeightUnit ∧
        (toggle Box.weightUnit d).chkWeight = d.chkWeight) ∧
      ((toggle Box.temperatureUnit d).chkTemperatureUnit = !d.chkTemperatureUnit ∧
        (toggle Box.temperatureUnit d).chkTemperature = d.chkTemperature) := by
  refine ⟨?_, ?_, ?_, ?_, ⟨rfl, rfl⟩, ⟨rfl, rfl⟩⟩
  · intro h1 h2 hr
    rw [renderSummary_object h data dom ⟨h1, h2⟩] at hr ⊢
    exact renderDocument_unitsFollowParents h data dom hr
  · intro hw
    simp only [toggle, renderEmail, wireDependentCheckbox] at hw ⊢
    simp [hw]
  · intro ht
    simp only [toggle, renderEmail, wireDependentCheckbox] at ht ⊢
    simp [ht]
  · intro b hb1 hb2 hinv
    obtain ⟨hw, ht⟩ := hinv
    cases b
    · exact ⟨hw, ht⟩
    · refine ⟨?_, ht⟩
      intro hc
      simp only [toggle, renderEmail, wireDependentCheckbox] at hc ⊢
      simp [hc]
    · exact absurd rfl hb1
    · exact ⟨hw, ht⟩
    · refine ⟨hw, ?_⟩
      intro hc
      simp only [toggle, renderEmail, wireDependentCheckbox] at hc ⊢
      simp [hc]
    · exact absurd rfl hb2
    · exact ⟨hw, ht⟩
    · exact ⟨hw, ht⟩

/-- C19 at concrete pages: the page after a run on the empty document, and a
click on the weight box of a page that shows a weight with its unit. -/
theorem dependentToggle_enforced_on_parent_witness :
    unitsFollowParents (renderSummary utcHost (some (Json.obj [])) sampleDom).dom ∧
      (toggle Box.weight sampleDom).chkWeightUnit = false ∧
      unitsFollowParents (toggle Box.rate sampleDom) := by
  have r := dependentToggle_enforced_on_parent utcHost (Json.obj []) sampleDom sampleDom
  exact ⟨r.1 rfl rfl rfl, r.2.1 rfl,
    r.2.2.2.1 Box.rate (by decide) (by decide) ⟨by decide, by decide⟩⟩

/-- C19 is false as stated: on the page left by a run on the empty document
(weight off, unit off) a click on the weight unit box switches the unit on
while the weight stays off. -/
theorem unit_toggle_breaks_dependency_counterexample :
    (renderSummary utcHost (some (Json.obj [])) sampleDom).dom.chkWeight = false ∧
      (renderSummary utcHost (some (Json.obj [])) sampleDom).dom.chkWeightUnit = false ∧
      (toggle Box.weightUnit (renderSummary utcHost (some (Json.obj [])) sampleDom).dom).chkWeight
        = false ∧
      (toggle Box.weightUnit
        (renderSummary utcHost (some (Json.obj [])) sampleDom).dom).chkWeightUnit = true := by
  decide

/-! ## Sort key and shown date -/

/-- C20, the code at a failing input: a waypoint whose `appointment.date` is
the empty string and whose `date` is `2024-01-01T08:00:00Z` is dateless for
the comparator, which returns the empty string, while its line is built from
`date` and shows `Jan 1 - (08:00)`; it is sorted after a waypoint dated one
month later. -/
theorem sortKey_differs_from_shown_date :
    getLocationDate (Json.obj [("appointment", Json.obj [("date", Json.str "")]),
        ("date", Json.str "2024-01-01T08:00:00Z")]) = Json.str "" ∧
      (rawDateAndFlex utcHost (Json.obj [("appointment", Json.obj [("date", Json.str "")]),
        ("date", Json.str "2024-01-01T08:00:00Z")])).1 = Json.str "2024-01-01T08:00:00Z" ∧
      locLine utcHost (Json.obj [("appointment", Json.obj [("date", Json.str "")]),
        ("date", Json.str "2024-01-01T08:00:00Z")]) = Except.ok "Jan 1 - (08:00)" ∧
      locLines utcHost (sortedLocations utcHost
        [Json.obj [("appointment", Json.obj [("date", Json.str "")]),
          ("date", Json.str "2024-01-01T08:00:00Z")],
         Json.obj [("date", Json.str "2024-02-01T08:00:00Z")]]) =
        Except.ok ["Feb 1 - (08:00)", "Jan 1 - (08:00)"] :=
  ⟨rfl, rfl, rfl, rfl⟩

/-! ## Token round trip -/

theorem bearerSplit_built {v t : List Char} (h : BearerSplit v t) :
    BearerSplit ("Bearer ".data ++ t) t := by
  obtain ⟨_, _, _, _, _, _, hne, hlt, hmax⟩ := h
  refine ⟨['B', 'e', 'a', 'r', 'e', 'r'], [' '], rfl, by decide, by simp, ?_, hne, hlt, hmax⟩
  intro c hc
  simp at hc
  subst hc
  decide

theorem bearerMatch_built {v t : String} (h : bearerMatch v = some t) :
    bearerMatch ("Bearer " ++ t) = some t := by
  rw [bearerMatch_eq_some_iff] at h ⊢
  exact bearerSplit_built h

theorem captured_of_observed {hs : List HttpHeader} {t : String}
    (h : onBeforeSendHeaders (some hs) none = some t) : ∃ v, bearerMatch v = some t := by
  have h1 : hs.foldl observeHeader none = some t := h
  rw [foldl_observeHeader] at h1
  cases hl : (hs.filter (fun h => (headerCapture h).isSome)).getLast? with
  | none => rw [hl] at h1; cases h1
  | some hd =>
    rw [hl] at h1
    simp only at h1
    obtain ⟨n, v, _, _, _, hsplit⟩ := (headerCapture_eq_some_iff hd t).mp h1
    exact ⟨v, (bearerMatch_eq_some_iff v t).mpr hsplit⟩

theorem headerCapture_built {t : String} (h : bearerMatch ("Bearer " ++ t) = some t) :
    headerCapture ⟨some "authorization", some ("Bearer " ++ t)⟩ = some t := by
  rw [headerCapture_eq_some_iff]
  exact ⟨"authorization", "Bearer " ++ t, rfl, rfl, by decide, (bearerMatch_eq_some_iff _ _).mp h⟩

theorem observe_fetchHeaders {t : String} (h : bearerMatch ("Bearer " ++ t) = some t)
    (prev : Option String) (extra : List HttpHeader)
    (hextra : ∀ x ∈ extra, headerCapture x = none) :
    onBeforeSendHeaders (some (fetchHeaders ("Bearer " ++ t) ++ extra)) prev = some t := by
  have hc := headerCapture_built h
  have ha : headerCapture ⟨some "accept", some "application/json, text/plain, */*"⟩ = none := by
    decide
  have hr : headerCapture ⟨some "referer", some "https://app.turvo.com/"⟩ = none := by
    decide
  have hx : ∀ (p : Option String), extra.foldl observeHeader p = p := by
    induction extra with
    | nil => intro p; rfl
    | cons x xs ih =>
      intro p
      have hx0 := hextra x (List.mem_cons_self _ _)
      simp only [List.foldl_cons, observeHeader, hx0]
      exact ih (fun y hy => hextra y (List.mem_cons_of_mem _ hy)) p
  simp only [onBeforeSendHeaders, fetchHeaders, List.foldl_append, List.foldl_cons,
    List.foldl_nil, observeHeader, ha, hr, hc, hx]

/-- C21. For every token `t` the observer captures: the header value
`Bearer ` followed by `t` is matched by the pattern and yields `t`; the
FETCH_SHIPMENT handler, with `t` as the captured token, issues one request
whose `authorization` is that value and leaves the token as it is; the list
client called with `t` sends that value; and the observer run on the headers
of such a request (with any further headers that capture nothing) ends with
`t` as the token, whatever the token was before. -/
theorem token_round_trip (hs : List HttpHeader) (t : String)
    (hcap : onBeforeSendHeaders (some hs) none = some t) :
    bearerMatch ("Bearer " ++ t) = some t ∧
      (∀ (net : FetchRequest → FetchResult) (now : Int) (session : Storage) (m : Json),
        m.get "type" = some (Json.str "FETCH_SHIPMENT") →
        truthy (m.get "shipmentId") = true →
        (onMessage net now ⟨some t, session⟩ (some m)).requests = [buildRequest t m] ∧
          (buildRequest t m).authorization = "Bearer " ++ t ∧
          (onMessage net now ⟨some t, session⟩ (some m)).state.lastBearerToken = some t) ∧
      (∀ customId : JsVal, truthy customId = true →
        fetchShipmentList echoAuthorization (some (Json.str t)) customId =
          Except.error ("Bearer " ++ t)) ∧
      (∀ (prev : Option String) (extra : List HttpHeader),
        (∀ x ∈ extra, headerCapture x = none) →
        onBeforeSendHeaders (some (fetchHeaders ("Bearer " ++ t) ++ extra)) prev = some t) := by
  obtain ⟨v, hv⟩ := captured_of_observed hcap
  have hb := bearerMatch_built hv
  have hne : t ≠ "" := by
    intro h0
    obtain ⟨_, _, _, _, _, _, hne, _⟩ := (bearerMatch_eq_some_iff v t).mp hv
    rw [h0] at hne
    exact hne rfl
  refine ⟨hb, ?_, ?_, observe_fetchHeaders hb⟩
  · intro net now session m hty hid
    rw [onMessage_fetch net now _ m hty]
    unfold handleFetchShipment
    have hst : strTruthy (some t) = true := by simp [strTruthy, hne]
    simp only [hst, hid, Bool.not_true, Bool.or_self, Bool.false_eq_true, if_false,
      Option.getD_some]
    refine ⟨?_, rfl, ?_⟩
    · cases hnet : net (buildRequest t m) with
      | rejected msg => rfl
      | resolved resp =>
        show (match responseData resp with
          | Except.error _ => _
          | Except.ok _ => _ : Outcome).requests = _
        cases hdata : responseData resp with
        | error msg => rfl
        | ok data => cases htab : hasTabId (m.get "tabId") <;> simp
    · cases hnet : net (buildRequest t m) with
      | rejected msg => rfl
      | resolved resp =>
        show (match responseData resp with
          | Except.error _ => _
          | Except.ok _ => _ : Outcome).state.lastBearerToken = _
        cases hdata : responseData resp with
        | error msg => rfl
        | ok data => cases htab : hasTabId (m.get "tabId") <;> simp
  · intro customId hcid
    have htok : truthy (some (Json.str t)) = true := by
      simp [truthy, Json.truthy, hne]
    simp [fetchShipmentList, htok, hcid, echoAuthorization, jsString, Json.toJsString]

/-- C21 at a concrete token: `abc def`, captured from the header value
`bearer  abc def`. -/
theorem token_round_trip_witness :
    onBeforeSendHeaders (some [⟨some "Authorization", some "bearer  abc def"⟩]) none =
        some "abc def" ∧
      bearerMatch "Bearer abc def" = some "abc def" ∧
      onBeforeSendHeaders (some (fetchHeaders "Bearer abc def")) (some "abc def") =
        some "abc def" := by
  have r := token_round_trip [⟨some "Authorization", some "bearer  abc def"⟩] "abc def"
    (by decide)
  exact ⟨by decide, r.1, r.2.2.2 (some "abc def") [] (by simp)⟩

end ShipmentEmailer
